import Mathlib

/-!
# MpvObject: the control facade of the libmpv Qt Quick plugin

A shallow embedding of `src/mpvobject.cpp`.

* The native player (libmpv, reached through `mpv::qt`) is an external
  collaborator.  It is represented by a record `Mpv σ` of functions over an
  arbitrary type `σ` of native states; every theorem quantifies over the
  record, so nothing is assumed about how the player answers.
* A member function of `MpvObject` becomes a function that takes the object
  (its three data members, the native state and the trace of what happened so
  far) and returns its C++ result together with the object afterwards.
* The trace records, in program order, every native call and every emitted
  Qt signal.  Diagnostic output (`qDebug`, `qWarning`) is not recorded.
* `int` is a 32 bit and `qint64` a 64 bit two's complement integer; sums that
  can leave the range are reduced explicitly.
-/

namespace MpvPlugin

/-! ## Qt helpers -/

/-- The template `qMax(a, b)`: `(a < b) ? b : a`. -/
def qMax {α : Type} [LT α] [DecidableRel (fun (a b : α) => a < b)] (a b : α) : α :=
  if a < b then b else a

/-- The template `qMin(a, b)`: `(a < b) ? a : b`. -/
def qMin {α : Type} [LT α] [DecidableRel (fun (a b : α) => a < b)] (a b : α) : α :=
  if a < b then a else b

/-- The template `qBound(min, val, max)`: `qMax(min, qMin(max, val))`. -/
def qBound {α : Type} [LT α] [DecidableRel (fun (a b : α) => a < b)] (lo v hi : α) : α :=
  qMax lo (qMin hi v)

/-- Reduction of an integer to the range of a 32 bit `int`. -/
def toInt32 (x : Int) : Int := (x + 2147483648) % 4294967296 - 2147483648

/-- Reduction of an integer to the range of a 64 bit `qint64`. -/
def toInt64 (x : Int) : Int :=
  (x + 9223372036854775808) % 18446744073709551616 - 9223372036854775808

/-- The value of a non-empty run of decimal digits; `none` for any other
text. -/
def digitsValue (cs : List Char) : Option Nat :=
  if cs.isEmpty || !cs.all Char.isDigit then none
  else some (cs.foldl (fun n c => n * 10 + (c.toNat - 48)) 0)

/-- The call `QString::toLongLong(&ok)`: the number a text of decimal digits
with an optional sign denotes, `none` (`ok` false) for any other text and for
a number outside the range of `qint64`.  Surrounding white space is not
modelled. -/
def decimalNumber (s : String) : Option Int :=
  let r : Option Int :=
    match s.data with
    | '-' :: rest => (digitsValue rest).map (fun n => -(n : Int))
    | '+' :: rest => (digitsValue rest).map (fun n => (n : Int))
    | cs => (digitsValue cs).map (fun n => (n : Int))
  match r with
  | some i =>
    if -9223372036854775808 ≤ i ∧ i < 9223372036854775808 then some i else none
  | none => none

/-- The value a `QVariant` carries.  The kinds are the ones a libmpv node can
hold (flag, 64 bit integer, double, string, array, map), the invalid variant
`QVariant()`, and `null`: a valid variant whose payload is null, such as
`QVariant(QString())`.  A double is represented by a rational number. -/
inductive QVariant where
  | invalid
  | null
  | bool (b : Bool)
  | int (i : Int)
  | real (q : Rat)
  | string (s : String)
  | list (l : List QVariant)
  | map (m : List (String × QVariant))
  deriving Repr

namespace QVariant

/-- The member `QVariant::isValid()`. -/
def isValid : QVariant → Bool
  | invalid => false
  | _ => true

/-- The member `QVariant::isNull()`. -/
def isNull : QVariant → Bool
  | invalid => true
  | null => true
  | _ => false

/-- The member `QVariant::toBool()`: a number is true when it is not zero, a
string when its lower-case content is none of the empty string, `0`, `false`. -/
def toBool : QVariant → Bool
  | bool b => b
  | int i => decide (i ≠ 0)
  | real q => decide (q ≠ 0)
  | string s =>
    let t := String.mk (s.data.map Char.toLower)
    !(decide (t = "") || decide (t = "0") || decide (t = "false"))
  | _ => false

/-- The number a variant converts to before it is narrowed to an integer
type; a double is rounded to the nearest integer (`qRound64`), a string is read
as a decimal number, and what cannot be converted gives 0. -/
def toNumber : QVariant → Int
  | bool b => if b then 1 else 0
  | int i => i
  | real q => Int.floor (q + 1 / 2)
  | string s => (decimalNumber s).getD 0
  | _ => 0

/-- The member `QVariant::toLongLong()`. -/
def toLongLong (v : QVariant) : Int := toInt64 v.toNumber

/-- The member `QVariant::toInt()`: the converted number narrowed to `int`. -/
def toInt (v : QVariant) : Int := toInt32 v.toNumber

/-- The member `QVariant::toReal()`. -/
def toReal : QVariant → Rat
  | bool b => if b then 1 else 0
  | int i => (i : Rat)
  | real q => q
  | string s => (((decimalNumber s).getD 0 : Int) : Rat)
  | _ => 0

/-- The member `QVariant::toString()`.  The text Qt prints for a double is not
modelled. -/
def toString : QVariant → String
  | bool b => if b then "true" else "false"
  | int i => ToString.toString i
  | string s => s
  | _ => ""

/-- The member `QVariant::toList()`. -/
def toList : QVariant → List QVariant
  | list l => l
  | _ => []

/-- The member `QVariant::toMap()`. -/
def toMap : QVariant → List (String × QVariant)
  | map m => m
  | _ => []

end QVariant

/-- A `QMap<QString, QVariant>` (also `QVariantMap`), kept as an association
list in which a key occurs at most once when built with `QMap.insert`. -/
abbrev QMap := List (String × QVariant)

namespace QMap

/-- Reading `m[key]` on a constant map: the stored value, or a default
constructed (invalid) variant when the key is absent. -/
def value : QMap → String → QVariant
  | [], _ => QVariant.invalid
  | (k, v) :: rest, key => if k = key then v else value rest key

/-- The assignment `m[key] = v` on a mutable map: replaces the value of an
existing key, adds the key otherwise. -/
def insert : QMap → String → QVariant → QMap
  | [], key, v => [(key, v)]
  | (k, x) :: rest, key, v => if k = key then (k, v) :: rest else (k, x) :: insert rest key v

end QMap

/-- A `QUrl`, represented by what the program observes of it: `isValid()`,
`isLocalFile()`, `toLocalFile()` and `url()`.  Two locators are equal when
these agree. -/
structure QUrl where
  isValid : Bool
  isLocalFile : Bool
  toLocalFile : String
  url : String
  deriving DecidableEq, Repr

/-- The default constructed locator `QUrl()`, also the result of `clear()`. -/
def QUrl.empty : QUrl :=
  { isValid := false, isLocalFile := false, toLocalFile := "", url := "" }

/-! ## Enumerations of `MpvObject` -/

/-- The enumeration `MpvObject::PlaybackState`. -/
inductive PlaybackState where
  | Stopped
  | Paused
  | Playing
  deriving DecidableEq, Repr

/-- Modelled from the spec: the enumeration `MpvObject::MediaStatus` is declared
in `mpvobject.h`, which is absent; the spec lists the members Loading, Loaded,
Buffering, Buffered, End and Stalled/Unknown. -/
inductive MediaStatus where
  | Unknown
  | Loading
  | Loaded
  | Stalled
  | Buffering
  | Buffered
  | End
  deriving DecidableEq, Repr

/-- The enumeration `MpvObject::LogLevel`, with the members `setLogLevel`
switches over. -/
inductive LogLevel where
  | Off
  | Debug
  | Warning
  | Critical
  | Fatal
  | Info
  deriving DecidableEq, Repr

/-- The enumeration `MpvObject::MpvCallType`. -/
inductive MpvCallType where
  | Synchronous
  | Asynchronous
  deriving DecidableEq, Repr

/-! ## The native player -/

/-- The member `log_level` of `mpv_event_log_message`. -/
inductive mpv_log_level where
  | MPV_LOG_LEVEL_NONE
  | MPV_LOG_LEVEL_FATAL
  | MPV_LOG_LEVEL_ERROR
  | MPV_LOG_LEVEL_WARN
  | MPV_LOG_LEVEL_INFO
  | MPV_LOG_LEVEL_V
  | MPV_LOG_LEVEL_DEBUG
  | MPV_LOG_LEVEL_TRACE
  deriving DecidableEq, Repr

/-- An `mpv_event` as `handleMpvEvents` reads it: the event id, with the log
message or the property name for the two kinds whose data is used.
`MPV_EVENT_OTHER` stands for every id the `switch` has no case for. -/
inductive mpv_event where
  | MPV_EVENT_NONE
  | MPV_EVENT_SHUTDOWN
  | MPV_EVENT_LOG_MESSAGE (log_level : mpv_log_level) (text : String)
  | MPV_EVENT_GET_PROPERTY_REPLY
  | MPV_EVENT_SET_PROPERTY_REPLY
  | MPV_EVENT_COMMAND_REPLY
  | MPV_EVENT_START_FILE
  | MPV_EVENT_END_FILE
  | MPV_EVENT_FILE_LOADED
  | MPV_EVENT_IDLE
  | MPV_EVENT_CLIENT_MESSAGE
  | MPV_EVENT_VIDEO_RECONFIG
  | MPV_EVENT_AUDIO_RECONFIG
  | MPV_EVENT_SEEK
  | MPV_EVENT_PLAYBACK_RESTART
  | MPV_EVENT_PROPERTY_CHANGE (name : String)
  | MPV_EVENT_QUEUE_OVERFLOW
  | MPV_EVENT_HOOK
  | MPV_EVENT_OTHER (event_id : Nat)
  deriving DecidableEq, Repr

/-- The native player as the facade uses it.  `σ` is the type of states of the
player.  A read returns a variant and leaves the player as it is; every other
call returns the error code of the C API (negative on failure) and the state
of the player afterwards.  `command` is `get_error(mpv::qt::command(..))`. -/
structure Mpv (σ : Type) where
  get_property : σ → String → QVariant
  set_property : σ → String → QVariant → Int × σ
  set_property_async : σ → String → QVariant → Int × σ
  command : σ → QVariant → Int × σ
  command_async : σ → QVariant → Int × σ
  mpv_request_log_messages : σ → String → Int × σ
  mpv_wait_event : σ → mpv_event × σ

/-- One observable step of the facade: a native call (writes, commands and log
requests with the error code they returned) or an emitted Qt signal, named as
in the source. -/
inductive Effect where
  | getProperty (name : String)
  | setProperty (async : Bool) (name : String) (value : QVariant) (errorCode : Int)
  | command (async : Bool) (arguments : QVariant) (errorCode : Int)
  | requestLogMessages (level : String) (errorCode : Int)
  | waitEvent
  | emit (signal : String)
  deriving Repr

/-- The object: the native handle `mpv` (as the state of the player), the data
members `currentSource`, `currentMediaStatus`, `currentMpvCallType`, and the
trace of effects so far. -/
structure MpvObject (σ : Type) where
  mpv : σ
  currentSource : QUrl
  currentMediaStatus : MediaStatus
  currentMpvCallType : MpvCallType
  trace : List Effect

variable {σ : Type}

/-- Appends one effect to the trace. -/
def MpvObject.log (w : MpvObject σ) (e : Effect) : MpvObject σ :=
  { w with trace := w.trace ++ [e] }

/-- The statement `Q_EMIT signal()`. -/
def MpvObject.emit (w : MpvObject σ) (signal : String) : MpvObject σ :=
  w.log (Effect.emit signal)

/-- Appends a list of effects to the trace. -/
def MpvObject.logs (w : MpvObject σ) (es : List Effect) : MpvObject σ :=
  { w with trace := w.trace ++ es }

/-! ## Native access -/

/-- The accessor `MpvObject::mpvCallType`. -/
def mpvCallType (w : MpvObject σ) : MpvCallType := w.currentMpvCallType

/-- The accessor `MpvObject::mediaStatus`. -/
def mediaStatus (w : MpvObject σ) : MediaStatus := w.currentMediaStatus

/-- The function `MpvObject::mpvGetProperty` for a non-null name (every caller
passes a literal). -/
def mpvGetProperty (L : Mpv σ) (w : MpvObject σ) (name : String) : QVariant × MpvObject σ :=
  (L.get_property w.mpv name, w.log (Effect.getProperty name))

/-- The function `MpvObject::mpvSetProperty` for a non-null name. -/
def mpvSetProperty (L : Mpv σ) (w : MpvObject σ) (name : String) (value : QVariant) :
    Bool × MpvObject σ :=
  if value.isNull || !value.isValid then (false, w)
  else
    let async := decide (mpvCallType w = MpvCallType.Asynchronous)
    let r := if async then L.set_property_async w.mpv name value
             else L.set_property w.mpv name value
    (decide (r.1 ≥ 0),
      { w with mpv := r.2, trace := w.trace ++ [Effect.setProperty async name value r.1] })

/-- The function `MpvObject::mpvSendCommand`. -/
def mpvSendCommand (L : Mpv σ) (w : MpvObject σ) (arguments : QVariant) : Bool × MpvObject σ :=
  if arguments.isNull || !arguments.isValid then (false, w)
  else
    let async := decide (mpvCallType w = MpvCallType.Asynchronous)
    let r := if async then L.command_async w.mpv arguments else L.command w.mpv arguments
    (decide (r.1 ≥ 0),
      { w with mpv := r.2, trace := w.trace ++ [Effect.command async arguments r.1] })

/-! ## Playback state -/

/-- The accessor `MpvObject::playbackState`. -/
def playbackState (L : Mpv σ) (w : MpvObject σ) : PlaybackState × MpvObject σ :=
  let r1 := mpvGetProperty L w "idle-active"
  let stopped := r1.1.toBool
  let r2 := mpvGetProperty L r1.2 "pause"
  let paused := r2.1.toBool
  (if stopped then PlaybackState.Stopped
   else (if paused then PlaybackState.Paused else PlaybackState.Playing), r2.2)

/-- The predicate `MpvObject::isPlaying`. -/
def isPlaying (L : Mpv σ) (w : MpvObject σ) : Bool × MpvObject σ :=
  let r := playbackState L w
  (decide (r.1 = PlaybackState.Playing), r.2)

/-- The predicate `MpvObject::isPaused`. -/
def isPaused (L : Mpv σ) (w : MpvObject σ) : Bool × MpvObject σ :=
  let r := playbackState L w
  (decide (r.1 = PlaybackState.Paused), r.2)

/-- The predicate `MpvObject::isStopped`. -/
def isStopped (L : Mpv σ) (w : MpvObject σ) : Bool × MpvObject σ :=
  let r := playbackState L w
  (decide (r.1 = PlaybackState.Stopped), r.2)

/-- The predicate `MpvObject::isLoaded`. -/
def isLoaded (w : MpvObject σ) : Bool :=
  decide (mediaStatus w = MediaStatus.Loaded) ||
  decide (mediaStatus w = MediaStatus.Buffering) ||
  decide (mediaStatus w = MediaStatus.Buffered)

/-! ## Accessors -/

/-- The accessor `MpvObject::source`. -/
def source (L : Mpv σ) (w : MpvObject σ) : QUrl × MpvObject σ :=
  let r := isStopped L w
  (if r.1 then QUrl.empty else r.2.currentSource, r.2)

/-- The accessor `MpvObject::fileName`. -/
def fileName (L : Mpv σ) (w : MpvObject σ) : String × MpvObject σ :=
  let r := isStopped L w
  if r.1 then ("", r.2)
  else
    let p := mpvGetProperty L r.2 "filename"
    (p.1.toString, p.2)

/-- The accessor `MpvObject::duration`. -/
def duration (L : Mpv σ) (w : MpvObject σ) : Int × MpvObject σ :=
  let r := isStopped L w
  if r.1 then (0, r.2)
  else
    let p := mpvGetProperty L r.2 "duration"
    (qMax p.1.toLongLong 0, p.2)

/-- The accessor `MpvObject::position`.  The arguments of `qBound` are
evaluated from left to right. -/
def position (L : Mpv σ) (w : MpvObject σ) : Int × MpvObject σ :=
  let r := isStopped L w
  if r.1 then (0, r.2)
  else
    let p := mpvGetProperty L r.2 "time-pos"
    let d := duration L p.2
    (qBound 0 p.1.toLongLong d.1, d.2)

/-- The accessor `MpvObject::volume`. -/
def volume (L : Mpv σ) (w : MpvObject σ) : Int × MpvObject σ :=
  let p := mpvGetProperty L w "volume"
  (qBound 0 p.1.toInt 100, p.2)

/-- The accessor `MpvObject::mute`. -/
def mute (L : Mpv σ) (w : MpvObject σ) : Bool × MpvObject σ :=
  let p := mpvGetProperty L w "mute"
  (p.1.toBool, p.2)

/-- The accessor `MpvObject::hwdec`, which reads `hwdec-current`. -/
def hwdec (L : Mpv σ) (w : MpvObject σ) : String × MpvObject σ :=
  let p := mpvGetProperty L w "hwdec-current"
  (p.1.toString, p.2)

/-- The accessor `MpvObject::vid`. -/
def vid (L : Mpv σ) (w : MpvObject σ) : Int × MpvObject σ :=
  let r := isStopped L w
  if r.1 then (0, r.2)
  else
    let p := mpvGetProperty L r.2 "vid"
    (p.1.toInt, p.2)

/-- The accessor `MpvObject::aid`. -/
def aid (L : Mpv σ) (w : MpvObject σ) : Int × MpvObject σ :=
  let r := isStopped L w
  if r.1 then (0, r.2)
  else
    let p := mpvGetProperty L r.2 "aid"
    (p.1.toInt, p.2)

/-- The accessor `MpvObject::sid`. -/
def sid (L : Mpv σ) (w : MpvObject σ) : Int × MpvObject σ :=
  let r := isStopped L w
  if r.1 then (0, r.2)
  else
    let p := mpvGetProperty L r.2 "sid"
    (p.1.toInt, p.2)

/-- The accessor `MpvObject::videoRotate`.  The sum is an `int` sum and `%` is
the C++ remainder, which truncates towards zero.  Where the sum leaves the
range of `int` C++ leaves the evaluation undefined; here it wraps around, as
two's complement hardware does when the compiler emits a plain addition. -/
def videoRotate (L : Mpv σ) (w : MpvObject σ) : Int × MpvObject σ :=
  let r := isStopped L w
  if r.1 then (0, r.2)
  else
    let p := mpvGetProperty L r.2 "video-out-params/rotate"
    (qMin (Int.tmod (toInt32 (qMax p.1.toInt 0 + 360)) 360) 359, p.2)

/-- The accessor `MpvObject::videoAspect`. -/
def videoAspect (L : Mpv σ) (w : MpvObject σ) : Rat × MpvObject σ :=
  let r := isStopped L w
  if r.1 then (17777 / 10000, r.2)
  else
    let p := mpvGetProperty L r.2 "video-out-params/aspect"
    (qMax p.1.toReal 0, p.2)

/-- The accessor `MpvObject::speed`. -/
def speed (L : Mpv σ) (w : MpvObject σ) : Rat × MpvObject σ :=
  let p := mpvGetProperty L w "speed"
  (qMax p.1.toReal 0, p.2)

/-- The accessor `MpvObject::deinterlace`. -/
def deinterlace (L : Mpv σ) (w : MpvObject σ) : Bool × MpvObject σ :=
  let p := mpvGetProperty L w "deinterlace"
  (p.1.toBool, p.2)

/-- The accessor `MpvObject::audioExclusive`. -/
def audioExclusive (L : Mpv σ) (w : MpvObject σ) : Bool × MpvObject σ :=
  let p := mpvGetProperty L w "audio-exclusive"
  (p.1.toBool, p.2)

/-- The accessor `MpvObject::audioFileAuto`. -/
def audioFileAuto (L : Mpv σ) (w : MpvObject σ) : String × MpvObject σ :=
  let p := mpvGetProperty L w "audio-file-auto"
  (p.1.toString, p.2)

/-- The accessor `MpvObject::subAuto`. -/
def subAuto (L : Mpv σ) (w : MpvObject σ) : String × MpvObject σ :=
  let p := mpvGetProperty L w "sub-auto"
  (p.1.toString, p.2)

/-- The test `s.startsWith(QChar::fromLatin1('+'))`. -/
def startsWithPlus (s : String) : Bool :=
  match s.data with
  | c :: _ => decide (c = '+')
  | [] => false

/-- The test `s.startsWith(QString::fromUtf8("cp"))`. -/
def startsWithCp (s : String) : Bool :=
  match s.data with
  | a :: b :: _ => decide (a = 'c') && decide (b = 'p')
  | _ => false

/-- The accessor `MpvObject::subCodepage`: a leading `+` is removed. -/
def subCodepage (L : Mpv σ) (w : MpvObject σ) : String × MpvObject σ :=
  let p := mpvGetProperty L w "sub-codepage"
  let codePage := p.1.toString
  (if startsWithPlus codePage then String.mk codePage.data.tail else codePage, p.2)

/-- The accessor `MpvObject::vo`. -/
def vo (L : Mpv σ) (w : MpvObject σ) : String × MpvObject σ :=
  let p := mpvGetProperty L w "vo"
  (p.1.toString, p.2)

/-- The accessor `MpvObject::ao`. -/
def ao (L : Mpv σ) (w : MpvObject σ) : String × MpvObject σ :=
  let p := mpvGetProperty L w "ao"
  (p.1.toString, p.2)

/-- The accessor `MpvObject::screenshotFormat`. -/
def screenshotFormat (L : Mpv σ) (w : MpvObject σ) : String × MpvObject σ :=
  let p := mpvGetProperty L w "screenshot-format"
  (p.1.toString, p.2)

/-- The accessor `MpvObject::screenshotTagColorspace`. -/
def screenshotTagColorspace (L : Mpv σ) (w : MpvObject σ) : Bool × MpvObject σ :=
  let p := mpvGetProperty L w "screenshot-tag-colorspace"
  (p.1.toBool, p.2)

/-- The accessor `MpvObject::screenshotPngCompression`. -/
def screenshotPngCompression (L : Mpv σ) (w : MpvObject σ) : Int × MpvObject σ :=
  let p := mpvGetProperty L w "screenshot-png-compression"
  (qBound 0 p.1.toInt 9, p.2)

/-- The accessor `MpvObject::screenshotJpegQuality`. -/
def screenshotJpegQuality (L : Mpv σ) (w : MpvObject σ) : Int × MpvObject σ :=
  let p := mpvGetProperty L w "screenshot-jpeg-quality"
  (qBound 0 p.1.toInt 100, p.2)

/-- The accessor `MpvObject::screenshotTemplate`. -/
def screenshotTemplate (L : Mpv σ) (w : MpvObject σ) : String × MpvObject σ :=
  let p := mpvGetProperty L w "screenshot-template"
  (p.1.toString, p.2)

/-- The accessor `MpvObject::screenshotDirectory`. -/
def screenshotDirectory (L : Mpv σ) (w : MpvObject σ) : String × MpvObject σ :=
  let p := mpvGetProperty L w "screenshot-directory"
  (p.1.toString, p.2)

/-- The accessor `MpvObject::profile`. -/
def profile (L : Mpv σ) (w : MpvObject σ) : String × MpvObject σ :=
  let p := mpvGetProperty L w "profile"
  (p.1.toString, p.2)

/-- The accessor `MpvObject::hrSeek`. -/
def hrSeek (L : Mpv σ) (w : MpvObject σ) : Bool × MpvObject σ :=
  let p := mpvGetProperty L w "hr-seek"
  (p.1.toBool, p.2)

/-- The accessor `MpvObject::ytdl`. -/
def ytdl (L : Mpv σ) (w : MpvObject σ) : Bool × MpvObject σ :=
  let p := mpvGetProperty L w "ytdl"
  (p.1.toBool, p.2)

/-- The accessor `MpvObject::loadScripts`. -/
def loadScripts (L : Mpv σ) (w : MpvObject σ) : Bool × MpvObject σ :=
  let p := mpvGetProperty L w "load-scripts"
  (p.1.toBool, p.2)

/-- The accessor `MpvObject::percentPos`. -/
def percentPos (L : Mpv σ) (w : MpvObject σ) : Int × MpvObject σ :=
  let r := isStopped L w
  if r.1 then (0, r.2)
  else
    let p := mpvGetProperty L r.2 "percent-pos"
    (qBound 0 p.1.toInt 100, p.2)

/-! ## Track and chapter lists -/

/-- The comparison of a variant with a `QString`, as in
`trackInfo["type"] == QString::fromUtf8("video")`, by the rules of
`QVariant::operator==` in Qt 5.  A string variant is compared as text.  For a
variant of another kind the string is converted to that kind, and the two are
unequal when the conversion fails: a flag is compared with the truth value of
the text (false for the empty text, `0` and `false`, true for any other
text), a number with the number the text denotes (a text with a fraction or
an exponent is not modelled and denotes no number here).  The invalid variant,
lists and maps equal no string; a null payload equals the empty text. -/
def QVariant.equalsString : QVariant → String → Bool
  | QVariant.string t, s => decide (t = s)
  | QVariant.null, s => decide (s = "")
  | QVariant.bool b, s => b == (QVariant.string s).toBool
  | QVariant.int i, s =>
    match decimalNumber s with
    | some n => decide (n = i)
    | none => false
  | QVariant.real q, s =>
    match decimalNumber s with
    | some n => decide ((n : Rat) = q)
    | none => false
  | _, _ => false

/-- The variant holds the given string. -/
def QVariant.holdsString : QVariant → String → Bool
  | QVariant.string t, s => decide (t = s)
  | _, _ => false

/-- The structure `MpvObject::MediaTracks`: three lists of `SingleTrackInfo`
maps. -/
structure MediaTracks where
  videoChannels : List QMap
  audioTracks : List QMap
  subtitleStreams : List QMap
  deriving Repr

/-- The fields every kept track receives, in the order of the assignments in
the loop body of `mediaTracks`. -/
def singleTrackInfo (trackInfo : QMap) : QMap :=
  let s : QMap := []
  let s := QMap.insert s "id" (QMap.value trackInfo "id")
  let s := QMap.insert s "type" (QMap.value trackInfo "type")
  let s := QMap.insert s "src-id" (QMap.value trackInfo "src-id")
  let s :=
    if decide ((QMap.value trackInfo "title").toString = "") then
      (if decide ((QMap.value trackInfo "lang").toString ≠ "und") then
        QMap.insert s "title" (QMap.value trackInfo "lang")
      else if !(QMap.value trackInfo "external").toBool then
        QMap.insert s "title" (QVariant.string "[internal]")
      else
        QMap.insert s "title" (QVariant.string "[untitled]"))
    else QMap.insert s "title" (QMap.value trackInfo "title")
  let s := QMap.insert s "lang" (QMap.value trackInfo "lang")
  let s := QMap.insert s "default" (QMap.value trackInfo "default")
  let s := QMap.insert s "forced" (QMap.value trackInfo "forced")
  let s := QMap.insert s "codec" (QMap.value trackInfo "codec")
  let s := QMap.insert s "external" (QMap.value trackInfo "external")
  let s := QMap.insert s "external-filename" (QMap.value trackInfo "external-filename")
  let s := QMap.insert s "selected" (QMap.value trackInfo "selected")
  QMap.insert s "decoder-desc" (QMap.value trackInfo "decoder-desc")

/-- One iteration of the loop of `mediaTracks` over `trackList`. -/
def mediaTracksStep (mediaTracks : MediaTracks) (track : QVariant) : MediaTracks :=
  let trackInfo := track.toMap
  let type := QMap.value trackInfo "type"
  if !type.equalsString "video" && !type.equalsString "audio" && !type.equalsString "sub" then
    mediaTracks
  else
    let s := singleTrackInfo trackInfo
    if type.equalsString "video" then
      let s := QMap.insert s "albumart" (QMap.value trackInfo "albumart")
      let s := QMap.insert s "demux-w" (QMap.value trackInfo "demux-w")
      let s := QMap.insert s "demux-h" (QMap.value trackInfo "demux-h")
      let s := QMap.insert s "demux-fps" (QMap.value trackInfo "demux-fps")
      { mediaTracks with videoChannels := mediaTracks.videoChannels ++ [s] }
    else if type.equalsString "audio" then
      let s := QMap.insert s "demux-channel-count" (QMap.value trackInfo "demux-channel-count")
      let s := QMap.insert s "demux-channels" (QMap.value trackInfo "demux-channels")
      let s := QMap.insert s "demux-samplerate" (QMap.value trackInfo "demux-samplerate")
      { mediaTracks with audioTracks := mediaTracks.audioTracks ++ [s] }
    else if type.equalsString "sub" then
      { mediaTracks with subtitleStreams := mediaTracks.subtitleStreams ++ [s] }
    else mediaTracks

/-- The accessor `MpvObject::mediaTracks`. -/
def mediaTracks (L : Mpv σ) (w : MpvObject σ) : MediaTracks × MpvObject σ :=
  let p := mpvGetProperty L w "track-list"
  let trackList := p.1.toList
  (trackList.foldl mediaTracksStep
    { videoChannels := [], audioTracks := [], subtitleStreams := [] }, p.2)

/-- One iteration of the loop of `chapters` over `chapterList`. -/
def chaptersStep (chapters : List QMap) (chapter : QVariant) : List QMap :=
  let chapterInfo := chapter.toMap
  let s : QMap := []
  let s := QMap.insert s "title" (QMap.value chapterInfo "title")
  let s := QMap.insert s "time" (QMap.value chapterInfo "time")
  chapters ++ [s]

/-- The accessor `MpvObject::chapters`. -/
def chapters (L : Mpv σ) (w : MpvObject σ) : List QMap × MpvObject σ :=
  let p := mpvGetProperty L w "chapter-list"
  let chapterList := p.1.toList
  (chapterList.foldl chaptersStep [], p.2)

/-! ## Media status and notifications -/

/-- The function `MpvObject::setMediaStatus`. -/
def setMediaStatus (w : MpvObject σ) (status : MediaStatus) : MpvObject σ :=
  if mediaStatus w = status then w
  else ({ w with currentMediaStatus := status } : MpvObject σ).emit "mediaStatusChanged"

/-- The function `MpvObject::videoReconfig`. -/
def videoReconfig (w : MpvObject σ) : MpvObject σ := w.emit "videoSizeChanged"

/-- The function `MpvObject::audioReconfig`. -/
def audioReconfig (w : MpvObject σ) : MpvObject σ := w

/-- The function `MpvObject::playbackStateChangeEvent`. -/
def playbackStateChangeEvent (L : Mpv σ) (w : MpvObject σ) : MpvObject σ :=
  let r1 := isPlaying L w
  let w1 := if r1.1 then r1.2.emit "playing" else r1.2
  let r2 := isPaused L w1
  let w2 := if r2.1 then r2.2.emit "paused" else r2.2
  let r3 := isStopped L w2
  let w3 := if r3.1 then r3.2.emit "stopped" else r3.2
  w3.emit "playbackStateChanged"

/-! ## Operations -/

/-- The function `MpvObject::setSource`. -/
def setSource (L : Mpv σ) (w : MpvObject σ) (source : QUrl) : MpvObject σ :=
  if !source.isValid || decide (source = w.currentSource) then w
  else
    let r := mpvSendCommand L w
      (QVariant.list [QVariant.string "loadfile",
        QVariant.string (if source.isLocalFile then source.toLocalFile else source.url)])
    if r.1 then ({ r.2 with currentSource := source } : MpvObject σ).emit "sourceChanged"
    else r.2

/-- The function `MpvObject::play()`. -/
def play (L : Mpv σ) (w : MpvObject σ) : Bool × MpvObject σ :=
  let r := isPaused L w
  if !r.1 || !r.2.currentSource.isValid then (false, r.2)
  else
    let res := mpvSetProperty L r.2 "pause" (QVariant.bool false)
    if res.1 then (res.1, res.2.emit "playing") else (res.1, res.2)

/-- The function `MpvObject::open` (`open` is a reserved word here). -/
def openUrl (L : Mpv σ) (w : MpvObject σ) (url : QUrl) : Bool × MpvObject σ :=
  if !url.isValid then (false, w)
  else
    let w1 := if decide (url ≠ w.currentSource) then setSource L w url else w
    let r := isPlaying L w1
    let w2 := if !r.1 then (play L r.2).2 else r.2
    (true, w2)

/-- The function `MpvObject::play(const QUrl &)`. -/
def playUrl (L : Mpv σ) (w : MpvObject σ) (url : QUrl) : Bool × MpvObject σ :=
  if !url.isValid then (false, w)
  else if decide (url = w.currentSource) then
    let r := isPlaying L w
    if !r.1 then play L r.2 else openUrl L r.2 url
  else openUrl L w url

/-- The function `MpvObject::pause`. -/
def pause (L : Mpv σ) (w : MpvObject σ) : Bool × MpvObject σ :=
  let r := isPlaying L w
  if !r.1 then (false, r.2)
  else
    let res := mpvSetProperty L r.2 "pause" (QVariant.bool true)
    if res.1 then (res.1, res.2.emit "paused") else (res.1, res.2)

/-- The function `MpvObject::stop`. -/
def stop (L : Mpv σ) (w : MpvObject σ) : Bool × MpvObject σ :=
  let r := isStopped L w
  if r.1 then (false, r.2)
  else
    let res := mpvSendCommand L r.2 (QVariant.list [QVariant.string "stop"])
    let w1 := if res.1 then res.2.emit "stopped" else res.2
    (res.1, { w1 with currentSource := QUrl.empty })

/-- Modelled from the spec: the default of the parameter `absolute` of `seek`,
declared in `mpvobject.h`, which is absent.  `seekRelative` calls `seek` with
one argument and the spec has it seek relatively; `setPosition` makes the same
one-argument call. -/
def seekDefaultAbsolute : Bool := false

/-- Modelled from the spec: the default of the parameter `percent` of `seek`,
declared in `mpvobject.h`, which is absent.  `seekAbsolute` calls `seek(v, true)`
and the spec has it seek to an absolute time. -/
def seekDefaultPercent : Bool := false

/-- The mode tag `seek` passes to the native command. -/
def seekMode (absolute percent : Bool) : String :=
  if percent then "absolute-percent" else (if absolute then "absolute" else "relative")

/-- The function `MpvObject::seek`.  Operands are evaluated from left to
right; the negation and the difference are `qint64` operations. -/
def seek (L : Mpv σ) (w : MpvObject σ) (value : Int) (absolute percent : Bool) :
    Bool × MpvObject σ :=
  let r := isStopped L w
  if r.1 then (false, r.2)
  else
    let lo : Int × MpvObject σ :=
      if absolute || percent then (0, r.2)
      else
        let p := position L r.2
        (toInt64 (-p.1), p.2)
    let hi : Int × MpvObject σ :=
      if percent then (100, lo.2)
      else if absolute then duration L lo.2
      else
        let d := duration L lo.2
        let p := position L d.2
        (toInt64 (d.1 - p.1), p.2)
    mpvSendCommand L hi.2
      (QVariant.list [QVariant.string "seek", QVariant.int (qBound lo.1 value hi.1),
        QVariant.string (seekMode absolute percent)])

/-- The function `MpvObject::seekAbsolute`. -/
def seekAbsolute (L : Mpv σ) (w : MpvObject σ) (pos : Int) : Bool × MpvObject σ :=
  let r := isStopped L w
  if r.1 then (false, r.2)
  else
    let p := position L r.2
    if decide (pos = p.1) then (false, p.2)
    else
      let d := duration L p.2
      seek L d.2 (qBound 0 pos d.1) true seekDefaultPercent

/-- The function `MpvObject::seekRelative`. -/
def seekRelative (L : Mpv σ) (w : MpvObject σ) (offset : Int) : Bool × MpvObject σ :=
  let r := isStopped L w
  if r.1 then (false, r.2)
  else if decide (offset = 0) then (false, r.2)
  else
    let p1 := position L r.2
    let d := duration L p1.2
    let p2 := position L d.2
    seek L p2.2 (qBound (toInt64 (-p1.1)) offset (toInt64 (d.1 - p2.1)))
      seekDefaultAbsolute seekDefaultPercent

/-- The function `MpvObject::seekPercent`. -/
def seekPercent (L : Mpv σ) (w : MpvObject σ) (percent : Int) : Bool × MpvObject σ :=
  let r := isStopped L w
  if r.1 then (false, r.2)
  else
    let p := percentPos L r.2
    if decide (percent = p.1) then (false, p.2)
    else seek L p.2 (qBound 0 percent 100) true true

/-- The function `MpvObject::screenshot`. -/
def screenshot (L : Mpv σ) (w : MpvObject σ) : Bool × MpvObject σ :=
  let r := isStopped L w
  if r.1 then (false, r.2)
  else
    mpvSendCommand L r.2
      (QVariant.list [QVariant.string "screenshot", QVariant.string "subtitles"])

/-- The function `MpvObject::screenshotToFile`. -/
def screenshotToFile (L : Mpv σ) (w : MpvObject σ) (filePath : String) : Bool × MpvObject σ :=
  let r := isStopped L w
  if r.1 then (false, r.2)
  else if decide (filePath = "") then (false, r.2)
  else
    mpvSendCommand L r.2
      (QVariant.list [QVariant.string "screenshot-to-file", QVariant.string filePath,
        QVariant.string "subtitles"])

/-! ## Log level -/

/-- The call `s.lastIndexOf(c)`: the index of the last occurrence of `c`, or
-1 when there is none. -/
def lastIndexOf (s : List Char) (c : Char) : Int :=
  match s.reverse.indexOf? c with
  | some i => (s.length : Int) - 1 - (i : Int)
  | none => -1

/-- The call `s.right(n)`: the last `n` characters, the whole string when `n`
is not smaller than its length. -/
def right (s : List Char) (n : Int) : List Char :=
  s.drop (s.length - n.toNat)

/-- The accessor `MpvObject::logLevel`. -/
def logLevel (L : Mpv σ) (w : MpvObject σ) : LogLevel × MpvObject σ :=
  let p := mpvGetProperty L w "msg-level"
  let level := p.1.toString
  if decide (level = "") || decide (level = "no") || decide (level = "off") then
    (LogLevel.Off, p.2)
  else
    let actualLevel := String.mk
      (right level.data ((level.data.length : Int) - lastIndexOf level.data '=' - 1))
    if decide (actualLevel = "") || decide (actualLevel = "no") ||
        decide (actualLevel = "off") then (LogLevel.Off, p.2)
    else if decide (actualLevel = "v") || decide (actualLevel = "debug") ||
        decide (actualLevel = "trace") then (LogLevel.Debug, p.2)
    else if decide (actualLevel = "warn") then (LogLevel.Warning, p.2)
    else if decide (actualLevel = "error") then (LogLevel.Critical, p.2)
    else if decide (actualLevel = "fatal") then (LogLevel.Fatal, p.2)
    else if decide (actualLevel = "info") then (LogLevel.Info, p.2)
    else (LogLevel.Debug, p.2)

/-- The `switch` of `setLogLevel`: the native name of a level. -/
def logLevelName : LogLevel → String
  | LogLevel.Off => "no"
  | LogLevel.Debug => "v"
  | LogLevel.Warning => "warn"
  | LogLevel.Critical => "error"
  | LogLevel.Fatal => "fatal"
  | LogLevel.Info => "info"

/-- The function `MpvObject::setLogLevel`. -/
def setLogLevel (L : Mpv σ) (w : MpvObject σ) (v : LogLevel) : MpvObject σ :=
  let c := logLevel L w
  if decide (v = c.1) then c.2
  else
    let level := logLevelName v
    let r1 := mpvSetProperty L c.2 "terminal" (QVariant.bool (decide (level ≠ "no")))
    let r2 := mpvSetProperty L r1.2 "msg-level" (QVariant.string ("all=" ++ level))
    let r3 := L.mpv_request_log_messages r2.2.mpv level
    let w3 : MpvObject σ :=
      { r2.2 with mpv := r3.2, trace := r2.2.trace ++ [Effect.requestLogMessages level r3.1] }
    if r1.1 && r2.1 && decide (r3.1 ≥ 0) then w3.emit "logLevelChanged" else w3

/-! ## Property setters -/

/-- The function `MpvObject::setMute`. -/
def setMute (L : Mpv σ) (w : MpvObject σ) (v : Bool) : MpvObject σ :=
  let c := mute L w
  if decide (v = c.1) then c.2
  else (mpvSetProperty L c.2 "mute" (QVariant.bool v)).2

/-- The function `MpvObject::setPlaybackState`. -/
def setPlaybackState (L : Mpv σ) (w : MpvObject σ) (v : PlaybackState) : MpvObject σ :=
  let r := isStopped L w
  if r.1 then r.2
  else
    let c := playbackState L r.2
    if decide (c.1 = v) then c.2
    else
      let res :=
        match v with
        | PlaybackState.Stopped => stop L c.2
        | PlaybackState.Paused => pause L c.2
        | PlaybackState.Playing => play L c.2
      if res.1 then res.2.emit "playbackStateChanged" else res.2

/-- The function `MpvObject::setPosition`. -/
def setPosition (L : Mpv σ) (w : MpvObject σ) (v : Int) : MpvObject σ :=
  let r := isStopped L w
  if r.1 then r.2
  else
    let c := position L r.2
    if decide (v = c.1) then c.2
    else
      let d := duration L c.2
      (seek L d.2 (qBound 0 v d.1) seekDefaultAbsolute seekDefaultPercent).2

/-- The function `MpvObject::setVolume`. -/
def setVolume (L : Mpv σ) (w : MpvObject σ) (v : Int) : MpvObject σ :=
  let c := volume L w
  if decide (v = c.1) then c.2
  else (mpvSetProperty L c.2 "volume" (QVariant.int (qBound 0 v 100))).2

/-- The function `MpvObject::setHwdec`. -/
def setHwdec (L : Mpv σ) (w : MpvObject σ) (v : String) : MpvObject σ :=
  if decide (v = "") then w
  else
    let c := hwdec L w
    if decide (v = c.1) then c.2
    else (mpvSetProperty L c.2 "hwdec" (QVariant.string v)).2

/-- The function `MpvObject::setVid`. -/
def setVid (L : Mpv σ) (w : MpvObject σ) (v : Int) : MpvObject σ :=
  let r := isStopped L w
  if r.1 then r.2
  else
    let c := vid L r.2
    if decide (v = c.1) then c.2
    else (mpvSetProperty L c.2 "vid" (QVariant.int (qMax v 0))).2

/-- The function `MpvObject::setAid`. -/
def setAid (L : Mpv σ) (w : MpvObject σ) (v : Int) : MpvObject σ :=
  let r := isStopped L w
  if r.1 then r.2
  else
    let c := aid L r.2
    if decide (v = c.1) then c.2
    else (mpvSetProperty L c.2 "aid" (QVariant.int (qMax v 0))).2

/-- The function `MpvObject::setSid`. -/
def setSid (L : Mpv σ) (w : MpvObject σ) (v : Int) : MpvObject σ :=
  let r := isStopped L w
  if r.1 then r.2
  else
    let c := sid L r.2
    if decide (v = c.1) then c.2
    else (mpvSetProperty L c.2 "sid" (QVariant.int (qMax v 0))).2

/-- The function `MpvObject::setVideoRotate`. -/
def setVideoRotate (L : Mpv σ) (w : MpvObject σ) (v : Int) : MpvObject σ :=
  let r := isStopped L w
  if r.1 then r.2
  else
    let c := videoRotate L r.2
    if decide (v = c.1) then c.2
    else (mpvSetProperty L c.2 "video-rotate" (QVariant.int (qBound 0 v 359))).2

/-- The function `MpvObject::setVideoAspect`. -/
def setVideoAspect (L : Mpv σ) (w : MpvObject σ) (v : Rat) : MpvObject σ :=
  let r := isStopped L w
  if r.1 then r.2
  else
    let c := videoAspect L r.2
    if decide (v = c.1) then c.2
    else (mpvSetProperty L c.2 "video-aspect" (QVariant.real (qMax v 0))).2

/-- The function `MpvObject::setSpeed`. -/
def setSpeed (L : Mpv σ) (w : MpvObject σ) (v : Rat) : MpvObject σ :=
  let r := isStopped L w
  if r.1 then r.2
  else
    let c := speed L r.2
    if decide (v = c.1) then c.2
    else (mpvSetProperty L c.2 "speed" (QVariant.real (qMax v 0))).2

/-- The function `MpvObject::setDeinterlace`. -/
def setDeinterlace (L : Mpv σ) (w : MpvObject σ) (v : Bool) : MpvObject σ :=
  let c := deinterlace L w
  if decide (v = c.1) then c.2
  else (mpvSetProperty L c.2 "deinterlace" (QVariant.bool v)).2

/-- The function `MpvObject::setAudioExclusive`. -/
def setAudioExclusive (L : Mpv σ) (w : MpvObject σ) (v : Bool) : MpvObject σ :=
  let c := audioExclusive L w
  if decide (v = c.1) then c.2
  else (mpvSetProperty L c.2 "audio-exclusive" (QVariant.bool v)).2

/-- The function `MpvObject::setAudioFileAuto`. -/
def setAudioFileAuto (L : Mpv σ) (w : MpvObject σ) (v : String) : MpvObject σ :=
  if decide (v = "") then w
  else
    let c := audioFileAuto L w
    if decide (v = c.1) then c.2
    else (mpvSetProperty L c.2 "audio-file-auto" (QVariant.string v)).2

/-- The function `MpvObject::setSubAuto`. -/
def setSubAuto (L : Mpv σ) (w : MpvObject σ) (v : String) : MpvObject σ :=
  if decide (v = "") then w
  else
    let c := subAuto L w
    if decide (v = c.1) then c.2
    else (mpvSetProperty L c.2 "sub-auto" (QVariant.string v)).2

/-- The function `MpvObject::setSubCodepage`. -/
def setSubCodepage (L : Mpv σ) (w : MpvObject σ) (v : String) : MpvObject σ :=
  if decide (v = "") then w
  else
    let c := subCodepage L w
    if decide (v = c.1) then c.2
    else
      (mpvSetProperty L c.2 "sub-codepage"
        (QVariant.string
          (if startsWithPlus v then v else (if startsWithCp v then "+" ++ v else v)))).2

/-- The function `MpvObject::setVo`. -/
def setVo (L : Mpv σ) (w : MpvObject σ) (v : String) : MpvObject σ :=
  if decide (v = "") then w
  else
    let c := vo L w
    if decide (v = c.1) then c.2
    else (mpvSetProperty L c.2 "vo" (QVariant.string v)).2

/-- The function `MpvObject::setAo`. -/
def setAo (L : Mpv σ) (w : MpvObject σ) (v : String) : MpvObject σ :=
  if decide (v = "") then w
  else
    let c := ao L w
    if decide (v = c.1) then c.2
    else (mpvSetProperty L c.2 "ao" (QVariant.string v)).2

/-- The function `MpvObject::setScreenshotFormat`. -/
def setScreenshotFormat (L : Mpv σ) (w : MpvObject σ) (v : String) : MpvObject σ :=
  if decide (v = "") then w
  else
    let c := screenshotFormat L w
    if decide (v = c.1) then c.2
    else (mpvSetProperty L c.2 "screenshot-format" (QVariant.string v)).2

/-- The function `MpvObject::setScreenshotPngCompression`. -/
def setScreenshotPngCompression (L : Mpv σ) (w : MpvObject σ) (v : Int) : MpvObject σ :=
  let c := screenshotPngCompression L w
  if decide (v = c.1) then c.2
  else (mpvSetProperty L c.2 "screenshot-png-compression" (QVariant.int (qBound 0 v 9))).2

/-- The function `MpvObject::setScreenshotTemplate`. -/
def setScreenshotTemplate (L : Mpv σ) (w : MpvObject σ) (v : String) : MpvObject σ :=
  if decide (v = "") then w
  else
    let c := screenshotTemplate L w
    if decide (v = c.1) then c.2
    else (mpvSetProperty L c.2 "screenshot-template" (QVariant.string v)).2

/-- The function `MpvObject::setScreenshotDirectory`. -/
def setScreenshotDirectory (L : Mpv σ) (w : MpvObject σ) (v : String) : MpvObject σ :=
  if decide (v = "") then w
  else
    let c := screenshotDirectory L w
    if decide (v = c.1) then c.2
    else (mpvSetProperty L c.2 "screenshot-directory" (QVariant.string v)).2

/-- The function `MpvObject::setProfile`. -/
def setProfile (L : Mpv σ) (w : MpvObject σ) (v : String) : MpvObject σ :=
  if decide (v = "") then w
  else
    let c := profile L w
    if decide (v = c.1) then c.2
    else
      (mpvSendCommand L c.2
        (QVariant.list [QVariant.string "apply-profile", QVariant.string v])).2

/-- The function `MpvObject::setHrSeek`. -/
def setHrSeek (L : Mpv σ) (w : MpvObject σ) (v : Bool) : MpvObject σ :=
  let c := hrSeek L w
  if decide (v = c.1) then c.2
  else (mpvSetProperty L c.2 "hr-seek" (QVariant.string (if v then "yes" else "no"))).2

/-- The function `MpvObject::setYtdl`. -/
def setYtdl (L : Mpv σ) (w : MpvObject σ) (v : Bool) : MpvObject σ :=
  let c := ytdl L w
  if decide (v = c.1) then c.2
  else (mpvSetProperty L c.2 "ytdl" (QVariant.bool v)).2

/-- The function `MpvObject::setLoadScripts`. -/
def setLoadScripts (L : Mpv σ) (w : MpvObject σ) (v : Bool) : MpvObject σ :=
  let c := loadScripts L w
  if decide (v = c.1) then c.2
  else (mpvSetProperty L c.2 "load-scripts" (QVariant.bool v)).2

/-- The function `MpvObject::setScreenshotTagColorspace`. -/
def setScreenshotTagColorspace (L : Mpv σ) (w : MpvObject σ) (v : Bool) : MpvObject σ :=
  let c := screenshotTagColorspace L w
  if decide (v = c.1) then c.2
  else (mpvSetProperty L c.2 "screenshot-tag-colorspace" (QVariant.bool v)).2

/-- The function `MpvObject::setScreenshotJpegQuality`. -/
def setScreenshotJpegQuality (L : Mpv σ) (w : MpvObject σ) (v : Int) : MpvObject σ :=
  let c := screenshotJpegQuality L w
  if decide (v = c.1) then c.2
  else (mpvSetProperty L c.2 "screenshot-jpeg-quality" (QVariant.int (qBound 0 v 100))).2

/-- The function `MpvObject::setMpvCallType`. -/
def setMpvCallType (w : MpvObject σ) (v : MpvCallType) : MpvObject σ :=
  if mpvCallType w = v then w
  else ({ w with currentMpvCallType := v } : MpvObject σ).emit "mpvCallTypeChanged"

/-- The function `MpvObject::setPercentPos`. -/
def setPercentPos (L : Mpv σ) (w : MpvObject σ) (v : Int) : MpvObject σ :=
  let r := isStopped L w
  if r.1 then r.2
  else
    let c := percentPos L r.2
    if decide (v = c.1) then c.2
    else (mpvSetProperty L c.2 "percent-pos" (QVariant.int (qBound 0 v 100))).2

/-! ## Event handling -/

/-- How a drain of the event queue ends: the loop left normally, `qFatal`
ended the process, or the loop was still running when the fuel of the model
ran out. -/
inductive Drain (σ : Type) where
  | finished (w : MpvObject σ)
  | aborted (w : MpvObject σ)
  | running (w : MpvObject σ)

/-- The function `MpvObject::processMpvLogMessage`: it only prints, and does
not return for a fatal message (`qFatal`). -/
def processMpvLogMessage (w : MpvObject σ) (log_level : mpv_log_level) (_text : String) :
    Option (MpvObject σ) :=
  match log_level with
  | mpv_log_level.MPV_LOG_LEVEL_FATAL => none
  | _ => some w

/-- Looks a name up in the table `properties`. -/
def propertiesValue : List (String × Option String) → String → Option (Option String)
  | [], _ => none
  | (k, v) :: rest, name => if k = name then some v else propertiesValue rest name

/-- The function `MpvObject::processMpvPropertyChange`.  The table `properties`
(property name to the name of its change signal, or null) is declared in
`mpvobject.h`, which is absent, and is a parameter here. -/
def processMpvPropertyChange (properties : List (String × Option String))
    (w : MpvObject σ) (name : String) : MpvObject σ :=
  match propertiesValue properties name with
  | some (some signalName) => w.emit signalName
  | _ => w

/-- The body of the `switch` in `handleMpvEvents` for one event other than
`MPV_EVENT_NONE`; `none` when the process is ended by `qFatal`. -/
def handleMpvEvent (L : Mpv σ) (properties : List (String × Option String))
    (w : MpvObject σ) : mpv_event → Option (MpvObject σ)
  | mpv_event.MPV_EVENT_LOG_MESSAGE log_level text => processMpvLogMessage w log_level text
  | mpv_event.MPV_EVENT_START_FILE => some (setMediaStatus w MediaStatus.Loading)
  | mpv_event.MPV_EVENT_END_FILE =>
    some (playbackStateChangeEvent L (setMediaStatus w MediaStatus.End))
  | mpv_event.MPV_EVENT_FILE_LOADED =>
    some (playbackStateChangeEvent L ((setMediaStatus w MediaStatus.Loaded).emit "loaded"))
  | mpv_event.MPV_EVENT_IDLE => some (playbackStateChangeEvent L w)
  | mpv_event.MPV_EVENT_VIDEO_RECONFIG => some (videoReconfig w)
  | mpv_event.MPV_EVENT_AUDIO_RECONFIG => some (audioReconfig w)
  | mpv_event.MPV_EVENT_PROPERTY_CHANGE name => some (processMpvPropertyChange properties w name)
  | _ => some w

/-- The function `MpvObject::handleMpvEvents`: events are taken and handled
until `mpv_wait_event` reports `MPV_EVENT_NONE`.  `fuel` bounds the number of
iterations of the model. -/
def handleMpvEvents (L : Mpv σ) (properties : List (String × Option String)) :
    Nat → MpvObject σ → Drain σ
  | 0, w => Drain.running w
  | fuel + 1, w =>
    let ev := L.mpv_wait_event w.mpv
    let w1 : MpvObject σ := { w with mpv := ev.2, trace := w.trace ++ [Effect.waitEvent] }
    if ev.1 = mpv_event.MPV_EVENT_NONE then Drain.finished w1
    else
      match handleMpvEvent L properties w1 ev.1 with
      | none => Drain.aborted w1
      | some w2 => handleMpvEvents L properties fuel w2

/-- The object a drain ends with. -/
def Drain.object : Drain σ → MpvObject σ
  | Drain.finished w => w
  | Drain.aborted w => w
  | Drain.running w => w

/-! ## Reading a trace -/

/-- The names of the native properties read in a trace, in order. -/
def queriedProperties : List Effect → List String
  | [] => []
  | Effect.getProperty name :: rest => name :: queriedProperties rest
  | _ :: rest => queriedProperties rest

/-- The native commands of a trace, in order: argument list and error code. -/
def issuedCommands : List Effect → List (QVariant × Int)
  | [] => []
  | Effect.command _ arguments errorCode :: rest => (arguments, errorCode) :: issuedCommands rest
  | _ :: rest => issuedCommands rest

/-- The native property writes of a trace, in order: name, value, error code. -/
def propertyWrites : List Effect → List (String × QVariant × Int)
  | [] => []
  | Effect.setProperty _ name value errorCode :: rest =>
    (name, value, errorCode) :: propertyWrites rest
  | _ :: rest => propertyWrites rest

/-- The signals emitted in a trace, in order. -/
def emittedSignals : List Effect → List String
  | [] => []
  | Effect.emit signal :: rest => signal :: emittedSignals rest
  | _ :: rest => emittedSignals rest

/-- The log level requests of a trace, in order. -/
def logRequests : List Effect → List (String × Int)
  | [] => []
  | Effect.requestLogMessages level errorCode :: rest => (level, errorCode) :: logRequests rest
  | _ :: rest => logRequests rest

/-- An effect that is a read of a native property: it changes nothing. -/
def Effect.isRead : Effect → Bool
  | Effect.getProperty _ => true
  | _ => false

/-! ## A scripted player for evaluating the model -/

/-- The state of the scripted player: its property store, the events it will
deliver, and the error code it answers commands and writes with. -/
structure Script where
  props : List (String × QVariant)
  events : List mpv_event
  errorCode : Int

/-- A scripted player: reads look the property up, writes and commands answer
with the scripted error code, and events are delivered from the list. -/
def scripted : Mpv Script where
  get_property := fun s name => QMap.value s.props name
  set_property := fun s _ _ => (s.errorCode, s)
  set_property_async := fun s _ _ => (s.errorCode, s)
  command := fun s _ => (s.errorCode, s)
  command_async := fun s _ => (s.errorCode, s)
  mpv_request_log_messages := fun s _ => (s.errorCode, s)
  mpv_wait_event := fun s =>
    match s.events with
    | [] => (mpv_event.MPV_EVENT_NONE, s)
    | e :: rest => (e, { s with events := rest })

/-- An object over the scripted player with an empty trace. -/
def scriptedObject (props : List (String × QVariant)) (events : List mpv_event)
    (errorCode : Int) (src : QUrl) (status : MediaStatus) : MpvObject Script :=
  { mpv := { props := props, events := events, errorCode := errorCode },
    currentSource := src, currentMediaStatus := status,
    currentMpvCallType := MpvCallType.Synchronous, trace := [] }

/-- A scripted object that is playing: position 50 of 100, no source set. -/
def playingObject : MpvObject Script :=
  scriptedObject
    [("idle-active", QVariant.bool false), ("pause", QVariant.bool false),
     ("duration", QVariant.int 100), ("time-pos", QVariant.int 50),
     ("percent-pos", QVariant.int 50)]
    [] 0 QUrl.empty MediaStatus.Loaded

/-- A scripted object that is stopped although the player still reports a
position, a duration, a file name, a rotation, one video track and one
chapter. -/
def stoppedObject : MpvObject Script :=
  scriptedObject
    [("idle-active", QVariant.bool true), ("pause", QVariant.bool false),
     ("duration", QVariant.int 100), ("time-pos", QVariant.int 50),
     ("filename", QVariant.string "a.mkv"),
     ("video-out-params/rotate", QVariant.int 90),
     ("track-list", QVariant.list
        [QVariant.map [("id", QVariant.int 1), ("type", QVariant.string "video")]]),
     ("chapter-list", QVariant.list
        [QVariant.map [("title", QVariant.string "Intro"), ("time", QVariant.int 0)]])]
    [] 0 QUrl.empty MediaStatus.End

/-- A scripted object that is stopped and whose player reports an empty track
list and an empty chapter list. -/
def idleObject : MpvObject Script :=
  scriptedObject
    [("idle-active", QVariant.bool true), ("pause", QVariant.bool false),
     ("track-list", QVariant.list []), ("chapter-list", QVariant.list [])]
    [] 0 QUrl.empty MediaStatus.End

/-- A scripted object that is paused, still loading, with one pending
`MPV_EVENT_FILE_LOADED`. -/
def loadingObject : MpvObject Script :=
  scriptedObject
    [("idle-active", QVariant.bool false), ("pause", QVariant.bool true)]
    [mpv_event.MPV_EVENT_FILE_LOADED] 0 QUrl.empty MediaStatus.Loading

/-- A locator of a local file. -/
def localUrl : QUrl :=
  { isValid := true, isLocalFile := true, toLocalFile := "/tmp/a.mkv",
    url := "file:///tmp/a.mkv" }

/-- A locator of a remote resource. -/
def remoteUrl : QUrl :=
  { isValid := true, isLocalFile := false, toLocalFile := "", url := "http://host/b.mkv" }

/-- A scripted object that is playing `localUrl` and whose player answers
every command and write with the error code -1. -/
def failingObject : MpvObject Script :=
  scriptedObject
    [("idle-active", QVariant.bool false), ("pause", QVariant.bool false),
     ("duration", QVariant.int 100), ("time-pos", QVariant.int 50)]
    [] (-1) localUrl MediaStatus.Loaded

/-- A scripted object that is stopped with no source, whose player accepts
commands and stays idle after them. -/
def emptyObject : MpvObject Script :=
  scriptedObject
    [("idle-active", QVariant.bool true), ("pause", QVariant.bool false)]
    [] 0 QUrl.empty MediaStatus.Unknown

/-- A scripted object that is playing, muted, at volume 40. -/
def mutedObject : MpvObject Script :=
  scriptedObject
    [("idle-active", QVariant.bool false), ("pause", QVariant.bool false),
     ("mute", QVariant.bool true), ("volume", QVariant.int 40)]
    [] 0 localUrl MediaStatus.Loaded

/-- A scripted object that is paused on `localUrl`. -/
def pausedObject : MpvObject Script :=
  scriptedObject
    [("idle-active", QVariant.bool false), ("pause", QVariant.bool true),
     ("duration", QVariant.int 100), ("time-pos", QVariant.int 50)]
    [] 0 localUrl MediaStatus.Loaded

/-- A scripted object that is playing at the very end: position 100 of 100,
100 percent. -/
def endObject : MpvObject Script :=
  scriptedObject
    [("idle-active", QVariant.bool false), ("pause", QVariant.bool false),
     ("duration", QVariant.int 100), ("time-pos", QVariant.int 100),
     ("percent-pos", QVariant.int 100)]
    [] 0 localUrl MediaStatus.Loaded

/-- A scripted object whose player reports the message level `all=warn`. -/
def warnObject : MpvObject Script :=
  scriptedObject
    [("idle-active", QVariant.bool true), ("pause", QVariant.bool false),
     ("msg-level", QVariant.string "all=warn")]
    [] 0 QUrl.empty MediaStatus.Unknown

/-- A scripted object in status Loaded with six pending events, among them
a file end and a file start. -/
def busyObject : MpvObject Script :=
  scriptedObject
    [("idle-active", QVariant.bool false), ("pause", QVariant.bool false)]
    [mpv_event.MPV_EVENT_SEEK, mpv_event.MPV_EVENT_PLAYBACK_RESTART,
     mpv_event.MPV_EVENT_PROPERTY_CHANGE "pause", mpv_event.MPV_EVENT_END_FILE,
     mpv_event.MPV_EVENT_START_FILE, mpv_event.MPV_EVENT_IDLE]
    0 localUrl MediaStatus.Loaded

/-- A scripted object that is playing and whose player reports the rotation
-90. -/
def negativeRotationObject : MpvObject Script :=
  scriptedObject
    [("idle-active", QVariant.bool false), ("pause", QVariant.bool false),
     ("video-out-params/rotate", QVariant.int (-90))]
    [] 0 QUrl.empty MediaStatus.Loaded

/-- A scripted object that is playing and whose player reports the rotation
450. -/
def overRotationObject : MpvObject Script :=
  scriptedObject
    [("idle-active", QVariant.bool false), ("pause", QVariant.bool false),
     ("video-out-params/rotate", QVariant.int 450)]
    [] 0 QUrl.empty MediaStatus.Loaded

/-- A scripted object that is playing a file with a video track, two audio
tracks, an attachment and a subtitle track. -/
def tracksObject : MpvObject Script :=
  scriptedObject
    [("idle-active", QVariant.bool false), ("pause", QVariant.bool false),
     ("track-list", QVariant.list
        [QVariant.map [("id", QVariant.int 1), ("type", QVariant.string "audio"),
           ("lang", QVariant.string "eng")],
         QVariant.map [("id", QVariant.int 1), ("type", QVariant.string "video")],
         QVariant.map [("id", QVariant.int 7), ("type", QVariant.string "attachment")],
         QVariant.map [("id", QVariant.int 2), ("type", QVariant.string "audio"),
           ("lang", QVariant.string "und")],
         QVariant.map [("id", QVariant.int 1), ("type", QVariant.string "sub"),
           ("lang", QVariant.string "fra"), ("title", QVariant.string "Forced")]])]
    [] 0 localUrl MediaStatus.Loaded

/-- A scripted object whose player reports the message level
`cplayer=status,all=bogus`. -/
def bogusLevelObject : MpvObject Script :=
  scriptedObject
    [("idle-active", QVariant.bool true), ("pause", QVariant.bool false),
     ("msg-level", QVariant.string "cplayer=status,all=bogus")]
    [] 0 QUrl.empty MediaStatus.Unknown

/-- A scripted object that is playing and whose player reports one track
whose `type` is the flag true instead of a name. -/
def flagTypeObject : MpvObject Script :=
  scriptedObject
    [("idle-active", QVariant.bool false), ("pause", QVariant.bool false),
     ("track-list", QVariant.list
        [QVariant.map [("id", QVariant.int 1), ("type", QVariant.bool true)]])]
    [] 0 localUrl MediaStatus.Loaded

/-! ## What the accessors read

The value of each accessor as a function of the native state, used to state
how the accessors of the source behave. -/

/-- The boolean the native property `idle-active` converts to. -/
def idleActive (L : Mpv σ) (s : σ) : Bool := (L.get_property s "idle-active").toBool

/-- The boolean the native property `pause` converts to. -/
def pauseFlag (L : Mpv σ) (s : σ) : Bool := (L.get_property s "pause").toBool

/-- The two reads every query of the playback state makes. -/
def stateReads : List Effect :=
  [Effect.getProperty "idle-active", Effect.getProperty "pause"]

/-- The value `duration()` returns in a native state. -/
def durationOf (L : Mpv σ) (s : σ) : Int :=
  if idleActive L s then 0 else qMax (L.get_property s "duration").toLongLong 0

/-- The reads `duration()` makes in a native state. -/
def durationReads (L : Mpv σ) (s : σ) : List Effect :=
  if idleActive L s then stateReads else stateReads ++ [Effect.getProperty "duration"]

/-- The value `position()` returns in a native state. -/
def positionOf (L : Mpv σ) (s : σ) : Int :=
  if idleActive L s then 0
  else qBound 0 (L.get_property s "time-pos").toLongLong (durationOf L s)

/-- The reads `position()` makes in a native state. -/
def positionReads (L : Mpv σ) (s : σ) : List Effect :=
  if idleActive L s then stateReads
  else stateReads ++ [Effect.getProperty "time-pos"] ++ durationReads L s

/-- The value `percentPos()` returns in a native state. -/
def percentPosOf (L : Mpv σ) (s : σ) : Int :=
  if idleActive L s then 0 else qBound 0 (L.get_property s "percent-pos").toInt 100

/-- The reads `percentPos()` makes in a native state. -/
def percentPosReads (L : Mpv σ) (s : σ) : List Effect :=
  if idleActive L s then stateReads else stateReads ++ [Effect.getProperty "percent-pos"]

/-- Every effect of the list is a read of a native property. -/
def allReads (es : List Effect) : Bool := es.all Effect.isRead

/-- The native call `mpvSendCommand` and `mpvSetProperty` choose by the call
type: what a command answers. -/
def commandResult (L : Mpv σ) (callType : MpvCallType) (s : σ) (arguments : QVariant) : Int × σ :=
  if callType = MpvCallType.Asynchronous then L.command_async s arguments
  else L.command s arguments

/-- What a property write answers under a call type. -/
def setPropertyResult (L : Mpv σ) (callType : MpvCallType) (s : σ) (name : String)
    (value : QVariant) : Int × σ :=
  if callType = MpvCallType.Asynchronous then L.set_property_async s name value
  else L.set_property s name value

/-- The lower bound `min` computed by `seek` in a native state. -/
def seekMin (L : Mpv σ) (s : σ) (absolute percent : Bool) : Int :=
  if absolute || percent then 0 else toInt64 (-positionOf L s)

/-- The upper bound `max` computed by `seek` in a native state. -/
def seekMax (L : Mpv σ) (s : σ) (absolute percent : Bool) : Int :=
  if percent then 100
  else (if absolute then durationOf L s else toInt64 (durationOf L s - positionOf L s))

/-- The reads `seek` makes in a native state that is not idle. -/
def seekReads (L : Mpv σ) (s : σ) (absolute percent : Bool) : List Effect :=
  stateReads ++ (if absolute || percent then [] else positionReads L s) ++
    (if percent then []
     else (if absolute then durationReads L s else durationReads L s ++ positionReads L s))

/-- The argument list `seek` sends. -/
def seekArguments (L : Mpv σ) (s : σ) (value : Int) (absolute percent : Bool) : QVariant :=
  QVariant.list [QVariant.string "seek",
    QVariant.int (qBound (seekMin L s absolute percent) value (seekMax L s absolute percent)),
    QVariant.string (seekMode absolute percent)]

/-- The effects of `playbackStateChangeEvent` in a native state: three queries
of the playback state, the signal of the state found, and
`playbackStateChanged`. -/
def stateChangeEffects (L : Mpv σ) (s : σ) : List Effect :=
  stateReads ++ (if !idleActive L s && !pauseFlag L s then [Effect.emit "playing"] else []) ++
    stateReads ++ (if !idleActive L s && pauseFlag L s then [Effect.emit "paused"] else []) ++
    stateReads ++ (if idleActive L s then [Effect.emit "stopped"] else []) ++
    [Effect.emit "playbackStateChanged"]

/-- The effects of handling `MPV_EVENT_FILE_LOADED` with media status `status`
in a native state. -/
def fileLoadedEffects (L : Mpv σ) (s : σ) (status : MediaStatus) : List Effect :=
  (if status = MediaStatus.Loaded then [] else [Effect.emit "mediaStatusChanged"]) ++
    [Effect.emit "loaded"] ++ stateChangeEffects L s

/-- The argument list `setSource` sends. -/
def loadArguments (source : QUrl) : QVariant :=
  QVariant.list [QVariant.string "loadfile",
    QVariant.string (if source.isLocalFile then source.toLocalFile else source.url)]

/-! ## The property setters as one family -/

/-- A call of a property setter of `MpvObject` with its argument. -/
inductive SetterCall where
  | setMediaStatus (v : MediaStatus)
  | setSource (v : QUrl)
  | setMute (v : Bool)
  | setPlaybackState (v : PlaybackState)
  | setLogLevel (v : LogLevel)
  | setPosition (v : Int)
  | setVolume (v : Int)
  | setHwdec (v : String)
  | setVid (v : Int)
  | setAid (v : Int)
  | setSid (v : Int)
  | setVideoRotate (v : Int)
  | setVideoAspect (v : Rat)
  | setSpeed (v : Rat)
  | setDeinterlace (v : Bool)
  | setAudioExclusive (v : Bool)
  | setAudioFileAuto (v : String)
  | setSubAuto (v : String)
  | setSubCodepage (v : String)
  | setVo (v : String)
  | setAo (v : String)
  | setScreenshotFormat (v : String)
  | setScreenshotPngCompression (v : Int)
  | setScreenshotTemplate (v : String)
  | setScreenshotDirectory (v : String)
  | setProfile (v : String)
  | setHrSeek (v : Bool)
  | setYtdl (v : Bool)
  | setLoadScripts (v : Bool)
  | setScreenshotTagColorspace (v : Bool)
  | setScreenshotJpegQuality (v : Int)
  | setMpvCallType (v : MpvCallType)
  | setPercentPos (v : Int)

/-- Runs a setter call. -/
def runSetter (L : Mpv σ) (w : MpvObject σ) : SetterCall → MpvObject σ
  | SetterCall.setMediaStatus v => setMediaStatus w v
  | SetterCall.setSource v => setSource L w v
  | SetterCall.setMute v => setMute L w v
  | SetterCall.setPlaybackState v => setPlaybackState L w v
  | SetterCall.setLogLevel v => setLogLevel L w v
  | SetterCall.setPosition v => setPosition L w v
  | SetterCall.setVolume v => setVolume L w v
  | SetterCall.setHwdec v => setHwdec L w v
  | SetterCall.setVid v => setVid L w v
  | SetterCall.setAid v => setAid L w v
  | SetterCall.setSid v => setSid L w v
  | SetterCall.setVideoRotate v => setVideoRotate L w v
  | SetterCall.setVideoAspect v => setVideoAspect L w v
  | SetterCall.setSpeed v => setSpeed L w v
  | SetterCall.setDeinterlace v => setDeinterlace L w v
  | SetterCall.setAudioExclusive v => setAudioExclusive L w v
  | SetterCall.setAudioFileAuto v => setAudioFileAuto L w v
  | SetterCall.setSubAuto v => setSubAuto L w v
  | SetterCall.setSubCodepage v => setSubCodepage L w v
  | SetterCall.setVo v => setVo L w v
  | SetterCall.setAo v => setAo L w v
  | SetterCall.setScreenshotFormat v => setScreenshotFormat L w v
  | SetterCall.setScreenshotPngCompression v => setScreenshotPngCompression L w v
  | SetterCall.setScreenshotTemplate v => setScreenshotTemplate L w v
  | SetterCall.setScreenshotDirectory v => setScreenshotDirectory L w v
  | SetterCall.setProfile v => setProfile L w v
  | SetterCall.setHrSeek v => setHrSeek L w v
  | SetterCall.setYtdl v => setYtdl L w v
  | SetterCall.setLoadScripts v => setLoadScripts L w v
  | SetterCall.setScreenshotTagColorspace v => setScreenshotTagColorspace L w v
  | SetterCall.setScreenshotJpegQuality v => setScreenshotJpegQuality L w v
  | SetterCall.setMpvCallType v => setMpvCallType w v
  | SetterCall.setPercentPos v => setPercentPos L w v

/-- The requested value of a setter call equals the value the matching
accessor returns now. -/
def requestedIsCurrent (L : Mpv σ) (w : MpvObject σ) : SetterCall → Bool
  | SetterCall.setMediaStatus v => decide (v = mediaStatus w)
  | SetterCall.setSource v => decide (v = (source L w).1)
  | SetterCall.setMute v => decide (v = (mute L w).1)
  | SetterCall.setPlaybackState v => decide (v = (playbackState L w).1)
  | SetterCall.setLogLevel v => decide (v = (logLevel L w).1)
  | SetterCall.setPosition v => decide (v = (position L w).1)
  | SetterCall.setVolume v => decide (v = (volume L w).1)
  | SetterCall.setHwdec v => decide (v = (hwdec L w).1)
  | SetterCall.setVid v => decide (v = (vid L w).1)
  | SetterCall.setAid v => decide (v = (aid L w).1)
  | SetterCall.setSid v => decide (v = (sid L w).1)
  | SetterCall.setVideoRotate v => decide (v = (videoRotate L w).1)
  | SetterCall.setVideoAspect v => decide (v = (videoAspect L w).1)
  | SetterCall.setSpeed v => decide (v = (speed L w).1)
  | SetterCall.setDeinterlace v => decide (v = (deinterlace L w).1)
  | SetterCall.setAudioExclusive v => decide (v = (audioExclusive L w).1)
  | SetterCall.setAudioFileAuto v => decide (v = (audioFileAuto L w).1)
  | SetterCall.setSubAuto v => decide (v = (subAuto L w).1)
  | SetterCall.setSubCodepage v => decide (v = (subCodepage L w).1)
  | SetterCall.setVo v => decide (v = (vo L w).1)
  | SetterCall.setAo v => decide (v = (ao L w).1)
  | SetterCall.setScreenshotFormat v => decide (v = (screenshotFormat L w).1)
  | SetterCall.setScreenshotPngCompression v => decide (v = (screenshotPngCompression L w).1)
  | SetterCall.setScreenshotTemplate v => decide (v = (screenshotTemplate L w).1)
  | SetterCall.setScreenshotDirectory v => decide (v = (screenshotDirectory L w).1)
  | SetterCall.setProfile v => decide (v = (profile L w).1)
  | SetterCall.setHrSeek v => decide (v = (hrSeek L w).1)
  | SetterCall.setYtdl v => decide (v = (ytdl L w).1)
  | SetterCall.setLoadScripts v => decide (v = (loadScripts L w).1)
  | SetterCall.setScreenshotTagColorspace v => decide (v = (screenshotTagColorspace L w).1)
  | SetterCall.setScreenshotJpegQuality v => decide (v = (screenshotJpegQuality L w).1)
  | SetterCall.setMpvCallType v => decide (v = mpvCallType w)
  | SetterCall.setPercentPos v => decide (v = (percentPos L w).1)

/-- The object `w1` is `w` after reads of native properties only. -/
def OnlyReads (w w1 : MpvObject σ) : Prop :=
  ∃ es, allReads es = true ∧ w1 = w.logs es

/-! ## The projections of `mediaTracks` -/

/-- The test the loop of `mediaTracks` makes on an entry: its `type` is the
given string. -/
def isTrackOfType (kind : String) (track : QVariant) : Bool :=
  (QMap.value track.toMap "type").equalsString kind

/-- The map appended to `videoChannels` for an entry of type `video`. -/
def videoTrackInfo (trackInfo : QMap) : QMap :=
  let s := singleTrackInfo trackInfo
  let s := QMap.insert s "albumart" (QMap.value trackInfo "albumart")
  let s := QMap.insert s "demux-w" (QMap.value trackInfo "demux-w")
  let s := QMap.insert s "demux-h" (QMap.value trackInfo "demux-h")
  QMap.insert s "demux-fps" (QMap.value trackInfo "demux-fps")

/-- The map appended to `audioTracks` for an entry of type `audio`. -/
def audioTrackInfo (trackInfo : QMap) : QMap :=
  let s := singleTrackInfo trackInfo
  let s := QMap.insert s "demux-channel-count" (QMap.value trackInfo "demux-channel-count")
  let s := QMap.insert s "demux-channels" (QMap.value trackInfo "demux-channels")
  QMap.insert s "demux-samplerate" (QMap.value trackInfo "demux-samplerate")

/-! ## The level `logLevel` reads -/

/-- The level name `logLevel` extracts from the text of `msg-level`: what
follows the last `=`, the whole text when there is none. -/
def actualLevelOf (level : String) : String :=
  String.mk (right level.data ((level.data.length : Int) - lastIndexOf level.data '=' - 1))

/-- The value `logLevel()` returns for a text of `msg-level`. -/
def logLevelOf (level : String) : LogLevel :=
  if decide (level = "") || decide (level = "no") || decide (level = "off") then LogLevel.Off
  else
    let actualLevel := actualLevelOf level
    if decide (actualLevel = "") || decide (actualLevel = "no") ||
        decide (actualLevel = "off") then LogLevel.Off
    else if decide (actualLevel = "v") || decide (actualLevel = "debug") ||
        decide (actualLevel = "trace") then LogLevel.Debug
    else if decide (actualLevel = "warn") then LogLevel.Warning
    else if decide (actualLevel = "error") then LogLevel.Critical
    else if decide (actualLevel = "fatal") then LogLevel.Fatal
    else if decide (actualLevel = "info") then LogLevel.Info
    else LogLevel.Debug

/-- The map appended to the result of `chapters` for one entry of
`chapter-list`. -/
def chapterInfo (chapterInfo : QMap) : QMap :=
  let s : QMap := []
  let s := QMap.insert s "title" (QMap.value chapterInfo "title")
  QMap.insert s "time" (QMap.value chapterInfo "time")

/-! # Theorems -/

section Basics

variable (L : Mpv σ) (w : MpvObject σ)

@[simp] theorem logs_mpv (es : List Effect) : (w.logs es).mpv = w.mpv := rfl

@[simp] theorem logs_currentSource (es : List Effect) :
    (w.logs es).currentSource = w.currentSource := rfl

@[simp] theorem logs_currentMediaStatus (es : List Effect) :
    (w.logs es).currentMediaStatus = w.currentMediaStatus := rfl

@[simp] theorem logs_currentMpvCallType (es : List Effect) :
    (w.logs es).currentMpvCallType = w.currentMpvCallType := rfl

@[simp] theorem logs_trace (es : List Effect) : (w.logs es).trace = w.trace ++ es := rfl

@[simp] theorem logs_logs (es fs : List Effect) : (w.logs es).logs fs = w.logs (es ++ fs) := by
  simp [MpvObject.logs]

theorem log_eq_logs (e : Effect) : w.log e = w.logs [e] := rfl

theorem emit_eq_logs (signal : String) : w.emit signal = w.logs [Effect.emit signal] := rfl

theorem mpvGetProperty_eq (name : String) :
    mpvGetProperty L w name = (L.get_property w.mpv name, w.logs [Effect.getProperty name]) := rfl

theorem playbackState_eq :
    playbackState L w =
      (if idleActive L w.mpv then PlaybackState.Stopped
       else (if pauseFlag L w.mpv then PlaybackState.Paused else PlaybackState.Playing),
       w.logs stateReads) := by
  simp [playbackState, mpvGetProperty_eq, idleActive, pauseFlag, stateReads]

theorem isStopped_eq : isStopped L w = (idleActive L w.mpv, w.logs stateReads) := by
  simp only [isStopped, playbackState_eq]
  cases idleActive L w.mpv <;> cases pauseFlag L w.mpv <;> simp

theorem isPaused_eq :
    isPaused L w = (!idleActive L w.mpv && pauseFlag L w.mpv, w.logs stateReads) := by
  simp only [isPaused, playbackState_eq]
  cases idleActive L w.mpv <;> cases pauseFlag L w.mpv <;> simp

theorem isPlaying_eq :
    isPlaying L w = (!idleActive L w.mpv && !pauseFlag L w.mpv, w.logs stateReads) := by
  simp only [isPlaying, playbackState_eq]
  cases idleActive L w.mpv <;> cases pauseFlag L w.mpv <;> simp

end Basics

/-- C1: `playbackState()` is a function of the booleans the native properties
`idle-active` and `pause` convert to: Stopped when `idle-active` is true,
otherwise Paused when `pause` is true, otherwise Playing; the query changes
neither the player nor the data members; and of `isStopped()`, `isPaused()`,
`isPlaying()`, called one after the other, exactly one returns true. -/
theorem playbackState_function_of_idle_and_pause (L : Mpv σ) (w : MpvObject σ) :
    (playbackState L w).1 =
        (if (L.get_property w.mpv "idle-active").toBool then PlaybackState.Stopped
         else (if (L.get_property w.mpv "pause").toBool then PlaybackState.Paused
               else PlaybackState.Playing)) ∧
      (playbackState L w).2.mpv = w.mpv ∧
      (playbackState L w).2.currentSource = w.currentSource ∧
      (playbackState L w).2.currentMediaStatus = w.currentMediaStatus ∧
      (playbackState L w).2.currentMpvCallType = w.currentMpvCallType ∧
      (let s := isStopped L w
       let p := isPaused L s.2
       let q := isPlaying L p.2
       (s.1 = true ∧ p.1 = false ∧ q.1 = false) ∨
       (s.1 = false ∧ p.1 = true ∧ q.1 = false) ∨
       (s.1 = false ∧ p.1 = false ∧ q.1 = true)) := by
  refine ⟨?_, ?_, ?_, ?_, ?_, ?_⟩
  · simp [playbackState_eq, idleActive, pauseFlag]
  · simp [playbackState_eq]
  · simp [playbackState_eq]
  · simp [playbackState_eq]
  · simp [playbackState_eq]
  · simp only [isStopped_eq, isPaused_eq, isPlaying_eq, logs_mpv]
    cases idleActive L w.mpv <;> cases pauseFlag L w.mpv <;> simp

section Arithmetic

theorem toInt64_lower (x : Int) : -9223372036854775808 ≤ toInt64 x := by
  unfold toInt64; omega

theorem toInt64_upper (x : Int) : toInt64 x < 9223372036854775808 := by
  unfold toInt64; omega

theorem toInt64_of_range (x : Int) (h1 : -9223372036854775808 ≤ x)
    (h2 : x < 9223372036854775808) : toInt64 x = x := by
  unfold toInt64; omega

theorem toInt32_of_range (x : Int) (h1 : -2147483648 ≤ x) (h2 : x < 2147483648) :
    toInt32 x = x := by
  unfold toInt32; omega

theorem toInt32_lower (x : Int) : -2147483648 ≤ toInt32 x := by
  unfold toInt32; omega

theorem toInt32_upper (x : Int) : toInt32 x < 2147483648 := by
  unfold toInt32; omega

theorem qMax_int_ge_right (a b : Int) : b ≤ qMax a b := by
  unfold qMax; split <;> omega

theorem qMax_int_cases (a b : Int) : qMax a b = a ∨ qMax a b = b := by
  unfold qMax; split <;> simp

theorem qBound_int_ge (lo v hi : Int) : lo ≤ qBound lo v hi := by
  unfold qBound qMax qMin; split <;> omega

theorem qBound_int_le (lo v hi : Int) (h : lo ≤ hi) : qBound lo v hi ≤ hi := by
  unfold qBound qMax qMin; split <;> split <;> omega

theorem qBound_int_of_mem (lo v hi : Int) (h1 : lo ≤ v) (h2 : v ≤ hi) : qBound lo v hi = v := by
  unfold qBound qMax qMin; split <;> split <;> omega

end Arithmetic

section TraceReading

theorem issuedCommands_append (a b : List Effect) :
    issuedCommands (a ++ b) = issuedCommands a ++ issuedCommands b := by
  induction a with
  | nil => rfl
  | cons e rest ih => cases e <;> simp [issuedCommands, ih]

theorem propertyWrites_append (a b : List Effect) :
    propertyWrites (a ++ b) = propertyWrites a ++ propertyWrites b := by
  induction a with
  | nil => rfl
  | cons e rest ih => cases e <;> simp [propertyWrites, ih]

theorem emittedSignals_append (a b : List Effect) :
    emittedSignals (a ++ b) = emittedSignals a ++ emittedSignals b := by
  induction a with
  | nil => rfl
  | cons e rest ih => cases e <;> simp [emittedSignals, ih]

theorem logRequests_append (a b : List Effect) :
    logRequests (a ++ b) = logRequests a ++ logRequests b := by
  induction a with
  | nil => rfl
  | cons e rest ih => cases e <;> simp [logRequests, ih]

theorem queriedProperties_append (a b : List Effect) :
    queriedProperties (a ++ b) = queriedProperties a ++ queriedProperties b := by
  induction a with
  | nil => rfl
  | cons e rest ih => cases e <;> simp [queriedProperties, ih]

theorem allReads_append (a b : List Effect) :
    allReads (a ++ b) = (allReads a && allReads b) := by
  simp [allReads]

theorem issuedCommands_of_allReads (es : List Effect) (h : allReads es = true) :
    issuedCommands es = [] := by
  induction es with
  | nil => rfl
  | cons e rest ih =>
    cases e <;> simp [allReads, Effect.isRead, issuedCommands] at h ⊢
    exact ih (by simpa [allReads] using h)

theorem propertyWrites_of_allReads (es : List Effect) (h : allReads es = true) :
    propertyWrites es = [] := by
  induction es with
  | nil => rfl
  | cons e rest ih =>
    cases e <;> simp [allReads, Effect.isRead, propertyWrites] at h ⊢
    exact ih (by simpa [allReads] using h)

theorem emittedSignals_of_allReads (es : List Effect) (h : allReads es = true) :
    emittedSignals es = [] := by
  induction es with
  | nil => rfl
  | cons e rest ih =>
    cases e <;> simp [allReads, Effect.isRead, emittedSignals] at h ⊢
    exact ih (by simpa [allReads] using h)

theorem logRequests_of_allReads (es : List Effect) (h : allReads es = true) :
    logRequests es = [] := by
  induction es with
  | nil => rfl
  | cons e rest ih =>
    cases e <;> simp [allReads, Effect.isRead, logRequests] at h ⊢
    exact ih (by simpa [allReads] using h)

theorem allReads_stateReads : allReads stateReads = true := rfl

theorem allReads_durationReads (L : Mpv σ) (s : σ) : allReads (durationReads L s) = true := by
  unfold durationReads; split <;> rfl

theorem allReads_positionReads (L : Mpv σ) (s : σ) : allReads (positionReads L s) = true := by
  unfold positionReads
  split
  · rfl
  · rw [allReads_append, allReads_durationReads]; rfl

theorem allReads_percentPosReads (L : Mpv σ) (s : σ) :
    allReads (percentPosReads L s) = true := by
  unfold percentPosReads; split <;> rfl

end TraceReading

section Accessors

variable (L : Mpv σ) (w : MpvObject σ)

theorem duration_eq : duration L w = (durationOf L w.mpv, w.logs (durationReads L w.mpv)) := by
  simp only [duration, isStopped_eq, mpvGetProperty_eq, durationOf, durationReads]
  cases idleActive L w.mpv <;> simp

theorem position_eq : position L w = (positionOf L w.mpv, w.logs (positionReads L w.mpv)) := by
  simp only [position, isStopped_eq, mpvGetProperty_eq, duration_eq, positionOf, positionReads]
  cases idleActive L w.mpv <;> simp

theorem percentPos_eq :
    percentPos L w = (percentPosOf L w.mpv, w.logs (percentPosReads L w.mpv)) := by
  simp only [percentPos, isStopped_eq, mpvGetProperty_eq, percentPosOf, percentPosReads]
  cases idleActive L w.mpv <;> simp

theorem durationOf_nonneg (s : σ) : 0 ≤ durationOf L s := by
  unfold durationOf
  split
  · omega
  · exact qMax_int_ge_right _ _

theorem durationOf_upper (s : σ) : durationOf L s < 9223372036854775808 := by
  unfold durationOf
  split
  · omega
  · rcases qMax_int_cases (L.get_property s "duration").toLongLong 0 with h | h
    · rw [h]; exact toInt64_upper _
    · rw [h]; omega

theorem positionOf_nonneg (s : σ) : 0 ≤ positionOf L s := by
  unfold positionOf
  split
  · omega
  · exact qBound_int_ge _ _ _

theorem positionOf_le_duration (s : σ) : positionOf L s ≤ durationOf L s := by
  unfold positionOf
  split
  · exact durationOf_nonneg L s
  · exact qBound_int_le _ _ _ (durationOf_nonneg L s)

end Accessors

section Seeking

variable (L : Mpv σ) (w : MpvObject σ)

theorem mpvSendCommand_list (l : List QVariant) :
    mpvSendCommand L w (QVariant.list l) =
      (decide ((commandResult L w.currentMpvCallType w.mpv (QVariant.list l)).1 ≥ 0),
        { w with
          mpv := (commandResult L w.currentMpvCallType w.mpv (QVariant.list l)).2,
          trace := w.trace ++
            [Effect.command (decide (w.currentMpvCallType = MpvCallType.Asynchronous))
              (QVariant.list l)
              (commandResult L w.currentMpvCallType w.mpv (QVariant.list l)).1] }) := by
  cases h : w.currentMpvCallType <;>
    simp [mpvSendCommand, QVariant.isNull, QVariant.isValid, commandResult, mpvCallType, h]

theorem allReads_seekReads (s : σ) (absolute percent : Bool) :
    allReads (seekReads L s absolute percent) = true := by
  unfold seekReads
  cases absolute <;> cases percent <;>
    simp [allReads_append, allReads_stateReads, allReads_positionReads, allReads_durationReads]

theorem seek_stopped (value : Int) (absolute percent : Bool) (h : idleActive L w.mpv = true) :
    seek L w value absolute percent = (false, w.logs stateReads) := by
  simp [seek, isStopped_eq, h]

theorem seek_eq (value : Int) (absolute percent : Bool) (h : idleActive L w.mpv = false) :
    seek L w value absolute percent =
      mpvSendCommand L (w.logs (seekReads L w.mpv absolute percent))
        (seekArguments L w.mpv value absolute percent) := by
  cases absolute <;> cases percent <;>
    simp [seek, isStopped_eq, h, position_eq, duration_eq, seekReads, seekArguments, seekMin,
      seekMax]

theorem seekMin_relative (s : σ) : seekMin L s false false = -positionOf L s := by
  have h1 := positionOf_nonneg L s
  have h2 := positionOf_le_duration L s
  have h3 := durationOf_upper L s
  simp only [seekMin, Bool.or_self, Bool.false_eq_true, if_false]
  exact toInt64_of_range _ (by omega) (by omega)

theorem seekMax_relative (s : σ) :
    seekMax L s false false = durationOf L s - positionOf L s := by
  have h1 := positionOf_nonneg L s
  have h2 := positionOf_le_duration L s
  have h3 := durationOf_upper L s
  simp only [seekMax, Bool.false_eq_true, if_false]
  exact toInt64_of_range _ (by omega) (by omega)

theorem seekMin_le_seekMax (s : σ) (absolute percent : Bool) :
    seekMin L s absolute percent ≤ seekMax L s absolute percent := by
  have h1 := positionOf_nonneg L s
  have h2 := positionOf_le_duration L s
  cases absolute <;> cases percent
  · rw [seekMin_relative, seekMax_relative]; omega
  · simp [seekMin, seekMax]
  · simp only [seekMin, seekMax]; simp; omega
  · simp [seekMin, seekMax]

end Seeking

section SeekCommands

variable (L : Mpv σ) (w : MpvObject σ)

theorem seek_commands (value : Int) (absolute percent : Bool)
    (h : idleActive L w.mpv = false) :
    issuedCommands (seek L w value absolute percent).2.trace =
      issuedCommands w.trace ++
        [(seekArguments L w.mpv value absolute percent,
          (commandResult L w.currentMpvCallType w.mpv
            (seekArguments L w.mpv value absolute percent)).1)] := by
  have hr := issuedCommands_of_allReads _ (allReads_seekReads L w.mpv absolute percent)
  rw [seek_eq L w value absolute percent h]
  unfold seekArguments
  rw [mpvSendCommand_list]
  simp only [logs_trace, logs_mpv, logs_currentMpvCallType, issuedCommands_append, hr,
    List.append_nil]
  rfl

theorem seek_commands_logs (es : List Effect) (hes : allReads es = true) (value : Int)
    (absolute percent : Bool) (h : idleActive L w.mpv = false) :
    issuedCommands (seek L (w.logs es) value absolute percent).2.trace =
      issuedCommands w.trace ++
        [(seekArguments L w.mpv value absolute percent,
          (commandResult L w.currentMpvCallType w.mpv
            (seekArguments L w.mpv value absolute percent)).1)] := by
  have := seek_commands L (w.logs es) value absolute percent (by simpa using h)
  simpa [issuedCommands_append, issuedCommands_of_allReads _ hes] using this

end SeekCommands

/-- C2: in a native state that is not stopped, `seek(value, absolute, percent)`
issues exactly one command `seek` whose value lies in [0, 100] for a percent
seek, in [0, duration()] for an absolute time seek and in
[-position(), duration() - position()] for a relative seek; `seekAbsolute`,
`seekRelative` and `seekPercent` issue no command or one such command of their
kind, whatever the magnitude of the input. -/
theorem seek_value_clamped (L : Mpv σ) (w : MpvObject σ) (value pos offset pct : Int)
    (absolute percent : Bool) (h : (L.get_property w.mpv "idle-active").toBool = false) :
    (∃ x code,
      issuedCommands (seek L w value absolute percent).2.trace =
        issuedCommands w.trace ++
          [(QVariant.list [QVariant.string "seek", QVariant.int x,
              QVariant.string (if percent then "absolute-percent"
                else (if absolute then "absolute" else "relative"))], code)] ∧
      (percent = true → 0 ≤ x ∧ x ≤ 100) ∧
      (percent = false → absolute = true → 0 ≤ x ∧ x ≤ (duration L w).1) ∧
      (percent = false → absolute = false →
        -(position L w).1 ≤ x ∧ x ≤ (duration L w).1 - (position L w).1)) ∧
    (issuedCommands (seekAbsolute L w pos).2.trace = issuedCommands w.trace ∨
      ∃ x code,
        issuedCommands (seekAbsolute L w pos).2.trace =
          issuedCommands w.trace ++
            [(QVariant.list [QVariant.string "seek", QVariant.int x,
                QVariant.string "absolute"], code)] ∧
        0 ≤ x ∧ x ≤ (duration L w).1) ∧
    (issuedCommands (seekRelative L w offset).2.trace = issuedCommands w.trace ∨
      ∃ x code,
        issuedCommands (seekRelative L w offset).2.trace =
          issuedCommands w.trace ++
            [(QVariant.list [QVariant.string "seek", QVariant.int x,
                QVariant.string "relative"], code)] ∧
        -(position L w).1 ≤ x ∧ x ≤ (duration L w).1 - (position L w).1) ∧
    (issuedCommands (seekPercent L w pct).2.trace = issuedCommands w.trace ∨
      ∃ x code,
        issuedCommands (seekPercent L w pct).2.trace =
          issuedCommands w.trace ++
            [(QVariant.list [QVariant.string "seek", QVariant.int x,
                QVariant.string "absolute-percent"], code)] ∧
        0 ≤ x ∧ x ≤ 100) := by
  have hidle : idleActive L w.mpv = false := h
  have hpos := positionOf_nonneg L w.mpv
  have hle := positionOf_le_duration L w.mpv
  have hmm := fun a p => seekMin_le_seekMax L w.mpv a p
  refine ⟨?_, ?_, ?_, ?_⟩
  · refine ⟨_, _, seek_commands L w value absolute percent hidle, ?_, ?_, ?_⟩
    · intro hp
      subst hp
      have h1 := qBound_int_ge (seekMin L w.mpv absolute true) value (seekMax L w.mpv absolute true)
      have h2 := qBound_int_le (seekMin L w.mpv absolute true) value
        (seekMax L w.mpv absolute true) (hmm absolute true)
      have hlo : seekMin L w.mpv absolute true = 0 := by simp [seekMin]
      have hhi : seekMax L w.mpv absolute true = 100 := by simp [seekMax]
      exact ⟨(le_of_eq hlo.symm).trans h1, h2.trans (le_of_eq hhi)⟩
    · intro hp ha
      subst hp; subst ha
      have h1 := qBound_int_ge (seekMin L w.mpv true false) value (seekMax L w.mpv true false)
      have h2 := qBound_int_le (seekMin L w.mpv true false) value
        (seekMax L w.mpv true false) (hmm true false)
      have hlo : seekMin L w.mpv true false = 0 := by simp [seekMin]
      have hhi : seekMax L w.mpv true false = durationOf L w.mpv := by simp [seekMax]
      simp only [duration_eq]
      exact ⟨(le_of_eq hlo.symm).trans h1, h2.trans (le_of_eq hhi)⟩
    · intro hp ha
      subst hp; subst ha
      have h1 := qBound_int_ge (seekMin L w.mpv false false) value (seekMax L w.mpv false false)
      have h2 := qBound_int_le (seekMin L w.mpv false false) value
        (seekMax L w.mpv false false) (hmm false false)
      simp only [duration_eq, position_eq]
      exact ⟨(le_of_eq (seekMin_relative L w.mpv).symm).trans h1,
        h2.trans (le_of_eq (seekMax_relative L w.mpv))⟩
  · by_cases hg : pos = positionOf L w.mpv
    · left
      simp [seekAbsolute, isStopped_eq, hidle, position_eq, hg, issuedCommands_append,
        issuedCommands_of_allReads _ (allReads_positionReads L w.mpv),
        issuedCommands_of_allReads _ allReads_stateReads]
    · right
      have hr : allReads (stateReads ++ (positionReads L w.mpv ++ durationReads L w.mpv)) = true := by
        simp [allReads_append, allReads_stateReads, allReads_positionReads,
          allReads_durationReads]
      have hs := seek_commands_logs L w _ hr (qBound 0 pos (durationOf L w.mpv)) true false hidle
      have h1 := qBound_int_ge (seekMin L w.mpv true false)
        (qBound 0 pos (durationOf L w.mpv)) (seekMax L w.mpv true false)
      have h2 := qBound_int_le (seekMin L w.mpv true false)
        (qBound 0 pos (durationOf L w.mpv)) (seekMax L w.mpv true false) (hmm true false)
      have hlo : seekMin L w.mpv true false = 0 := by simp [seekMin]
      have hhi : seekMax L w.mpv true false = durationOf L w.mpv := by simp [seekMax]
      refine ⟨qBound (seekMin L w.mpv true false) (qBound 0 pos (durationOf L w.mpv))
        (seekMax L w.mpv true false),
        (commandResult L w.currentMpvCallType w.mpv
          (seekArguments L w.mpv (qBound 0 pos (durationOf L w.mpv)) true false)).1,
        ?_, (le_of_eq hlo.symm).trans h1, ?_⟩
      · simpa [seekAbsolute, isStopped_eq, hidle, position_eq, duration_eq, hg,
          seekDefaultPercent, seekArguments, seekMode] using hs
      · simp only [duration_eq]
        exact h2.trans (le_of_eq hhi)
  · by_cases hg : offset = 0
    · left
      simp [seekRelative, isStopped_eq, hidle, hg, issuedCommands_append,
        issuedCommands_of_allReads _ allReads_stateReads]
    · right
      have hr : allReads (stateReads ++ (positionReads L w.mpv ++
          (durationReads L w.mpv ++ positionReads L w.mpv))) = true := by
        simp [allReads_append, allReads_stateReads, allReads_positionReads,
          allReads_durationReads]
      have hs := seek_commands_logs L w _ hr
        (qBound (toInt64 (-positionOf L w.mpv)) offset
          (toInt64 (durationOf L w.mpv - positionOf L w.mpv))) false false hidle
      have h1 := qBound_int_ge (seekMin L w.mpv false false)
        (qBound (toInt64 (-positionOf L w.mpv)) offset
          (toInt64 (durationOf L w.mpv - positionOf L w.mpv))) (seekMax L w.mpv false false)
      have h2 := qBound_int_le (seekMin L w.mpv false false)
        (qBound (toInt64 (-positionOf L w.mpv)) offset
          (toInt64 (durationOf L w.mpv - positionOf L w.mpv))) (seekMax L w.mpv false false)
        (hmm false false)
      refine ⟨qBound (seekMin L w.mpv false false)
        (qBound (toInt64 (-positionOf L w.mpv)) offset
          (toInt64 (durationOf L w.mpv - positionOf L w.mpv))) (seekMax L w.mpv false false),
        (commandResult L w.currentMpvCallType w.mpv
          (seekArguments L w.mpv (qBound (toInt64 (-positionOf L w.mpv)) offset
            (toInt64 (durationOf L w.mpv - positionOf L w.mpv))) false false)).1,
        ?_, ?_, ?_⟩
      · simpa [seekRelative, isStopped_eq, hidle, position_eq, duration_eq, hg,
          seekDefaultPercent, seekDefaultAbsolute, seekArguments, seekMode] using hs
      · simp only [position_eq]
        exact (le_of_eq (seekMin_relative L w.mpv).symm).trans h1
      · simp only [position_eq, duration_eq]
        exact h2.trans (le_of_eq (seekMax_relative L w.mpv))
  · by_cases hg : pct = percentPosOf L w.mpv
    · left
      simp [seekPercent, isStopped_eq, hidle, percentPos_eq, hg, issuedCommands_append,
        issuedCommands_of_allReads _ (allReads_percentPosReads L w.mpv),
        issuedCommands_of_allReads _ allReads_stateReads]
    · right
      have hr : allReads (stateReads ++ percentPosReads L w.mpv) = true := by
        simp [allReads_append, allReads_stateReads, allReads_percentPosReads]
      have hs := seek_commands_logs L w _ hr (qBound 0 pct 100) true true hidle
      have h1 := qBound_int_ge (seekMin L w.mpv true true) (qBound 0 pct 100)
        (seekMax L w.mpv true true)
      have h2 := qBound_int_le (seekMin L w.mpv true true) (qBound 0 pct 100)
        (seekMax L w.mpv true true) (hmm true true)
      have hlo : seekMin L w.mpv true true = 0 := by simp [seekMin]
      have hhi : seekMax L w.mpv true true = 100 := by simp [seekMax]
      refine ⟨qBound (seekMin L w.mpv true true) (qBound 0 pct 100) (seekMax L w.mpv true true),
        (commandResult L w.currentMpvCallType w.mpv
          (seekArguments L w.mpv (qBound 0 pct 100) true true)).1,
        ?_, (le_of_eq hlo.symm).trans h1, h2.trans (le_of_eq hhi)⟩
      simpa [seekPercent, isStopped_eq, hidle, percentPos_eq, hg, seekArguments,
        seekMode] using hs

/-- Witness of C2: on the scripted playing object (position 50 of 100) the
hypothesis holds and an absolute seek to 250 issues one clamped command. -/
theorem seek_value_clamped_witness :
    (scripted.get_property playingObject.mpv "idle-active").toBool = false ∧
    ∃ x code,
      issuedCommands (seek scripted playingObject 250 true false).2.trace =
        issuedCommands playingObject.trace ++
          [(QVariant.list [QVariant.string "seek", QVariant.int x,
              QVariant.string (if false then "absolute-percent"
                else (if true then "absolute" else "relative"))], code)] ∧
      (false = true → 0 ≤ x ∧ x ≤ 100) ∧
      (false = false → true = true → 0 ≤ x ∧ x ≤ (duration scripted playingObject).1) ∧
      (false = false → true = false →
        -(position scripted playingObject).1 ≤ x ∧
          x ≤ (duration scripted playingObject).1 - (position scripted playingObject).1) :=
  ⟨by decide, (seek_value_clamped scripted playingObject 250 0 0 0 true false (by decide)).1⟩

/-- An absolute seek to 250 at position 50 of 100, evaluated. -/
theorem seek_absolute_evaluated :
    issuedCommands (seek scripted playingObject 250 true false).2.trace =
    [(QVariant.list [QVariant.string "seek", QVariant.int 100, QVariant.string "absolute"], 0)] := by
  rfl

/-- A relative seek by -250 at position 50 of 100, evaluated. -/
theorem seekRelative_evaluated :
    issuedCommands (seekRelative scripted playingObject (-250)).2.trace =
    [(QVariant.list [QVariant.string "seek", QVariant.int (-50), QVariant.string "relative"], 0)] := by
  rfl

/-- A percent seek to 150 at 50 percent, evaluated. -/
theorem seekPercent_evaluated :
    issuedCommands (seekPercent scripted playingObject 150).2.trace =
    [(QVariant.list [QVariant.string "seek", QVariant.int 100,
      QVariant.string "absolute-percent"], 0)] := by
  rfl

section Rotation

variable (L : Mpv σ) (w : MpvObject σ)

theorem videoRotate_eq :
    videoRotate L w =
      (if idleActive L w.mpv then 0
       else qMin (Int.tmod (toInt32
          (qMax (L.get_property w.mpv "video-out-params/rotate").toInt 0 + 360)) 360) 359,
       w.logs (if idleActive L w.mpv then stateReads
         else stateReads ++ [Effect.getProperty "video-out-params/rotate"])) := by
  simp only [videoRotate, isStopped_eq, mpvGetProperty_eq]
  cases idleActive L w.mpv <;> simp

end Rotation

/-- C5: when the native property `idle-active` is true, `position()` and
`duration()` return 0 and `fileName()` returns the empty string, and each of
the three calls reads `idle-active` and `pause` and nothing else, so that
`time-pos`, `duration` and `filename` are not queried; nothing but the trace
changes. -/
theorem stopped_accessors_default (L : Mpv σ) (w : MpvObject σ)
    (h : (L.get_property w.mpv "idle-active").toBool = true) :
    position L w =
        (0, { w with trace := w.trace ++
          [Effect.getProperty "idle-active", Effect.getProperty "pause"] }) ∧
      duration L w =
        (0, { w with trace := w.trace ++
          [Effect.getProperty "idle-active", Effect.getProperty "pause"] }) ∧
      fileName L w =
        ("", { w with trace := w.trace ++
          [Effect.getProperty "idle-active", Effect.getProperty "pause"] }) := by
  have hidle : idleActive L w.mpv = true := h
  refine ⟨?_, ?_, ?_⟩
  · simp [position_eq, positionOf, positionReads, hidle, stateReads, MpvObject.logs]
  · simp [duration_eq, durationOf, durationReads, hidle, stateReads, MpvObject.logs]
  · simp [fileName, isStopped_eq, hidle, stateReads, MpvObject.logs]

/-- Witness of C5: the scripted stopped object, whose player still reports
position 50, duration 100 and the file name `a.mkv`. -/
theorem stopped_accessors_default_witness :
    (scripted.get_property stoppedObject.mpv "idle-active").toBool = true ∧
      (position scripted stoppedObject).1 = 0 ∧
      (duration scripted stoppedObject).1 = 0 ∧
      (fileName scripted stoppedObject).1 = "" ∧
      queriedProperties (position scripted stoppedObject).2.trace = ["idle-active", "pause"] ∧
      queriedProperties (duration scripted stoppedObject).2.trace = ["idle-active", "pause"] ∧
      queriedProperties (fileName scripted stoppedObject).2.trace = ["idle-active", "pause"] := by
  have h := stopped_accessors_default scripted stoppedObject (by decide)
  refine ⟨by decide, ?_, ?_, ?_, ?_, ?_, ?_⟩
  · rw [h.1]
  · rw [h.2.1]
  · rw [h.2.2]
  · rw [h.1]; rfl
  · rw [h.2.1]; rfl
  · rw [h.2.2]; rfl

/-- C6 as stated fails: on the scripted stopped object, whose player still
reports one video track and one chapter, `mediaTracks()` returns a video
channel and `chapters()` a chapter, and the two calls do query `track-list`
and `chapter-list`. -/
theorem stopped_track_lists_counterexample :
    (isStopped scripted stoppedObject).1 = true ∧
      (mediaTracks scripted stoppedObject).1.videoChannels.length = 1 ∧
      (chapters scripted stoppedObject).1.length = 1 ∧
      queriedProperties (mediaTracks scripted stoppedObject).2.trace = ["track-list"] ∧
      queriedProperties (chapters scripted stoppedObject).2.trace = ["chapter-list"] := by
  refine ⟨?_, ?_, ?_, ?_, ?_⟩ <;> rfl

section Events

variable (L : Mpv σ) (w : MpvObject σ)

theorem playbackStateChangeEvent_eq :
    playbackStateChangeEvent L w = w.logs (stateChangeEffects L w.mpv) := by
  cases hi : idleActive L w.mpv <;> cases hp : pauseFlag L w.mpv <;>
    simp [playbackStateChangeEvent, isPlaying_eq, isPaused_eq, isStopped_eq, emit_eq_logs,
      stateChangeEffects, hi, hp]

theorem setMediaStatus_eq (status : MediaStatus) :
    setMediaStatus w status =
      ({ w with currentMediaStatus := status } : MpvObject σ).logs
        (if w.currentMediaStatus = status then [] else [Effect.emit "mediaStatusChanged"]) := by
  unfold setMediaStatus mediaStatus
  by_cases h : w.currentMediaStatus = status
  · simp only [h, if_true]
    cases w
    simp_all [MpvObject.logs]
  · simp only [h, if_false]
    rfl

theorem handle_file_loaded (properties : List (String × Option String)) :
    handleMpvEvent L properties w mpv_event.MPV_EVENT_FILE_LOADED =
      some (({ w with currentMediaStatus := MediaStatus.Loaded } : MpvObject σ).logs
        (fileLoadedEffects L w.mpv w.currentMediaStatus)) := by
  simp only [handleMpvEvent, setMediaStatus_eq, emit_eq_logs, playbackStateChangeEvent_eq,
    logs_logs, logs_mpv, fileLoadedEffects, List.append_assoc]

theorem count_loaded_fileLoadedEffects (s : σ) (status : MediaStatus) :
    (emittedSignals (fileLoadedEffects L s status)).count "loaded" = 1 ∧
      (emittedSignals (fileLoadedEffects L s status)).count "playbackStateChanged" = 1 := by
  unfold fileLoadedEffects stateChangeEffects
  by_cases h : status = MediaStatus.Loaded <;>
    cases idleActive L s <;> cases pauseFlag L s <;>
    simp [h, emittedSignals, stateReads]

theorem drain_file_loaded (properties : List (String × Option String)) (s1 s2 : σ)
    (fuel : Nat) (h1 : L.mpv_wait_event w.mpv = (mpv_event.MPV_EVENT_FILE_LOADED, s1))
    (h2 : L.mpv_wait_event s1 = (mpv_event.MPV_EVENT_NONE, s2)) :
    handleMpvEvents L properties (fuel + 2) w =
      Drain.finished
        { w with
          mpv := s2
          currentMediaStatus := MediaStatus.Loaded
          trace := w.trace ++ ([Effect.waitEvent] ++
            fileLoadedEffects L s1 w.currentMediaStatus ++ [Effect.waitEvent]) } := by
  simp only [handleMpvEvents, h1, handle_file_loaded, logs_mpv, h2]
  simp [MpvObject.logs]

end Events

/-- C7: whatever the media status and the native playback state, the case
`MPV_EVENT_FILE_LOADED` of `handleMpvEvents` leaves `mediaStatus()` equal to
Loaded and emits `loaded` exactly once and `playbackStateChanged` exactly once,
without touching the player or the current source; and a drain that receives
one such event followed by `MPV_EVENT_NONE` ends normally with the same
outcome. -/
theorem file_loaded_sets_loaded_and_notifies_once (L : Mpv σ)
    (properties : List (String × Option String)) (w : MpvObject σ) :
    (∃ w1 es,
      handleMpvEvent L properties w mpv_event.MPV_EVENT_FILE_LOADED = some w1 ∧
      w1.trace = w.trace ++ es ∧
      mediaStatus w1 = MediaStatus.Loaded ∧
      (emittedSignals es).count "loaded" = 1 ∧
      (emittedSignals es).count "playbackStateChanged" = 1 ∧
      w1.mpv = w.mpv ∧ w1.currentSource = w.currentSource) ∧
    (∀ (s1 s2 : σ) (fuel : Nat),
      L.mpv_wait_event w.mpv = (mpv_event.MPV_EVENT_FILE_LOADED, s1) →
      L.mpv_wait_event s1 = (mpv_event.MPV_EVENT_NONE, s2) →
      ∃ w2 es,
        handleMpvEvents L properties (fuel + 2) w = Drain.finished w2 ∧
        w2.trace = w.trace ++ es ∧
        mediaStatus w2 = MediaStatus.Loaded ∧
        (emittedSignals es).count "loaded" = 1 ∧
        (emittedSignals es).count "playbackStateChanged" = 1 ∧
        w2.currentSource = w.currentSource) := by
  constructor
  · refine ⟨_, fileLoadedEffects L w.mpv w.currentMediaStatus,
      handle_file_loaded L w properties, rfl, rfl, ?_, ?_, rfl, rfl⟩
    · exact (count_loaded_fileLoadedEffects L w.mpv w.currentMediaStatus).1
    · exact (count_loaded_fileLoadedEffects L w.mpv w.currentMediaStatus).2
  · intro s1 s2 fuel h1 h2
    have hc := count_loaded_fileLoadedEffects L s1 w.currentMediaStatus
    refine ⟨_, [Effect.waitEvent] ++ fileLoadedEffects L s1 w.currentMediaStatus ++
      [Effect.waitEvent], drain_file_loaded L w properties s1 s2 fuel h1 h2, rfl, rfl, ?_, ?_,
      rfl⟩
    · simpa [emittedSignals_append, emittedSignals] using hc.1
    · simpa [emittedSignals_append, emittedSignals] using hc.2

/-- Witness of C7: draining the queue of the scripted object that is paused,
in status Loading, with one pending file-loaded event. -/
theorem file_loaded_sets_loaded_and_notifies_once_witness :
    scripted.mpv_wait_event loadingObject.mpv =
        (mpv_event.MPV_EVENT_FILE_LOADED, { loadingObject.mpv with events := [] }) ∧
      scripted.mpv_wait_event { loadingObject.mpv with events := [] } =
        (mpv_event.MPV_EVENT_NONE, { loadingObject.mpv with events := [] }) ∧
      ∃ w2 es,
        handleMpvEvents scripted [] (0 + 2) loadingObject = Drain.finished w2 ∧
        w2.trace = loadingObject.trace ++ es ∧
        mediaStatus w2 = MediaStatus.Loaded ∧
        (emittedSignals es).count "loaded" = 1 ∧
        (emittedSignals es).count "playbackStateChanged" = 1 ∧
        w2.currentSource = loadingObject.currentSource :=
  ⟨rfl, rfl,
    (file_loaded_sets_loaded_and_notifies_once scripted [] loadingObject).2 _ _ 0 rfl rfl⟩

/-- The signals of the drain of the witness of C7, evaluated. -/
theorem file_loaded_drain_evaluated :
    (match handleMpvEvents scripted [] 2 loadingObject with
      | Drain.finished w2 => (emittedSignals w2.trace, w2.currentMediaStatus)
      | _ => ([], MediaStatus.Unknown)) =
    (["mediaStatusChanged", "loaded", "paused", "playbackStateChanged"], MediaStatus.Loaded) := by
  rfl

section CommandFailure

variable (L : Mpv σ) (w : MpvObject σ)

theorem setSource_noop (src : QUrl) (h : src.isValid = false ∨ src = w.currentSource) :
    setSource L w src = w := by
  rcases h with h | h <;> simp [setSource, h]

theorem setSource_eq (src : QUrl) (hv : src.isValid = true) (hne : src ≠ w.currentSource) :
    setSource L w src =
      (if (commandResult L w.currentMpvCallType w.mpv (loadArguments src)).1 ≥ 0 then
        { mpv := (commandResult L w.currentMpvCallType w.mpv (loadArguments src)).2
          currentSource := src
          currentMediaStatus := w.currentMediaStatus
          currentMpvCallType := w.currentMpvCallType
          trace := w.trace ++
            [Effect.command (decide (w.currentMpvCallType = MpvCallType.Asynchronous))
              (loadArguments src)
              (commandResult L w.currentMpvCallType w.mpv (loadArguments src)).1,
             Effect.emit "sourceChanged"] }
      else
        { mpv := (commandResult L w.currentMpvCallType w.mpv (loadArguments src)).2
          currentSource := w.currentSource
          currentMediaStatus := w.currentMediaStatus
          currentMpvCallType := w.currentMpvCallType
          trace := w.trace ++
            [Effect.command (decide (w.currentMpvCallType = MpvCallType.Asynchronous))
              (loadArguments src)
              (commandResult L w.currentMpvCallType w.mpv (loadArguments src)).1] }) := by
  have hl : (QVariant.list [QVariant.string "loadfile",
      QVariant.string (if src.isLocalFile then src.toLocalFile else src.url)]) =
      loadArguments src := rfl
  simp only [setSource, hv, hne, hl, Bool.not_true, decide_False, Bool.or_self,
    Bool.false_eq_true, if_false]
  unfold loadArguments
  rw [mpvSendCommand_list]
  by_cases hc : (commandResult L w.currentMpvCallType w.mpv
      (QVariant.list [QVariant.string "loadfile",
        QVariant.string (if src.isLocalFile then src.toLocalFile else src.url)])).1 ≥ 0
  · simp [hc, MpvObject.emit, MpvObject.log]
  · simp [hc]

theorem seek_keeps_members (value : Int) (absolute percent : Bool) :
    (seek L w value absolute percent).2.currentSource = w.currentSource ∧
      (seek L w value absolute percent).2.currentMediaStatus = w.currentMediaStatus ∧
      (seek L w value absolute percent).2.currentMpvCallType = w.currentMpvCallType := by
  cases h : idleActive L w.mpv
  · rw [seek_eq L w value absolute percent h, seekArguments, mpvSendCommand_list]
    simp
  · rw [seek_stopped L w value absolute percent h]
    simp

theorem seek_keeps_members_logs (es : List Effect) (value : Int) (absolute percent : Bool) :
    (seek L (w.logs es) value absolute percent).2.currentSource = w.currentSource ∧
      (seek L (w.logs es) value absolute percent).2.currentMediaStatus =
        w.currentMediaStatus := by
  have h := seek_keeps_members L (w.logs es) value absolute percent
  exact ⟨h.1, h.2.1⟩

/-- Every operation that sends a command, `stop` apart, keeps the current
source and the media status when the command fails; `setSource` is the only
one that ever changes the source, and only after a successful command. -/
theorem failed_command_keeps_source_and_status (value pos offset pct : Int)
    (absolute percent : Bool) (filePath prof : String) (src : QUrl) :
    ((seek L w value absolute percent).2.currentSource = w.currentSource ∧
      (seek L w value absolute percent).2.currentMediaStatus = w.currentMediaStatus) ∧
    ((seekAbsolute L w pos).2.currentSource = w.currentSource ∧
      (seekAbsolute L w pos).2.currentMediaStatus = w.currentMediaStatus) ∧
    ((seekRelative L w offset).2.currentSource = w.currentSource ∧
      (seekRelative L w offset).2.currentMediaStatus = w.currentMediaStatus) ∧
    ((seekPercent L w pct).2.currentSource = w.currentSource ∧
      (seekPercent L w pct).2.currentMediaStatus = w.currentMediaStatus) ∧
    ((screenshot L w).2.currentSource = w.currentSource ∧
      (screenshot L w).2.currentMediaStatus = w.currentMediaStatus) ∧
    ((screenshotToFile L w filePath).2.currentSource = w.currentSource ∧
      (screenshotToFile L w filePath).2.currentMediaStatus = w.currentMediaStatus) ∧
    ((setProfile L w prof).currentSource = w.currentSource ∧
      (setProfile L w prof).currentMediaStatus = w.currentMediaStatus) ∧
    ((setSource L w src).currentMediaStatus = w.currentMediaStatus ∧
      ((commandResult L w.currentMpvCallType w.mpv
          (QVariant.list [QVariant.string "loadfile",
            QVariant.string (if src.isLocalFile then src.toLocalFile else src.url)])).1 < 0 →
        (setSource L w src).currentSource = w.currentSource)) ∧
    (stop L w).2.currentMediaStatus = w.currentMediaStatus := by
  refine ⟨?_, ?_, ?_, ?_, ?_, ?_, ?_, ?_, ?_⟩
  · have h := seek_keeps_members L w value absolute percent
    exact ⟨h.1, h.2.1⟩
  · simp only [seekAbsolute, isStopped_eq, position_eq, duration_eq, logs_logs, logs_mpv]
    split
    · simp
    · split
      · simp
      · exact seek_keeps_members_logs L w _ _ _ _
  · simp only [seekRelative, isStopped_eq, position_eq, duration_eq, logs_logs, logs_mpv]
    split
    · simp
    · split
      · simp
      · exact seek_keeps_members_logs L w _ _ _ _
  · simp only [seekPercent, isStopped_eq, percentPos_eq, logs_logs, logs_mpv]
    split
    · simp
    · split
      · simp
      · exact seek_keeps_members_logs L w _ _ _ _
  · simp only [screenshot, isStopped_eq, mpvSendCommand_list]
    split <;> simp
  · simp only [screenshotToFile, isStopped_eq, mpvSendCommand_list]
    split
    · simp
    · split <;> simp
  · simp only [setProfile, profile, mpvGetProperty_eq, mpvSendCommand_list]
    split
    · simp
    · split <;> simp
  · by_cases hg : src.isValid = false ∨ src = w.currentSource
    · rw [setSource_noop L w src hg]
      exact ⟨rfl, fun _ => rfl⟩
    · have hv : src.isValid = true := by
        cases hsv : src.isValid
        · exact absurd (Or.inl hsv) hg
        · rfl
      have hne : src ≠ w.currentSource := fun e => hg (Or.inr e)
      rw [setSource_eq L w src hv hne]
      constructor
      · split <;> rfl
      · intro hneg
        have hc : ¬ (commandResult L w.currentMpvCallType w.mpv (loadArguments src)).1 ≥ 0 := by
          have : (commandResult L w.currentMpvCallType w.mpv (loadArguments src)).1 < 0 := hneg
          omega
        simp [hc]
  · simp only [stop, isStopped_eq, mpvSendCommand_list, emit_eq_logs]
    split
    · simp
    · split <;> simp

end CommandFailure

/-- C8 (the code departs from the claim): on the scripted object that is
playing `localUrl` and whose player rejects commands, `stop()` issues the
command `stop`, receives the error code -1, returns false and emits nothing,
and yet the current source, `localUrl` before the call, is empty after it.
The media status is unchanged. -/
theorem stop_clears_source_after_failed_command :
    (isStopped scripted failingObject).1 = false ∧
      failingObject.currentSource = localUrl ∧
      (stop scripted failingObject).1 = false ∧
      issuedCommands (stop scripted failingObject).2.trace =
        [(QVariant.list [QVariant.string "stop"], -1)] ∧
      emittedSignals (stop scripted failingObject).2.trace = [] ∧
      (stop scripted failingObject).2.currentSource = QUrl.empty ∧
      (stop scripted failingObject).2.currentSource ≠ failingObject.currentSource ∧
      (stop scripted failingObject).2.currentMediaStatus = failingObject.currentMediaStatus := by
  refine ⟨rfl, rfl, rfl, rfl, rfl, rfl, ?_, rfl⟩
  decide

/-- C9: `setSource(s)` leaves the object as it is (no command, same source,
no signal) when `s` is invalid or equal to the current source; otherwise it
issues exactly one command `loadfile`, with the local file path of `s` when
`s` is a local file and with its URL string otherwise, and the current source
becomes `s` with `sourceChanged` emitted once exactly when the error code of
that command is not negative; after a failed command the source is the old
one and nothing is emitted. -/
theorem setSource_contract (L : Mpv σ) (w : MpvObject σ) (src : QUrl) :
    ((src.isValid = false ∨ src = w.currentSource) → setSource L w src = w) ∧
    (src.isValid = true → src ≠ w.currentSource →
      ∃ code,
        issuedCommands (setSource L w src).trace =
          issuedCommands w.trace ++
            [(QVariant.list [QVariant.string "loadfile",
                QVariant.string (if src.isLocalFile then src.toLocalFile else src.url)],
              code)] ∧
        (0 ≤ code →
          (setSource L w src).currentSource = src ∧
          emittedSignals (setSource L w src).trace =
            emittedSignals w.trace ++ ["sourceChanged"]) ∧
        (code < 0 →
          (setSource L w src).currentSource = w.currentSource ∧
          emittedSignals (setSource L w src).trace = emittedSignals w.trace)) := by
  refine ⟨setSource_noop L w src, ?_⟩
  intro hv hne
  refine ⟨(commandResult L w.currentMpvCallType w.mpv (loadArguments src)).1, ?_, ?_, ?_⟩
  · rw [setSource_eq L w src hv hne]
    split <;> simp [issuedCommands_append, issuedCommands, loadArguments]
  · intro hc
    rw [setSource_eq L w src hv hne]
    simp [hc, emittedSignals_append, emittedSignals]
  · intro hc
    have hc2 : ¬ (commandResult L w.currentMpvCallType w.mpv (loadArguments src)).1 ≥ 0 := by
      omega
    rw [setSource_eq L w src hv hne]
    simp [hc2, emittedSignals_append, emittedSignals]

/-- Witness of C9: setting the local file `localUrl` on the scripted playing
object, which has no source and whose player accepts commands. -/
theorem setSource_contract_witness :
    localUrl.isValid = true ∧ localUrl ≠ playingObject.currentSource ∧
    ∃ code,
      issuedCommands (setSource scripted playingObject localUrl).trace =
        issuedCommands playingObject.trace ++
          [(QVariant.list [QVariant.string "loadfile",
              QVariant.string (if localUrl.isLocalFile then localUrl.toLocalFile
                else localUrl.url)],
            code)] ∧
      (0 ≤ code →
        (setSource scripted playingObject localUrl).currentSource = localUrl ∧
        emittedSignals (setSource scripted playingObject localUrl).trace =
          emittedSignals playingObject.trace ++ ["sourceChanged"]) ∧
      (code < 0 →
        (setSource scripted playingObject localUrl).currentSource =
          playingObject.currentSource ∧
        emittedSignals (setSource scripted playingObject localUrl).trace =
          emittedSignals playingObject.trace) :=
  ⟨rfl, by decide, (setSource_contract scripted playingObject localUrl).2 rfl (by decide)⟩

/-- The three cases of `setSource`, evaluated on scripted objects: a local
file accepted, a remote locator rejected by the player, and the current source
set again. -/
theorem setSource_evaluated :
    (issuedCommands (setSource scripted playingObject localUrl).trace =
        [(QVariant.list [QVariant.string "loadfile", QVariant.string "/tmp/a.mkv"], 0)] ∧
      (setSource scripted playingObject localUrl).currentSource = localUrl ∧
      emittedSignals (setSource scripted playingObject localUrl).trace = ["sourceChanged"]) ∧
    (issuedCommands (setSource scripted failingObject remoteUrl).trace =
        [(QVariant.list [QVariant.string "loadfile", QVariant.string "http://host/b.mkv"],
          -1)] ∧
      (setSource scripted failingObject remoteUrl).currentSource = localUrl ∧
      emittedSignals (setSource scripted failingObject remoteUrl).trace = []) ∧
    (setSource scripted failingObject localUrl).trace = [] := by
  refine ⟨⟨rfl, rfl, rfl⟩, ⟨rfl, rfl, rfl⟩, rfl⟩

section Opening

variable (L : Mpv σ) (w : MpvObject σ)

theorem play_not_paused (h : (!idleActive L w.mpv && pauseFlag L w.mpv) = false) :
    play L w = (false, w.logs stateReads) := by
  simp [play, isPaused_eq, h]

end Opening

/-- C10: `open(A)` for a valid locator `A`, when the current source is empty,
the native `loadfile` command succeeds and the player is still idle after it:
the current source becomes `A`, `sourceChanged` is emitted exactly once, the
`play()` that follows only queries the playback state (no write to `pause`, no
`playing` signal), and `open` returns true.  For an invalid locator `open`
returns false and leaves the object, trace included, as it is. -/
theorem open_when_stopped (L : Mpv σ) (w : MpvObject σ) (A : QUrl)
    (hv : A.isValid = true) (hs : w.currentSource = QUrl.empty)
    (hok : 0 ≤ (commandResult L w.currentMpvCallType w.mpv
      (QVariant.list [QVariant.string "loadfile",
        QVariant.string (if A.isLocalFile then A.toLocalFile else A.url)])).1)
    (hidle : (L.get_property (commandResult L w.currentMpvCallType w.mpv
      (QVariant.list [QVariant.string "loadfile",
        QVariant.string (if A.isLocalFile then A.toLocalFile else A.url)])).2
      "idle-active").toBool = true) :
    (openUrl L w A).1 = true ∧
      (openUrl L w A).2.currentSource = A ∧
      (openUrl L w A).2.trace =
        w.trace ++
          [Effect.command (decide (w.currentMpvCallType = MpvCallType.Asynchronous))
            (QVariant.list [QVariant.string "loadfile",
              QVariant.string (if A.isLocalFile then A.toLocalFile else A.url)])
            (commandResult L w.currentMpvCallType w.mpv
              (QVariant.list [QVariant.string "loadfile",
                QVariant.string (if A.isLocalFile then A.toLocalFile else A.url)])).1,
           Effect.emit "sourceChanged",
           Effect.getProperty "idle-active", Effect.getProperty "pause",
           Effect.getProperty "idle-active", Effect.getProperty "pause"] ∧
      emittedSignals (openUrl L w A).2.trace = emittedSignals w.trace ++ ["sourceChanged"] ∧
      propertyWrites (openUrl L w A).2.trace = propertyWrites w.trace ∧
      (∀ u : QUrl, u.isValid = false → openUrl L w u = (false, w)) := by
  have hne : A ≠ w.currentSource := by
    intro e
    rw [hs] at e
    rw [e] at hv
    exact absurd hv (by decide)
  have hi : idleActive L (commandResult L w.currentMpvCallType w.mpv (loadArguments A)).2 =
      true := hidle
  have hok2 : (commandResult L w.currentMpvCallType w.mpv (loadArguments A)).1 ≥ 0 := hok
  have key : openUrl L w A =
      (true,
        { mpv := (commandResult L w.currentMpvCallType w.mpv (loadArguments A)).2
          currentSource := A
          currentMediaStatus := w.currentMediaStatus
          currentMpvCallType := w.currentMpvCallType
          trace := w.trace ++
            [Effect.command (decide (w.currentMpvCallType = MpvCallType.Asynchronous))
              (loadArguments A)
              (commandResult L w.currentMpvCallType w.mpv (loadArguments A)).1,
             Effect.emit "sourceChanged",
             Effect.getProperty "idle-active", Effect.getProperty "pause",
             Effect.getProperty "idle-active", Effect.getProperty "pause"] }) := by
    have hset : setSource L w A =
        { mpv := (commandResult L w.currentMpvCallType w.mpv (loadArguments A)).2
          currentSource := A
          currentMediaStatus := w.currentMediaStatus
          currentMpvCallType := w.currentMpvCallType
          trace := w.trace ++
            [Effect.command (decide (w.currentMpvCallType = MpvCallType.Asynchronous))
              (loadArguments A)
              (commandResult L w.currentMpvCallType w.mpv (loadArguments A)).1,
             Effect.emit "sourceChanged"] } := by
      rw [setSource_eq L w A hv hne]
      simp [hok2]
    simp [openUrl, hv, hne, hset, isPlaying_eq, hi, play_not_paused, MpvObject.logs, stateReads]
  refine ⟨?_, ?_, ?_, ?_, ?_, ?_⟩
  · rw [key]
  · rw [key]
  · rw [key]; rfl
  · rw [key]; simp [emittedSignals_append, emittedSignals]
  · rw [key]; simp [propertyWrites_append, propertyWrites]
  · intro u hu
    simp [openUrl, hu]

/-- Witness of C10: opening `localUrl` on the scripted object that is stopped
with no source and whose player accepts the command and stays idle. -/
theorem open_when_stopped_witness :
    localUrl.isValid = true ∧ emptyObject.currentSource = QUrl.empty ∧
      (isStopped scripted emptyObject).1 = true ∧
      (openUrl scripted emptyObject localUrl).1 = true ∧
      (openUrl scripted emptyObject localUrl).2.currentSource = localUrl ∧
      emittedSignals (openUrl scripted emptyObject localUrl).2.trace = ["sourceChanged"] ∧
      propertyWrites (openUrl scripted emptyObject localUrl).2.trace = [] ∧
      openUrl scripted emptyObject QUrl.empty = (false, emptyObject) := by
  have h := open_when_stopped scripted emptyObject localUrl rfl rfl (by decide) (by decide)
  exact ⟨rfl, rfl, rfl, h.1, h.2.1, h.2.2.2.1, h.2.2.2.2.1, h.2.2.2.2.2 QUrl.empty rfl⟩

section Setters

variable (L : Mpv σ) (w : MpvObject σ)

theorem logs_nil : w.logs [] = w := by
  cases w
  simp [MpvObject.logs]

theorem onlyReads_refl : OnlyReads w w := ⟨[], rfl, (logs_nil w).symm⟩

theorem onlyReads_logs (es : List Effect) (h : allReads es = true) : OnlyReads w (w.logs es) :=
  ⟨es, h, rfl⟩

theorem onlyReads_members (w1 : MpvObject σ) (h : OnlyReads w w1) :
    w1.mpv = w.mpv ∧ w1.currentSource = w.currentSource ∧
      w1.currentMediaStatus = w.currentMediaStatus ∧
      w1.currentMpvCallType = w.currentMpvCallType ∧
      propertyWrites w1.trace = propertyWrites w.trace ∧
      issuedCommands w1.trace = issuedCommands w.trace ∧
      logRequests w1.trace = logRequests w.trace ∧
      emittedSignals w1.trace = emittedSignals w.trace := by
  obtain ⟨es, hes, rfl⟩ := h
  simp [propertyWrites_append, issuedCommands_append, logRequests_append, emittedSignals_append,
    propertyWrites_of_allReads es hes, issuedCommands_of_allReads es hes,
    logRequests_of_allReads es hes, emittedSignals_of_allReads es hes]

theorem logLevel_snd : (logLevel L w).2 = w.logs [Effect.getProperty "msg-level"] := by
  simp only [logLevel, mpvGetProperty_eq]
  repeat' split
  all_goals rfl

theorem source_eq :
    source L w = (if idleActive L w.mpv then QUrl.empty else w.currentSource,
      w.logs stateReads) := by
  simp [source, isStopped_eq]

theorem allReads_singleton (name : String) : allReads [Effect.getProperty name] = true := rfl

theorem allReads_state_then (name : String) :
    allReads (stateReads ++ [Effect.getProperty name]) = true := rfl

theorem allReads_state_state_then (name : String) :
    allReads (stateReads ++ (stateReads ++ [Effect.getProperty name])) = true := rfl

end Setters

section SetterFamily

variable (L : Mpv σ) (w : MpvObject σ)

theorem setter_onlyReads (c : SetterCall) (h : requestedIsCurrent L w c = true) :
    OnlyReads w (runSetter L w c) := by
  cases c <;> simp only [requestedIsCurrent, decide_eq_true_eq] at h <;> subst h <;>
    simp only [runSetter]
  case setMediaStatus =>
    simp only [setMediaStatus, if_true]
    exact onlyReads_refl _
  case setMpvCallType =>
    simp only [setMpvCallType, if_true]
    exact onlyReads_refl _
  case setSource =>
    rw [source_eq]
    cases hi : idleActive L w.mpv
    · rw [setSource_noop L w _ (Or.inr (by simp))]
      exact onlyReads_refl _
    · rw [setSource_noop L w _ (Or.inl (by simp [QUrl.empty]))]
      exact onlyReads_refl _
  case setPlaybackState =>
    cases hi : idleActive L w.mpv <;>
      simp [setPlaybackState, playbackState_eq, isStopped_eq, hi]
    all_goals exact onlyReads_logs _ _ rfl
  case setLogLevel =>
    simp only [setLogLevel, logLevel_snd, decide_True, if_true]
    exact onlyReads_logs _ _ rfl
  case setPosition =>
    cases hi : idleActive L w.mpv <;>
      simp [setPosition, position_eq, isStopped_eq, hi]
    · exact onlyReads_logs _ _ (by
        simp [allReads_append, allReads_stateReads, allReads_positionReads])
    · exact onlyReads_logs _ _ rfl
  case setVid =>
    cases hi : idleActive L w.mpv <;>
      simp [setVid, vid, isStopped_eq, mpvGetProperty_eq, hi]
    all_goals exact onlyReads_logs _ _ rfl
  case setAid =>
    cases hi : idleActive L w.mpv <;>
      simp [setAid, aid, isStopped_eq, mpvGetProperty_eq, hi]
    all_goals exact onlyReads_logs _ _ rfl
  case setSid =>
    cases hi : idleActive L w.mpv <;>
      simp [setSid, sid, isStopped_eq, mpvGetProperty_eq, hi]
    all_goals exact onlyReads_logs _ _ rfl
  case setVideoRotate =>
    cases hi : idleActive L w.mpv <;>
      simp [setVideoRotate, videoRotate, isStopped_eq, mpvGetProperty_eq, hi]
    all_goals exact onlyReads_logs _ _ rfl
  case setVideoAspect =>
    cases hi : idleActive L w.mpv <;>
      simp [setVideoAspect, videoAspect, isStopped_eq, mpvGetProperty_eq, hi]
    all_goals exact onlyReads_logs _ _ rfl
  case setPercentPos =>
    cases hi : idleActive L w.mpv <;>
      simp [setPercentPos, percentPos, isStopped_eq, mpvGetProperty_eq, hi]
    all_goals exact onlyReads_logs _ _ rfl
  case setSpeed =>
    cases hi : idleActive L w.mpv <;>
      simp [setSpeed, speed, isStopped_eq, mpvGetProperty_eq, hi]
    all_goals exact onlyReads_logs _ _ rfl
  case setMute =>
    simp only [setMute, mute, mpvGetProperty_eq, decide_True, if_true]
    exact onlyReads_logs _ _ rfl
  case setVolume =>
    simp only [setVolume, volume, mpvGetProperty_eq, decide_True, if_true]
    exact onlyReads_logs _ _ rfl
  case setDeinterlace =>
    simp only [setDeinterlace, deinterlace, mpvGetProperty_eq, decide_True, if_true]
    exact onlyReads_logs _ _ rfl
  case setAudioExclusive =>
    simp only [setAudioExclusive, audioExclusive, mpvGetProperty_eq, decide_True, if_true]
    exact onlyReads_logs _ _ rfl
  case setScreenshotPngCompression =>
    simp only [setScreenshotPngCompression, screenshotPngCompression, mpvGetProperty_eq, decide_True, if_true]
    exact onlyReads_logs _ _ rfl
  case setHrSeek =>
    simp only [setHrSeek, hrSeek, mpvGetProperty_eq, decide_True, if_true]
    exact onlyReads_logs _ _ rfl
  case setYtdl =>
    simp only [setYtdl, ytdl, mpvGetProperty_eq, decide_True, if_true]
    exact onlyReads_logs _ _ rfl
  case setLoadScripts =>
    simp only [setLoadScripts, loadScripts, mpvGetProperty_eq, decide_True, if_true]
    exact onlyReads_logs _ _ rfl
  case setScreenshotTagColorspace =>
    simp only [setScreenshotTagColorspace, screenshotTagColorspace, mpvGetProperty_eq, decide_True, if_true]
    exact onlyReads_logs _ _ rfl
  case setScreenshotJpegQuality =>
    simp only [setScreenshotJpegQuality, screenshotJpegQuality, mpvGetProperty_eq, decide_True, if_true]
    exact onlyReads_logs _ _ rfl
  case setHwdec =>
    simp only [setHwdec, hwdec, mpvGetProperty_eq, decide_True, if_true]
    split
    · exact onlyReads_refl _
    · exact onlyReads_logs _ _ rfl
  case setAudioFileAuto =>
    simp only [setAudioFileAuto, audioFileAuto, mpvGetProperty_eq, decide_True, if_true]
    split
    · exact onlyReads_refl _
    · exact onlyReads_logs _ _ rfl
  case setSubAuto =>
    simp only [setSubAuto, subAuto, mpvGetProperty_eq, decide_True, if_true]
    split
    · exact onlyReads_refl _
    · exact onlyReads_logs _ _ rfl
  case setSubCodepage =>
    simp only [setSubCodepage, subCodepage, mpvGetProperty_eq, decide_True, if_true]
    split
    · split
      · exact onlyReads_refl _
      · exact onlyReads_logs _ _ rfl
    · split
      · exact onlyReads_refl _
      · exact onlyReads_logs _ _ rfl
  case setVo =>
    simp only [setVo, vo, mpvGetProperty_eq, decide_True, if_true]
    split
    · exact onlyReads_refl _
    · exact onlyReads_logs _ _ rfl
  case setAo =>
    simp only [setAo, ao, mpvGetProperty_eq, decide_True, if_true]
    split
    · exact onlyReads_refl _
    · exact onlyReads_logs _ _ rfl
  case setScreenshotFormat =>
    simp only [setScreenshotFormat, screenshotFormat, mpvGetProperty_eq, decide_True, if_true]
    split
    · exact onlyReads_refl _
    · exact onlyReads_logs _ _ rfl
  case setScreenshotTemplate =>
    simp only [setScreenshotTemplate, screenshotTemplate, mpvGetProperty_eq, decide_True, if_true]
    split
    · exact onlyReads_refl _
    · exact onlyReads_logs _ _ rfl
  case setScreenshotDirectory =>
    simp only [setScreenshotDirectory, screenshotDirectory, mpvGetProperty_eq, decide_True, if_true]
    split
    · exact onlyReads_refl _
    · exact onlyReads_logs _ _ rfl
  case setProfile =>
    simp only [setProfile, profile, mpvGetProperty_eq, decide_True, if_true]
    split
    · exact onlyReads_refl _
    · exact onlyReads_logs _ _ rfl

end SetterFamily

/-- C4: for every property setter of `MpvObject`, if the requested value
equals the value the matching accessor returns now, the call writes no native
property, sends no native command, requests no log level and emits no signal;
the player and the data members are as before (the call only reads). -/
theorem setter_with_current_value_is_noop (L : Mpv σ) (w : MpvObject σ) (c : SetterCall)
    (h : requestedIsCurrent L w c = true) :
    propertyWrites (runSetter L w c).trace = propertyWrites w.trace ∧
      issuedCommands (runSetter L w c).trace = issuedCommands w.trace ∧
      logRequests (runSetter L w c).trace = logRequests w.trace ∧
      emittedSignals (runSetter L w c).trace = emittedSignals w.trace ∧
      (runSetter L w c).mpv = w.mpv ∧
      (runSetter L w c).currentSource = w.currentSource ∧
      (runSetter L w c).currentMediaStatus = w.currentMediaStatus ∧
      (runSetter L w c).currentMpvCallType = w.currentMpvCallType := by
  have hm := onlyReads_members w _ (setter_onlyReads L w c h)
  exact ⟨hm.2.2.2.2.1, hm.2.2.2.2.2.1, hm.2.2.2.2.2.2.1, hm.2.2.2.2.2.2.2, hm.1, hm.2.1,
    hm.2.2.1, hm.2.2.2.1⟩

/-- Witness of C4: `setMute(true)` on the scripted object that is already
muted. -/
theorem setter_with_current_value_is_noop_witness :
    requestedIsCurrent scripted mutedObject (SetterCall.setMute true) = true ∧
      propertyWrites (runSetter scripted mutedObject (SetterCall.setMute true)).trace = [] ∧
      issuedCommands (runSetter scripted mutedObject (SetterCall.setMute true)).trace = [] ∧
      emittedSignals (runSetter scripted mutedObject (SetterCall.setMute true)).trace = [] := by
  have h := setter_with_current_value_is_noop scripted mutedObject (SetterCall.setMute true) rfl
  exact ⟨rfl, h.1, h.2.1, h.2.2.2.1⟩

/-- A setter called with another value does write: `setMute(false)` and
`setVolume(150)` on the scripted muted object, evaluated. -/
theorem setter_with_new_value_evaluated :
    propertyWrites (runSetter scripted mutedObject (SetterCall.setMute false)).trace =
        [("mute", QVariant.bool false, 0)] ∧
      propertyWrites (runSetter scripted mutedObject (SetterCall.setVolume 150)).trace =
        [("volume", QVariant.int 100, 0)] := by
  constructor <;> rfl

section Transitions

variable (L : Mpv σ) (w : MpvObject σ)

theorem mpvSetProperty_eq (name : String) (value : QVariant) (h1 : value.isNull = false)
    (h2 : value.isValid = true) :
    mpvSetProperty L w name value =
      (decide ((setPropertyResult L w.currentMpvCallType w.mpv name value).1 ≥ 0),
        { w with
          mpv := (setPropertyResult L w.currentMpvCallType w.mpv name value).2,
          trace := w.trace ++
            [Effect.setProperty (decide (w.currentMpvCallType = MpvCallType.Asynchronous))
              name value (setPropertyResult L w.currentMpvCallType w.mpv name value).1] }) := by
  cases h : w.currentMpvCallType <;>
    simp [mpvSetProperty, h1, h2, setPropertyResult, mpvCallType, h]

theorem playbackState_paused_iff :
    (playbackState L w).1 = PlaybackState.Paused ↔
      idleActive L w.mpv = false ∧ pauseFlag L w.mpv = true := by
  rw [playbackState_eq]
  cases idleActive L w.mpv <;> cases pauseFlag L w.mpv <;> simp

theorem playbackState_playing_iff :
    (playbackState L w).1 = PlaybackState.Playing ↔
      idleActive L w.mpv = false ∧ pauseFlag L w.mpv = false := by
  rw [playbackState_eq]
  cases idleActive L w.mpv <;> cases pauseFlag L w.mpv <;> simp

theorem playbackState_stopped_iff :
    (playbackState L w).1 = PlaybackState.Stopped ↔ idleActive L w.mpv = true := by
  rw [playbackState_eq]
  cases idleActive L w.mpv <;> cases pauseFlag L w.mpv <;> simp

theorem play_wrong_state
    (h : ¬ ((playbackState L w).1 = PlaybackState.Paused ∧ w.currentSource.isValid = true)) :
    play L w = (false, w.logs stateReads) := by
  rw [playbackState_paused_iff] at h
  cases hi : idleActive L w.mpv <;> cases hp : pauseFlag L w.mpv <;>
    cases hv : w.currentSource.isValid <;>
    simp [play, isPaused_eq, hi, hp, hv] at h ⊢

theorem play_right_state (hs : (playbackState L w).1 = PlaybackState.Paused)
    (hv : w.currentSource.isValid = true) :
    play L w =
      (decide ((setPropertyResult L w.currentMpvCallType w.mpv "pause"
          (QVariant.bool false)).1 ≥ 0),
        { w with
          mpv := (setPropertyResult L w.currentMpvCallType w.mpv "pause"
            (QVariant.bool false)).2,
          trace := w.trace ++ stateReads ++
            [Effect.setProperty (decide (w.currentMpvCallType = MpvCallType.Asynchronous))
              "pause" (QVariant.bool false)
              (setPropertyResult L w.currentMpvCallType w.mpv "pause"
                (QVariant.bool false)).1] ++
            (if (setPropertyResult L w.currentMpvCallType w.mpv "pause"
                (QVariant.bool false)).1 ≥ 0 then [Effect.emit "playing"] else []) }) := by
  rw [playbackState_paused_iff] at hs
  obtain ⟨hi, hp⟩ := hs
  simp only [play, isPaused_eq, hi, hp, logs_currentSource, hv,
    mpvSetProperty_eq L _ "pause" (QVariant.bool false) rfl rfl, logs_mpv,
    logs_currentMpvCallType, logs_trace, emit_eq_logs]
  by_cases hc : (setPropertyResult L w.currentMpvCallType w.mpv "pause"
      (QVariant.bool false)).1 ≥ 0
  · simp [hc, MpvObject.logs]
  · simp [hc, MpvObject.logs]

theorem pause_wrong_state (h : ¬ (playbackState L w).1 = PlaybackState.Playing) :
    pause L w = (false, w.logs stateReads) := by
  rw [playbackState_playing_iff] at h
  cases hi : idleActive L w.mpv <;> cases hp : pauseFlag L w.mpv <;>
    simp [pause, isPlaying_eq, hi, hp] at h ⊢

theorem pause_right_state (hs : (playbackState L w).1 = PlaybackState.Playing) :
    pause L w =
      (decide ((setPropertyResult L w.currentMpvCallType w.mpv "pause"
          (QVariant.bool true)).1 ≥ 0),
        { w with
          mpv := (setPropertyResult L w.currentMpvCallType w.mpv "pause"
            (QVariant.bool true)).2,
          trace := w.trace ++ stateReads ++
            [Effect.setProperty (decide (w.currentMpvCallType = MpvCallType.Asynchronous))
              "pause" (QVariant.bool true)
              (setPropertyResult L w.currentMpvCallType w.mpv "pause"
                (QVariant.bool true)).1] ++
            (if (setPropertyResult L w.currentMpvCallType w.mpv "pause"
                (QVariant.bool true)).1 ≥ 0 then [Effect.emit "paused"] else []) }) := by
  rw [playbackState_playing_iff] at hs
  obtain ⟨hi, hp⟩ := hs
  simp only [pause, isPlaying_eq, hi, hp,
    mpvSetProperty_eq L _ "pause" (QVariant.bool true) rfl rfl, logs_mpv,
    logs_currentMpvCallType, logs_trace, emit_eq_logs]
  by_cases hc : (setPropertyResult L w.currentMpvCallType w.mpv "pause"
      (QVariant.bool true)).1 ≥ 0
  · simp [hc, MpvObject.logs]
  · simp [hc, MpvObject.logs]

theorem stop_when_stopped (hs : (playbackState L w).1 = PlaybackState.Stopped) :
    stop L w = (false, w.logs stateReads) := by
  rw [playbackState_stopped_iff] at hs
  simp [stop, isStopped_eq, hs]

end Transitions

/-- C11: `play()` returns false, writes nothing and emits nothing unless the
state is Paused and the current source is valid; `pause()` likewise unless the
state is Playing; `stop()` returns false, sends no command and keeps the
current source when the state is Stopped.  In the right state `play()` writes
`pause` = false and `pause()` writes `pause` = true, exactly once, each
returns whether the error code of that write is not negative, and `playing`,
respectively `paused`, is emitted exactly in that case. -/
theorem transitions_in_wrong_state_fail (L : Mpv σ) (w : MpvObject σ) :
    (¬ ((playbackState L w).1 = PlaybackState.Paused ∧ w.currentSource.isValid = true) →
      (play L w).1 = false ∧
      propertyWrites (play L w).2.trace = propertyWrites w.trace ∧
      issuedCommands (play L w).2.trace = issuedCommands w.trace ∧
      emittedSignals (play L w).2.trace = emittedSignals w.trace ∧
      (play L w).2.mpv = w.mpv ∧ (play L w).2.currentSource = w.currentSource) ∧
    ((playbackState L w).1 = PlaybackState.Paused → w.currentSource.isValid = true →
      (play L w).1 = decide (0 ≤ (setPropertyResult L w.currentMpvCallType w.mpv "pause"
        (QVariant.bool false)).1) ∧
      propertyWrites (play L w).2.trace =
        propertyWrites w.trace ++
          [("pause", QVariant.bool false,
            (setPropertyResult L w.currentMpvCallType w.mpv "pause" (QVariant.bool false)).1)] ∧
      emittedSignals (play L w).2.trace =
        emittedSignals w.trace ++
          (if 0 ≤ (setPropertyResult L w.currentMpvCallType w.mpv "pause"
            (QVariant.bool false)).1 then ["playing"] else [])) ∧
    (¬ (playbackState L w).1 = PlaybackState.Playing →
      (pause L w).1 = false ∧
      propertyWrites (pause L w).2.trace = propertyWrites w.trace ∧
      issuedCommands (pause L w).2.trace = issuedCommands w.trace ∧
      emittedSignals (pause L w).2.trace = emittedSignals w.trace ∧
      (pause L w).2.mpv = w.mpv ∧ (pause L w).2.currentSource = w.currentSource) ∧
    ((playbackState L w).1 = PlaybackState.Playing →
      (pause L w).1 = decide (0 ≤ (setPropertyResult L w.currentMpvCallType w.mpv "pause"
        (QVariant.bool true)).1) ∧
      propertyWrites (pause L w).2.trace =
        propertyWrites w.trace ++
          [("pause", QVariant.bool true,
            (setPropertyResult L w.currentMpvCallType w.mpv "pause" (QVariant.bool true)).1)] ∧
      emittedSignals (pause L w).2.trace =
        emittedSignals w.trace ++
          (if 0 ≤ (setPropertyResult L w.currentMpvCallType w.mpv "pause"
            (QVariant.bool true)).1 then ["paused"] else [])) ∧
    ((playbackState L w).1 = PlaybackState.Stopped →
      (stop L w).1 = false ∧
      issuedCommands (stop L w).2.trace = issuedCommands w.trace ∧
      propertyWrites (stop L w).2.trace = propertyWrites w.trace ∧
      emittedSignals (stop L w).2.trace = emittedSignals w.trace ∧
      (stop L w).2.mpv = w.mpv ∧ (stop L w).2.currentSource = w.currentSource) := by
  have hw := propertyWrites_of_allReads _ allReads_stateReads
  have hc := issuedCommands_of_allReads _ allReads_stateReads
  have he := emittedSignals_of_allReads _ allReads_stateReads
  refine ⟨?_, ?_, ?_, ?_, ?_⟩
  · intro h
    rw [play_wrong_state L w h]
    simp [propertyWrites_append, issuedCommands_append, emittedSignals_append, hw, hc, he]
  · intro hs hv
    rw [play_right_state L w hs hv]
    refine ⟨rfl, ?_, ?_⟩
    · simp only [propertyWrites_append, hw, List.append_nil]
      split <;> simp [propertyWrites]
    · simp only [emittedSignals_append, he, List.append_nil]
      split <;> simp [emittedSignals]
  · intro h
    rw [pause_wrong_state L w h]
    simp [propertyWrites_append, issuedCommands_append, emittedSignals_append, hw, hc, he]
  · intro hs
    rw [pause_right_state L w hs]
    refine ⟨rfl, ?_, ?_⟩
    · simp only [propertyWrites_append, hw, List.append_nil]
      split <;> simp [propertyWrites]
    · simp only [emittedSignals_append, he, List.append_nil]
      split <;> simp [emittedSignals]
  · intro hs
    rw [stop_when_stopped L w hs]
    simp [propertyWrites_append, issuedCommands_append, emittedSignals_append, hw, hc, he]

/-- Witness of C11: on the scripted object paused on `localUrl`, whose player
accepts writes, `play()` is in the right state; `pause()` is not. -/
theorem transitions_in_wrong_state_fail_witness :
    (playbackState scripted pausedObject).1 = PlaybackState.Paused ∧
      pausedObject.currentSource.isValid = true ∧
      (play scripted pausedObject).1 = true ∧
      propertyWrites (play scripted pausedObject).2.trace =
        [("pause", QVariant.bool false, 0)] ∧
      emittedSignals (play scripted pausedObject).2.trace = ["playing"] ∧
      (pause scripted pausedObject).1 = false ∧
      propertyWrites (pause scripted pausedObject).2.trace = [] := by
  have h := transitions_in_wrong_state_fail scripted pausedObject
  have hp := h.2.1 rfl rfl
  have hq := h.2.2.1 (by decide)
  exact ⟨rfl, rfl, hp.1, hp.2.1, hp.2.2, hq.1, hq.2.1⟩

/-- The transitions evaluated on scripted objects: `stop()` on the stopped
object, `pause()` on the playing muted object, `play()` on the playing object
without a source. -/
theorem transitions_evaluated :
    stop scripted stoppedObject =
        (false, { stoppedObject with trace :=
          [Effect.getProperty "idle-active", Effect.getProperty "pause"] }) ∧
      ((pause scripted mutedObject).1 = true ∧
        propertyWrites (pause scripted mutedObject).2.trace =
          [("pause", QVariant.bool true, 0)] ∧
        emittedSignals (pause scripted mutedObject).2.trace = ["paused"]) ∧
      ((play scripted playingObject).1 = false ∧
        propertyWrites (play scripted playingObject).2.trace = []) := by
  refine ⟨rfl, ⟨rfl, rfl, rfl⟩, rfl, rfl⟩

section Volume

variable (L : Mpv σ) (w : MpvObject σ)

theorem qBound_int_eq_min_max (lo v hi : Int) (h : lo ≤ hi) :
    qBound lo v hi = min (max v lo) hi := by
  unfold qBound qMax qMin
  split <;> split <;> omega

theorem volume_eq :
    volume L w =
      (qBound 0 (L.get_property w.mpv "volume").toInt 100,
        w.logs [Effect.getProperty "volume"]) := by
  simp [volume, mpvGetProperty_eq]

theorem setVolume_same (v : Int) (h : v = (volume L w).1) :
    setVolume L w v = w.logs [Effect.getProperty "volume"] := by
  subst h
  simp [setVolume, volume_eq]

theorem setVolume_other (v : Int) (h : v ≠ (volume L w).1) :
    setVolume L w v =
      { w with
        mpv := (setPropertyResult L w.currentMpvCallType w.mpv "volume"
          (QVariant.int (qBound 0 v 100))).2,
        trace := w.trace ++
          [Effect.getProperty "volume",
           Effect.setProperty (decide (w.currentMpvCallType = MpvCallType.Asynchronous))
            "volume" (QVariant.int (qBound 0 v 100))
            (setPropertyResult L w.currentMpvCallType w.mpv "volume"
              (QVariant.int (qBound 0 v 100))).1] } := by
  rw [volume_eq] at h
  simp only [setVolume, volume_eq, mpvSetProperty_eq L _ "volume" (QVariant.int _) rfl rfl]
  simp [h, MpvObject.logs]

end Volume

/-- C12: `setVolume(v)` writes the native property `volume` at most once, and
the value it writes is min(max(v, 0), 100), which lies in [0, 100]: no write
when `v` equals `volume()`, exactly one such write otherwise.  In particular
`setVolume(150)` always writes 100. -/
theorem setVolume_writes_clamped (L : Mpv σ) (w : MpvObject σ) (v : Int) :
    (v = (volume L w).1 →
      propertyWrites (setVolume L w v).trace = propertyWrites w.trace) ∧
    (v ≠ (volume L w).1 →
      propertyWrites (setVolume L w v).trace =
        propertyWrites w.trace ++
          [("volume", QVariant.int (min (max v 0) 100),
            (setPropertyResult L w.currentMpvCallType w.mpv "volume"
              (QVariant.int (min (max v 0) 100))).1)]) ∧
    (0 ≤ min (max v 0) 100 ∧ min (max v 0) 100 ≤ 100) ∧
    propertyWrites (setVolume L w 150).trace =
      propertyWrites w.trace ++
        [("volume", QVariant.int 100,
          (setPropertyResult L w.currentMpvCallType w.mpv "volume" (QVariant.int 100)).1)] := by
  refine ⟨?_, ?_, ⟨by omega, by omega⟩, ?_⟩
  · intro h
    rw [setVolume_same L w v h]
    simp [propertyWrites_append, propertyWrites]
  · intro h
    rw [setVolume_other L w v h, qBound_int_eq_min_max 0 v 100 (by omega)]
    simp [propertyWrites_append, propertyWrites]
  · have hle : (volume L w).1 ≤ 100 := by
      rw [volume_eq]
      exact qBound_int_le _ _ _ (by omega)
    have hne : (150 : Int) ≠ (volume L w).1 := by omega
    have hq : qBound (0 : Int) 150 100 = 100 := by decide
    rw [setVolume_other L w 150 hne, hq]
    simp [propertyWrites_append, propertyWrites]

/-- Witness of C12: `setVolume(-7)` on the scripted object at volume 40 writes
0, and `setVolume(150)` writes 100. -/
theorem setVolume_writes_clamped_witness :
    (-7 : Int) ≠ (volume scripted mutedObject).1 ∧
      propertyWrites (setVolume scripted mutedObject (-7)).trace =
        [("volume", QVariant.int 0, 0)] ∧
      propertyWrites (setVolume scripted mutedObject 150).trace =
        [("volume", QVariant.int 100, 0)] := by
  have h := setVolume_writes_clamped scripted mutedObject (-7)
  have g := setVolume_writes_clamped scripted mutedObject 150
  exact ⟨by decide, h.2.1 (by decide), g.2.2.2⟩

section PercentSeek

variable (L : Mpv σ) (w : MpvObject σ)

theorem percentPosOf_le (s : σ) : percentPosOf L s ≤ 100 := by
  unfold percentPosOf
  split
  · omega
  · exact qBound_int_le _ _ _ (by omega)

theorem seekPercent_noop (pct : Int) (h : idleActive L w.mpv = true ∨ pct = percentPosOf L w.mpv) :
    (seekPercent L w pct).1 = false ∧ OnlyReads w (seekPercent L w pct).2 := by
  cases hi : idleActive L w.mpv
  · have hp : pct = percentPosOf L w.mpv := by
      rcases h with h | h
      · rw [hi] at h; exact absurd h (by decide)
      · exact h
    simp only [seekPercent, isStopped_eq, hi, percentPos_eq, logs_mpv, hp, logs_logs]
    simp only [Bool.false_eq_true, if_false, decide_True, if_true, true_and]
    exact onlyReads_logs _ _ (by
      simp [allReads_append, allReads_stateReads, allReads_percentPosReads])
  · simp only [seekPercent, isStopped_eq, hi, if_true, true_and]
    exact onlyReads_logs _ _ rfl

theorem seekPercent_seeks (pct : Int) (hi : idleActive L w.mpv = false)
    (hne : pct ≠ percentPosOf L w.mpv) :
    seekPercent L w pct =
      mpvSendCommand L (w.logs (stateReads ++ percentPosReads L w.mpv ++ stateReads))
        (QVariant.list [QVariant.string "seek", QVariant.int (qBound 0 (qBound 0 pct 100) 100),
          QVariant.string "absolute-percent"]) := by
  have hs := seek_eq L (w.logs (stateReads ++ percentPosReads L w.mpv)) (qBound 0 pct 100)
    true true (by simpa using hi)
  simp only [seekPercent, isStopped_eq, hi, percentPos_eq, logs_mpv, logs_logs, hne,
    Bool.false_eq_true, if_false, decide_False]
  rw [hs]
  simp [seekReads, seekArguments, seekMin, seekMax, seekMode]

end PercentSeek

/-- C13 as stated fails: on the scripted object that is playing with the
percent position already at 100, `seekPercent(150)` is not a no-op; it returns
true and issues the command `seek 100 absolute-percent`. -/
theorem seekPercent_at_end_counterexample :
    (isStopped scripted endObject).1 = false ∧
      (percentPos scripted endObject).1 = 100 ∧
      (seekPercent scripted endObject 150).1 = true ∧
      issuedCommands (seekPercent scripted endObject 150).2.trace =
        [(QVariant.list [QVariant.string "seek", QVariant.int 100,
          QVariant.string "absolute-percent"], 0)] := by
  refine ⟨rfl, rfl, rfl, rfl⟩

/-- C13, amended: the no-op test of `seekPercent` compares the request as
given, before it is clamped, with `percentPos()`.  In every state that is not
Stopped `seekPercent(150)` therefore issues exactly one command, `seek 100
absolute-percent`, and returns whether its error code is not negative, also
when the percent position is already 100.  For every request `p`:
`seekPercent(p)` returns false and only reads when the state is Stopped or `p`
equals `percentPos()`; in every other case it issues exactly one command,
`seek` of `p` clamped to 0..100 in mode `absolute-percent`, and returns
whether its error code is not negative; so the call issues no command exactly
when the state is Stopped or `p` equals `percentPos()`. -/
theorem seekPercent_compares_before_clamping (L : Mpv σ) (w : MpvObject σ) :
    ((L.get_property w.mpv "idle-active").toBool = false →
      (seekPercent L w 150).1 =
        decide (0 ≤ (commandResult L w.currentMpvCallType w.mpv
          (QVariant.list [QVariant.string "seek", QVariant.int 100,
            QVariant.string "absolute-percent"])).1) ∧
      issuedCommands (seekPercent L w 150).2.trace =
        issuedCommands w.trace ++
          [(QVariant.list [QVariant.string "seek", QVariant.int 100,
              QVariant.string "absolute-percent"],
            (commandResult L w.currentMpvCallType w.mpv
              (QVariant.list [QVariant.string "seek", QVariant.int 100,
                QVariant.string "absolute-percent"])).1)]) ∧
    (∀ pct : Int,
      ((L.get_property w.mpv "idle-active").toBool = true ∨ pct = (percentPos L w).1) →
      (seekPercent L w pct).1 = false ∧
      issuedCommands (seekPercent L w pct).2.trace = issuedCommands w.trace ∧
      (seekPercent L w pct).2.mpv = w.mpv) ∧
    (∀ pct : Int,
      (L.get_property w.mpv "idle-active").toBool = false → pct ≠ (percentPos L w).1 →
      (seekPercent L w pct).1 =
        decide (0 ≤ (commandResult L w.currentMpvCallType w.mpv
          (QVariant.list [QVariant.string "seek", QVariant.int (qBound 0 pct 100),
            QVariant.string "absolute-percent"])).1) ∧
      issuedCommands (seekPercent L w pct).2.trace =
        issuedCommands w.trace ++
          [(QVariant.list [QVariant.string "seek", QVariant.int (qBound 0 pct 100),
              QVariant.string "absolute-percent"],
            (commandResult L w.currentMpvCallType w.mpv
              (QVariant.list [QVariant.string "seek", QVariant.int (qBound 0 pct 100),
                QVariant.string "absolute-percent"])).1)] ∧
      (seekPercent L w pct).2.mpv =
        (commandResult L w.currentMpvCallType w.mpv
          (QVariant.list [QVariant.string "seek", QVariant.int (qBound 0 pct 100),
            QVariant.string "absolute-percent"])).2) ∧
    (∀ pct : Int,
      issuedCommands (seekPercent L w pct).2.trace = issuedCommands w.trace ↔
        ((L.get_property w.mpv "idle-active").toBool = true ∨ pct = (percentPos L w).1)) := by
  have hr : allReads (stateReads ++ percentPosReads L w.mpv ++ stateReads) = true := by
    simp [allReads_append, allReads_stateReads, allReads_percentPosReads]
  have hnoop : ∀ pct : Int,
      ((L.get_property w.mpv "idle-active").toBool = true ∨ pct = (percentPos L w).1) →
      (seekPercent L w pct).1 = false ∧
      issuedCommands (seekPercent L w pct).2.trace = issuedCommands w.trace ∧
      (seekPercent L w pct).2.mpv = w.mpv := by
    intro pct h
    have h2 : idleActive L w.mpv = true ∨ pct = percentPosOf L w.mpv := by
      rcases h with h | h
      · exact Or.inl h
      · right
        rw [percentPos_eq] at h
        exact h
    have hn := seekPercent_noop L w pct h2
    have hm := onlyReads_members w _ hn.2
    exact ⟨hn.1, hm.2.2.2.2.2.1, hm.1⟩
  have hseek : ∀ pct : Int,
      (L.get_property w.mpv "idle-active").toBool = false → pct ≠ (percentPos L w).1 →
      (seekPercent L w pct).1 =
        decide (0 ≤ (commandResult L w.currentMpvCallType w.mpv
          (QVariant.list [QVariant.string "seek", QVariant.int (qBound 0 pct 100),
            QVariant.string "absolute-percent"])).1) ∧
      issuedCommands (seekPercent L w pct).2.trace =
        issuedCommands w.trace ++
          [(QVariant.list [QVariant.string "seek", QVariant.int (qBound 0 pct 100),
              QVariant.string "absolute-percent"],
            (commandResult L w.currentMpvCallType w.mpv
              (QVariant.list [QVariant.string "seek", QVariant.int (qBound 0 pct 100),
                QVariant.string "absolute-percent"])).1)] ∧
      (seekPercent L w pct).2.mpv =
        (commandResult L w.currentMpvCallType w.mpv
          (QVariant.list [QVariant.string "seek", QVariant.int (qBound 0 pct 100),
            QVariant.string "absolute-percent"])).2 := by
    intro pct hi hne
    have hi2 : idleActive L w.mpv = false := hi
    have hne2 : pct ≠ percentPosOf L w.mpv := by
      rw [percentPos_eq] at hne
      exact hne
    have hq : qBound (0 : Int) (qBound 0 pct 100) 100 = qBound 0 pct 100 :=
      qBound_int_of_mem _ _ _ (qBound_int_ge _ _ _) (qBound_int_le _ _ _ (by decide))
    rw [seekPercent_seeks L w pct hi2 hne2, hq, mpvSendCommand_list]
    refine ⟨rfl, ?_, rfl⟩
    simp only [logs_trace, logs_mpv, logs_currentMpvCallType, issuedCommands_append,
      issuedCommands_of_allReads _ hr, List.append_nil]
    rfl
  refine ⟨?_, hnoop, hseek, ?_⟩
  · intro hi
    have hne : (150 : Int) ≠ (percentPos L w).1 := by
      rw [percentPos_eq]
      have := percentPosOf_le L w.mpv
      show (150 : Int) ≠ percentPosOf L w.mpv
      omega
    have hq : qBound (0 : Int) 150 100 = 100 := by decide
    have h := hseek 150 hi hne
    rw [hq] at h
    exact ⟨h.1, h.2.1⟩
  · intro pct
    constructor
    · intro h
      by_contra hc
      have hi : (L.get_property w.mpv "idle-active").toBool = false := by
        cases hv : (L.get_property w.mpv "idle-active").toBool
        · rfl
        · exact absurd (Or.inl hv) hc
      have hne : pct ≠ (percentPos L w).1 := fun he => hc (Or.inr he)
      have hs := (hseek pct hi hne).2.1
      rw [h] at hs
      have hl := congrArg List.length hs
      simp at hl
    · intro h
      exact (hnoop pct h).2.1

/-- Witness of the amended C13: the scripted object at 100 percent asked for
150, the same object asked for its current value 100, and the scripted object
at 50 percent asked for 80 and for 50. -/
theorem seekPercent_compares_before_clamping_witness :
    ((scripted.get_property endObject.mpv "idle-active").toBool = false ∧
      (seekPercent scripted endObject 150).1 = true ∧
      issuedCommands (seekPercent scripted endObject 150).2.trace =
        [(QVariant.list [QVariant.string "seek", QVariant.int 100,
          QVariant.string "absolute-percent"], 0)] ∧
      (100 : Int) = (percentPos scripted endObject).1 ∧
      (seekPercent scripted endObject 100).1 = false ∧
      issuedCommands (seekPercent scripted endObject 100).2.trace = []) ∧
    ((scripted.get_property playingObject.mpv "idle-active").toBool = false ∧
      (80 : Int) ≠ (percentPos scripted playingObject).1 ∧
      (seekPercent scripted playingObject 80).1 = true ∧
      issuedCommands (seekPercent scripted playingObject 80).2.trace =
        [(QVariant.list [QVariant.string "seek", QVariant.int 80,
          QVariant.string "absolute-percent"], 0)] ∧
      issuedCommands (seekPercent scripted playingObject 50).2.trace =
        issuedCommands playingObject.trace) := by
  have h := seekPercent_compares_before_clamping scripted endObject
  have h1 := h.1 rfl
  have h2 := h.2.1 100 (Or.inr rfl)
  have g := seekPercent_compares_before_clamping scripted playingObject
  have g1 := g.2.2.1 80 rfl (by decide)
  have g2 := (g.2.2.2 50).2 (Or.inr rfl)
  exact ⟨⟨rfl, h1.1, h1.2, rfl, h2.1, h2.2.1⟩, ⟨rfl, by decide, g1.1, g1.2.1, g2⟩⟩

section LogLevelWrite

variable (L : Mpv σ) (w : MpvObject σ)

theorem setLogLevel_trace (v : LogLevel) (h : v ≠ (logLevel L w).1) (e1 e2 e3 : Int)
    (s1 s2 : σ)
    (h1 : setPropertyResult L w.currentMpvCallType w.mpv "terminal"
      (QVariant.bool (decide (logLevelName v ≠ "no"))) = (e1, s1))
    (h2 : setPropertyResult L w.currentMpvCallType s1 "msg-level"
      (QVariant.string ("all=" ++ logLevelName v)) = (e2, s2))
    (h3 : (L.mpv_request_log_messages s2 (logLevelName v)).1 = e3) :
    (setLogLevel L w v).trace =
      w.trace ++
        [Effect.getProperty "msg-level",
         Effect.setProperty (decide (w.currentMpvCallType = MpvCallType.Asynchronous))
          "terminal" (QVariant.bool (decide (logLevelName v ≠ "no"))) e1,
         Effect.setProperty (decide (w.currentMpvCallType = MpvCallType.Asynchronous))
          "msg-level" (QVariant.string ("all=" ++ logLevelName v)) e2,
         Effect.requestLogMessages (logLevelName v) e3] ++
        (if 0 ≤ e1 ∧ 0 ≤ e2 ∧ 0 ≤ e3 then [Effect.emit "logLevelChanged"] else []) := by
  have hdec : decide (v = (logLevel L w).1) = false := by simpa using h
  simp only [setLogLevel, hdec, Bool.false_eq_true, if_false, logLevel_snd,
    mpvSetProperty_eq L _ "terminal" (QVariant.bool _) rfl rfl,
    mpvSetProperty_eq L _ "msg-level" (QVariant.string _) rfl rfl, logs_mpv,
    logs_currentMpvCallType, logs_trace, emit_eq_logs, h1, h2, h3]
  by_cases c1 : 0 ≤ e1 <;> by_cases c2 : 0 ≤ e2 <;> by_cases c3 : 0 ≤ e3 <;>
    simp [c1, c2, c3]

theorem emittedSignals_logLevel_trace (base : List Effect) (a : Bool) (name : String)
    (t : Bool) (e1 e2 e3 : Int) :
    emittedSignals (base ++ [Effect.getProperty "msg-level",
         Effect.setProperty a "terminal" (QVariant.bool t) e1,
         Effect.setProperty a "msg-level" (QVariant.string ("all=" ++ name)) e2,
         Effect.requestLogMessages name e3] ++
        (if 0 ≤ e1 ∧ 0 ≤ e2 ∧ 0 ≤ e3 then [Effect.emit "logLevelChanged"] else [])) =
      emittedSignals base ++
        (if 0 ≤ e1 ∧ 0 ≤ e2 ∧ 0 ≤ e3 then ["logLevelChanged"] else []) := by
  split <;> simp [emittedSignals_append, emittedSignals]

end LogLevelWrite

/-- C14: `setLogLevel(v)` for a level other than the current `logLevel()` maps
Off to `no`, Debug to `v`, Warning to `warn`, Critical to `error`, Fatal to
`fatal` and Info to `info`; after reading `msg-level` it writes `terminal` =
(the name is not `no`), writes `msg-level` = `all=` followed by the name, and
requests log messages at that name, all three whatever the earlier results;
and it emits `logLevelChanged`, once, exactly when none of the three error
codes is negative. -/
theorem setLogLevel_contract (L : Mpv σ) (w : MpvObject σ) (v : LogLevel)
    (h : v ≠ (logLevel L w).1) :
    (logLevelName LogLevel.Off = "no" ∧ logLevelName LogLevel.Debug = "v" ∧
      logLevelName LogLevel.Warning = "warn" ∧ logLevelName LogLevel.Critical = "error" ∧
      logLevelName LogLevel.Fatal = "fatal" ∧ logLevelName LogLevel.Info = "info") ∧
    ∃ e1 e2 e3 : Int,
      (setLogLevel L w v).trace =
        w.trace ++
          [Effect.getProperty "msg-level",
           Effect.setProperty (decide (w.currentMpvCallType = MpvCallType.Asynchronous))
            "terminal" (QVariant.bool (decide (logLevelName v ≠ "no"))) e1,
           Effect.setProperty (decide (w.currentMpvCallType = MpvCallType.Asynchronous))
            "msg-level" (QVariant.string ("all=" ++ logLevelName v)) e2,
           Effect.requestLogMessages (logLevelName v) e3] ++
          (if 0 ≤ e1 ∧ 0 ≤ e2 ∧ 0 ≤ e3 then [Effect.emit "logLevelChanged"] else []) ∧
      emittedSignals (setLogLevel L w v).trace =
        emittedSignals w.trace ++
          (if 0 ≤ e1 ∧ 0 ≤ e2 ∧ 0 ≤ e3 then ["logLevelChanged"] else []) := by
  refine ⟨⟨rfl, rfl, rfl, rfl, rfl, rfl⟩, ?_⟩
  have htr := setLogLevel_trace L w v h _ _ _ _ _ rfl rfl rfl
  exact ⟨_, _, _, htr, by rw [htr]; exact emittedSignals_logLevel_trace _ _ _ _ _ _ _⟩

/-- Witness of C14: `setLogLevel(Off)` on the scripted object whose level is
Warning; the three native calls are made and `logLevelChanged` is emitted. -/
theorem setLogLevel_contract_witness :
    LogLevel.Off ≠ (logLevel scripted warnObject).1 ∧
      (setLogLevel scripted warnObject LogLevel.Off).trace =
        [Effect.getProperty "msg-level",
         Effect.setProperty false "terminal" (QVariant.bool false) 0,
         Effect.setProperty false "msg-level" (QVariant.string "all=no") 0,
         Effect.requestLogMessages "no" 0,
         Effect.emit "logLevelChanged"] ∧
      ∃ e1 e2 e3 : Int,
        emittedSignals (setLogLevel scripted warnObject LogLevel.Off).trace =
          emittedSignals warnObject.trace ++
            (if 0 ≤ e1 ∧ 0 ≤ e2 ∧ 0 ≤ e3 then ["logLevelChanged"] else []) := by
  have hne : LogLevel.Off ≠ (logLevel scripted warnObject).1 := by decide
  obtain ⟨e1, e2, e3, _, he⟩ := (setLogLevel_contract scripted warnObject LogLevel.Off hne).2
  exact ⟨hne, rfl, e1, e2, e3, he⟩

section EventKinds

variable (L : Mpv σ) (properties : List (String × Option String)) (w : MpvObject σ)

theorem processMpvPropertyChange_members (name : String) :
    (processMpvPropertyChange properties w name).currentSource = w.currentSource ∧
      (processMpvPropertyChange properties w name).currentMediaStatus =
        w.currentMediaStatus ∧
      (processMpvPropertyChange properties w name).mpv = w.mpv := by
  unfold processMpvPropertyChange
  split <;> simp [emit_eq_logs]

theorem handleMpvEvent_members (ev : mpv_event) (w1 : MpvObject σ)
    (h : handleMpvEvent L properties w ev = some w1) :
    w1.currentSource = w.currentSource ∧ w1.mpv = w.mpv ∧
      (ev = mpv_event.MPV_EVENT_START_FILE → w1.currentMediaStatus = MediaStatus.Loading) ∧
      (ev = mpv_event.MPV_EVENT_FILE_LOADED → w1.currentMediaStatus = MediaStatus.Loaded) ∧
      (ev = mpv_event.MPV_EVENT_END_FILE → w1.currentMediaStatus = MediaStatus.End) ∧
      (ev ≠ mpv_event.MPV_EVENT_START_FILE → ev ≠ mpv_event.MPV_EVENT_FILE_LOADED →
        ev ≠ mpv_event.MPV_EVENT_END_FILE → w1.currentMediaStatus = w.currentMediaStatus) := by
  have hp := fun name => processMpvPropertyChange_members properties w name
  cases ev <;>
    simp only [handleMpvEvent, Option.some.injEq, setMediaStatus_eq, emit_eq_logs,
      playbackStateChangeEvent_eq, videoReconfig, audioReconfig, processMpvLogMessage] at h
  case MPV_EVENT_LOG_MESSAGE level text =>
    cases level <;> simp at h <;> subst h <;> simp
  case MPV_EVENT_PROPERTY_CHANGE name =>
    subst h
    simp [hp name]
  all_goals
    subst h
    simp

theorem handleMpvEvent_total (ev : mpv_event)
    (h : ∀ text, ev ≠ mpv_event.MPV_EVENT_LOG_MESSAGE mpv_log_level.MPV_LOG_LEVEL_FATAL text) :
    ∃ w1, handleMpvEvent L properties w ev = some w1 := by
  cases ev
  case MPV_EVENT_LOG_MESSAGE level text =>
    cases level
    case MPV_LOG_LEVEL_FATAL => exact absurd rfl (h text)
    all_goals exact ⟨_, rfl⟩
  all_goals exact ⟨_, rfl⟩

theorem handleMpvEvents_currentSource (fuel : Nat) :
    ∀ w : MpvObject σ,
      (handleMpvEvents L properties fuel w).object.currentSource = w.currentSource := by
  induction fuel with
  | zero => intro w; rfl
  | succ n ih =>
    intro w
    simp only [handleMpvEvents]
    split
    · rfl
    · split
      · rfl
      · rename_i w2 hw2
        rw [ih w2]
        exact (handleMpvEvent_members L properties _ _ w2 hw2).1

end EventKinds

section DrainStatus

variable (L : Mpv σ) (properties : List (String × Option String))

theorem handleMpvEvent_status_cases (w : MpvObject σ) (ev : mpv_event) (w1 : MpvObject σ)
    (h : handleMpvEvent L properties w ev = some w1) :
    w1.currentMediaStatus = w.currentMediaStatus ∨
      w1.currentMediaStatus = MediaStatus.Loading ∨
      w1.currentMediaStatus = MediaStatus.Loaded ∨
      w1.currentMediaStatus = MediaStatus.End := by
  have hm := handleMpvEvent_members L properties w ev w1 h
  by_cases h1 : ev = mpv_event.MPV_EVENT_START_FILE
  · exact Or.inr (Or.inl (hm.2.2.1 h1))
  · by_cases h2 : ev = mpv_event.MPV_EVENT_FILE_LOADED
    · exact Or.inr (Or.inr (Or.inl (hm.2.2.2.1 h2)))
    · by_cases h3 : ev = mpv_event.MPV_EVENT_END_FILE
      · exact Or.inr (Or.inr (Or.inr (hm.2.2.2.2.1 h3)))
      · exact Or.inl (hm.2.2.2.2.2 h1 h2 h3)

theorem handleMpvEvents_status_cases (fuel : Nat) :
    ∀ w : MpvObject σ,
      (handleMpvEvents L properties fuel w).object.currentMediaStatus = w.currentMediaStatus ∨
        (handleMpvEvents L properties fuel w).object.currentMediaStatus = MediaStatus.Loading ∨
        (handleMpvEvents L properties fuel w).object.currentMediaStatus = MediaStatus.Loaded ∨
        (handleMpvEvents L properties fuel w).object.currentMediaStatus = MediaStatus.End := by
  induction fuel with
  | zero => intro w; exact Or.inl rfl
  | succ n ih =>
    intro w
    simp only [handleMpvEvents]
    split
    · exact Or.inl rfl
    · split
      · exact Or.inl rfl
      · rename_i w2 hw2
        have hs := handleMpvEvent_status_cases L properties _ _ w2 hw2
        rcases ih w2 with h | h | h | h
        · rw [h]
          exact hs
        · exact Or.inr (Or.inl h)
        · exact Or.inr (Or.inr (Or.inl h))
        · exact Or.inr (Or.inr (Or.inr h))

end DrainStatus

/-- C15: in `handleMpvEvents` the media status is changed by three event kinds
only: `MPV_EVENT_START_FILE` sets it to Loading, `MPV_EVENT_FILE_LOADED` to
Loaded and `MPV_EVENT_END_FILE` to End; every other event kind leaves the
media status as it is, and no event kind changes the current source.  Every
event but a fatal log message (which ends the process) is handled; and after
a drain of any length the current source is the one before it and the media
status is the one before it or one of Loading, Loaded, End. -/
theorem media_status_changed_by_three_events (L : Mpv σ)
    (properties : List (String × Option String)) (w : MpvObject σ) :
    (∀ (ev : mpv_event) (w1 : MpvObject σ),
      handleMpvEvent L properties w ev = some w1 →
        (ev = mpv_event.MPV_EVENT_START_FILE → mediaStatus w1 = MediaStatus.Loading) ∧
        (ev = mpv_event.MPV_EVENT_FILE_LOADED → mediaStatus w1 = MediaStatus.Loaded) ∧
        (ev = mpv_event.MPV_EVENT_END_FILE → mediaStatus w1 = MediaStatus.End) ∧
        (ev ≠ mpv_event.MPV_EVENT_START_FILE → ev ≠ mpv_event.MPV_EVENT_FILE_LOADED →
          ev ≠ mpv_event.MPV_EVENT_END_FILE → mediaStatus w1 = mediaStatus w) ∧
        w1.currentSource = w.currentSource) ∧
    (∀ ev : mpv_event,
      (∀ text, ev ≠ mpv_event.MPV_EVENT_LOG_MESSAGE mpv_log_level.MPV_LOG_LEVEL_FATAL text) →
        ∃ w1, handleMpvEvent L properties w ev = some w1) ∧
    (∀ fuel : Nat,
      (handleMpvEvents L properties fuel w).object.currentSource = w.currentSource ∧
      (mediaStatus (handleMpvEvents L properties fuel w).object = mediaStatus w ∨
        mediaStatus (handleMpvEvents L properties fuel w).object = MediaStatus.Loading ∨
        mediaStatus (handleMpvEvents L properties fuel w).object = MediaStatus.Loaded ∨
        mediaStatus (handleMpvEvents L properties fuel w).object = MediaStatus.End)) := by
  refine ⟨?_, ?_, ?_⟩
  · intro ev w1 h
    have hm := handleMpvEvent_members L properties w ev w1 h
    exact ⟨hm.2.2.1, hm.2.2.2.1, hm.2.2.2.2.1, hm.2.2.2.2.2, hm.1⟩
  · intro ev h
    exact handleMpvEvent_total L properties w ev h
  · intro fuel
    exact ⟨handleMpvEvents_currentSource L properties fuel w,
      handleMpvEvents_status_cases L properties fuel w⟩

/-- Witness of C15: on the scripted object in status Loaded, a seek event and
a change of the observed property `pause` are handled and leave the status
and the source alone. -/
theorem media_status_changed_by_three_events_witness :
    (∃ w1, handleMpvEvent scripted [("pause", some "playbackStateChanged")] busyObject
        mpv_event.MPV_EVENT_SEEK = some w1 ∧
      mediaStatus w1 = mediaStatus busyObject ∧
      w1.currentSource = busyObject.currentSource) ∧
    (∃ w1, handleMpvEvent scripted [("pause", some "playbackStateChanged")] busyObject
        (mpv_event.MPV_EVENT_PROPERTY_CHANGE "pause") = some w1 ∧
      mediaStatus w1 = mediaStatus busyObject ∧
      w1.currentSource = busyObject.currentSource) := by
  have h := (media_status_changed_by_three_events scripted
    [("pause", some "playbackStateChanged")] busyObject).1
  constructor
  · have h1 := h mpv_event.MPV_EVENT_SEEK _ rfl
    exact ⟨_, rfl, h1.2.2.2.1 (by decide) (by decide) (by decide), h1.2.2.2.2⟩
  · have h1 := h (mpv_event.MPV_EVENT_PROPERTY_CHANGE "pause") _ rfl
    exact ⟨_, rfl, h1.2.2.2.1 (by decide) (by decide) (by decide), h1.2.2.2.2⟩

/-- The drain of the six pending events of the scripted busy object,
evaluated: it ends normally with status Loading, the source it had, and the
signals of the file end, the file start, the property change and the idle
event. -/
theorem busy_drain_evaluated :
    (match handleMpvEvents scripted [("pause", some "playbackStateChanged")] 7 busyObject with
      | Drain.finished w1 =>
        (some w1.currentMediaStatus, w1.currentSource, emittedSignals w1.trace)
      | _ => (none, QUrl.empty, [])) =
    (some MediaStatus.Loading, localUrl,
      ["playbackStateChanged", "mediaStatusChanged", "playing", "playbackStateChanged",
       "mediaStatusChanged", "playing", "playbackStateChanged"]) := by
  rfl

section MemberSetters

variable (w : MpvObject σ)

theorem setMpvCallType_eq (t : MpvCallType) :
    setMpvCallType w t =
      ({ w with currentMpvCallType := t } : MpvObject σ).logs
        (if w.currentMpvCallType = t then [] else [Effect.emit "mpvCallTypeChanged"]) := by
  unfold setMpvCallType mpvCallType
  by_cases h : w.currentMpvCallType = t
  · simp only [h, if_true]
    cases w
    simp_all [MpvObject.logs]
  · simp only [h, if_false]
    rfl

theorem setMediaStatus_same (s : MediaStatus) (h : mediaStatus w = s) :
    setMediaStatus w s = w := by
  simp [setMediaStatus, h]

theorem setMpvCallType_same (t : MpvCallType) (h : mpvCallType w = t) :
    setMpvCallType w t = w := by
  simp [setMpvCallType, h]

end MemberSetters

/-- C16: `setMediaStatus(s)` emits `mediaStatusChanged` exactly once when `s`
differs from the stored status and leaves the object untouched when it is
equal; `setMpvCallType(t)` does the same with `mpvCallTypeChanged` and the
stored call type.  In both cases the stored value afterwards is the argument,
and a second call with the same argument changes nothing, so that two calls
in a row emit at most one notification. -/
theorem member_setters_notify_on_change (w : MpvObject σ) (s : MediaStatus)
    (t : MpvCallType) :
    ((s ≠ mediaStatus w →
        (setMediaStatus w s).trace = w.trace ++ [Effect.emit "mediaStatusChanged"]) ∧
      (s = mediaStatus w → setMediaStatus w s = w) ∧
      mediaStatus (setMediaStatus w s) = s ∧
      setMediaStatus (setMediaStatus w s) s = setMediaStatus w s ∧
      (emittedSignals (setMediaStatus (setMediaStatus w s) s).trace =
          emittedSignals w.trace ∨
        emittedSignals (setMediaStatus (setMediaStatus w s) s).trace =
          emittedSignals w.trace ++ ["mediaStatusChanged"])) ∧
    ((t ≠ mpvCallType w →
        (setMpvCallType w t).trace = w.trace ++ [Effect.emit "mpvCallTypeChanged"]) ∧
      (t = mpvCallType w → setMpvCallType w t = w) ∧
      mpvCallType (setMpvCallType w t) = t ∧
      setMpvCallType (setMpvCallType w t) t = setMpvCallType w t ∧
      (emittedSignals (setMpvCallType (setMpvCallType w t) t).trace =
          emittedSignals w.trace ∨
        emittedSignals (setMpvCallType (setMpvCallType w t) t).trace =
          emittedSignals w.trace ++ ["mpvCallTypeChanged"])) := by
  have hs : mediaStatus (setMediaStatus w s) = s := by
    rw [setMediaStatus_eq]; rfl
  have ht : mpvCallType (setMpvCallType w t) = t := by
    rw [setMpvCallType_eq]; rfl
  have hs2 : setMediaStatus (setMediaStatus w s) s = setMediaStatus w s :=
    setMediaStatus_same _ s hs
  have ht2 : setMpvCallType (setMpvCallType w t) t = setMpvCallType w t :=
    setMpvCallType_same _ t ht
  refine ⟨⟨?_, ?_, hs, hs2, ?_⟩, ⟨?_, ?_, ht, ht2, ?_⟩⟩
  · intro h
    have h2 : ¬ w.currentMediaStatus = s := fun e => h e.symm
    rw [setMediaStatus_eq]
    simp [h2]
  · intro h
    simp [setMediaStatus, h]
  · rw [hs2, setMediaStatus_eq]
    by_cases h : w.currentMediaStatus = s
    · left; simp [h]
    · right; simp [h, emittedSignals_append, emittedSignals]
  · intro h
    have h2 : ¬ w.currentMpvCallType = t := fun e => h e.symm
    rw [setMpvCallType_eq]
    simp [h2]
  · intro h
    simp [setMpvCallType, h]
  · rw [ht2, setMpvCallType_eq]
    by_cases h : w.currentMpvCallType = t
    · left; simp [h]
    · right; simp [h, emittedSignals_append, emittedSignals]

/-- Witness of C16: on the scripted playing object (status Loaded, synchronous
calls) a new status and a new call type are each notified once, and the second
call of each setter adds nothing. -/
theorem member_setters_notify_on_change_witness :
    MediaStatus.End ≠ mediaStatus playingObject ∧
      MpvCallType.Asynchronous ≠ mpvCallType playingObject ∧
      (setMediaStatus playingObject MediaStatus.End).trace =
        [Effect.emit "mediaStatusChanged"] ∧
      (setMediaStatus (setMediaStatus playingObject MediaStatus.End) MediaStatus.End).trace =
        [Effect.emit "mediaStatusChanged"] ∧
      (setMpvCallType playingObject MpvCallType.Asynchronous).trace =
        [Effect.emit "mpvCallTypeChanged"] ∧
      (setMpvCallType (setMpvCallType playingObject MpvCallType.Asynchronous)
          MpvCallType.Asynchronous).trace = [Effect.emit "mpvCallTypeChanged"] ∧
      setMediaStatus playingObject MediaStatus.Loaded = playingObject := by
  have h := member_setters_notify_on_change playingObject MediaStatus.End
    MpvCallType.Asynchronous
  have g := member_setters_notify_on_change playingObject MediaStatus.Loaded
    MpvCallType.Synchronous
  refine ⟨by decide, by decide, h.1.1 (by decide), ?_, h.2.1 (by decide), ?_, g.1.2.1 rfl⟩
  · rw [h.1.2.2.2.1]
    exact h.1.1 (by decide)
  · rw [h.2.2.2.2.1]
    exact h.2.1 (by decide)

/-- C17: `mpvSendCommand(args)` returns false and leaves the object, trace
included, untouched when `args` is null or invalid.  Otherwise it makes
exactly one native call, `command_async` when the call type is Asynchronous
and `command` otherwise, and returns true exactly when the error code of that
call is not negative. -/
theorem mpvSendCommand_contract (L : Mpv σ) (w : MpvObject σ) (arguments : QVariant) :
    ((arguments.isNull = true ∨ arguments.isValid = false) →
      mpvSendCommand L w arguments = (false, w)) ∧
    (arguments.isNull = false → arguments.isValid = true →
      mpvCallType w = MpvCallType.Asynchronous →
      mpvSendCommand L w arguments =
        (decide (0 ≤ (L.command_async w.mpv arguments).1),
          { w with
            mpv := (L.command_async w.mpv arguments).2,
            trace := w.trace ++
              [Effect.command true arguments (L.command_async w.mpv arguments).1] })) ∧
    (arguments.isNull = false → arguments.isValid = true →
      mpvCallType w ≠ MpvCallType.Asynchronous →
      mpvSendCommand L w arguments =
        (decide (0 ≤ (L.command w.mpv arguments).1),
          { w with
            mpv := (L.command w.mpv arguments).2,
            trace := w.trace ++
              [Effect.command false arguments (L.command w.mpv arguments).1] })) := by
  refine ⟨?_, ?_, ?_⟩
  · intro h
    rcases h with h | h <;> simp [mpvSendCommand, h]
  · intro h1 h2 h3
    simp [mpvSendCommand, h1, h2, h3]
  · intro h1 h2 h3
    simp [mpvSendCommand, h1, h2, h3]

/-- Witness of C17: a `stop` command on the scripted playing object, whose
call type is Synchronous, and an invalid argument. -/
theorem mpvSendCommand_contract_witness :
    (QVariant.list [QVariant.string "stop"]).isNull = false ∧
      (QVariant.list [QVariant.string "stop"]).isValid = true ∧
      mpvCallType playingObject ≠ MpvCallType.Asynchronous ∧
      mpvSendCommand scripted playingObject (QVariant.list [QVariant.string "stop"]) =
        (true, { playingObject with
          trace := [Effect.command false (QVariant.list [QVariant.string "stop"]) 0] }) ∧
      mpvSendCommand scripted playingObject QVariant.invalid = (false, playingObject) := by
  have h := mpvSendCommand_contract scripted playingObject
    (QVariant.list [QVariant.string "stop"])
  have g := mpvSendCommand_contract scripted playingObject QVariant.invalid
  exact ⟨rfl, rfl, by decide, h.2.2 rfl rfl (by decide), g.1 (Or.inl rfl)⟩

/-- The asynchronous dispatch evaluated: after `setMpvCallType(Asynchronous)`
a rejected command goes through `command_async` and the call returns false. -/
theorem mpvSendCommand_async_evaluated :
    mpvSendCommand scripted (setMpvCallType failingObject MpvCallType.Asynchronous)
        (QVariant.list [QVariant.string "stop"]) =
      (false, { failingObject with
        currentMpvCallType := MpvCallType.Asynchronous,
        trace := [Effect.emit "mpvCallTypeChanged",
          Effect.command true (QVariant.list [QVariant.string "stop"]) (-1)] }) := by
  rfl

/-- C18 as stated fails: on the scripted object that is playing with the raw
rotation -90, `videoRotate()` returns 0, not the remainder 270. -/
theorem videoRotate_negative_counterexample :
    (isStopped scripted negativeRotationObject).1 = false ∧
      scripted.get_property negativeRotationObject.mpv "video-out-params/rotate" =
        QVariant.int (-90) ∧
      (videoRotate scripted negativeRotationObject).1 = 0 ∧
      (videoRotate scripted negativeRotationObject).1 ≠ (-90 : Int) % 360 := by
  have h : (videoRotate scripted negativeRotationObject).1 = 0 := rfl
  refine ⟨rfl, rfl, h, ?_⟩
  rw [h]
  decide

/-- C18, amended: while not Stopped, for a raw rotation `r` that is an `int`
not above 2147483287, `videoRotate()` is `r` modulo 360, the non-negative
remainder, when `r` is not negative, and 0 when `r` is negative: negative
values are raised to 0 by `qMax` before the remainder is taken. -/
theorem videoRotate_clamps_then_reduces (L : Mpv σ) (w : MpvObject σ) (r : Int)
    (hi : (L.get_property w.mpv "idle-active").toBool = false)
    (hr : L.get_property w.mpv "video-out-params/rotate" = QVariant.int r)
    (hlo : -2147483648 ≤ r) (hhi : r ≤ 2147483287) :
    (videoRotate L w).1 = (if r < 0 then 0 else r % 360) := by
  have hidle : idleActive L w.mpv = false := hi
  have hraw : (L.get_property w.mpv "video-out-params/rotate").toInt = r := by
    rw [hr]
    exact toInt32_of_range r hlo (by omega)
  rw [videoRotate_eq]
  simp only [hidle, Bool.false_eq_true, if_false, hraw]
  have h0 : 0 ≤ qMax r 0 := qMax_int_ge_right r 0
  have hcases : qMax r 0 = (if r < 0 then 0 else r) := rfl
  have h1 : qMax r 0 ≤ 2147483287 := by
    rw [hcases]; split <;> omega
  rw [toInt32_of_range _ (by omega) (by omega), Int.tmod_eq_emod (by omega) (by omega),
    hcases]
  unfold qMin
  split <;> split <;> omega

/-- Witness of the amended C18: raw rotations 450 and -90 on scripted playing
objects give 90 and 0. -/
theorem videoRotate_clamps_then_reduces_witness :
    (videoRotate scripted overRotationObject).1 = (if (450 : Int) < 0 then 0 else 450 % 360) ∧
      (videoRotate scripted overRotationObject).1 = 90 ∧
      (videoRotate scripted negativeRotationObject).1 =
        (if (-90 : Int) < 0 then 0 else -90 % 360) := by
  have h := videoRotate_clamps_then_reduces scripted overRotationObject 450 rfl rfl
    (by decide) (by decide)
  have g := videoRotate_clamps_then_reduces scripted negativeRotationObject (-90) rfl rfl
    (by decide) (by decide)
  exact ⟨h, rfl, g⟩

section TrackPartition

theorem QMap.value_insert_same (m : QMap) (key : String) (v : QVariant) :
    QMap.value (QMap.insert m key v) key = v := by
  induction m with
  | nil => simp [QMap.insert, QMap.value]
  | cons e rest ih =>
    obtain ⟨k, x⟩ := e
    by_cases h : k = key
    · simp [QMap.insert, QMap.value, h]
    · simp [QMap.insert, QMap.value, h, ih]

theorem QMap.value_insert_other (m : QMap) (key other : String) (v : QVariant)
    (h : key ≠ other) : QMap.value (QMap.insert m key v) other = QMap.value m other := by
  induction m with
  | nil => simp [QMap.insert, QMap.value, h]
  | cons e rest ih =>
    obtain ⟨k, x⟩ := e
    by_cases hk : k = key
    · subst hk
      simp [QMap.insert, QMap.value, h]
    · by_cases ho : k = other
      · have hk2 : ¬ other = key := fun e => hk (ho.trans e)
        simp [QMap.insert, QMap.value, ho, hk2]
      · simp [QMap.insert, QMap.value, hk, ho, ih]

theorem mediaTracksStep_eq (mt : MediaTracks) (track : QVariant) :
    mediaTracksStep mt track =
      (if isTrackOfType "video" track then
        { mt with videoChannels := mt.videoChannels ++ [videoTrackInfo track.toMap] }
      else if isTrackOfType "audio" track then
        { mt with audioTracks := mt.audioTracks ++ [audioTrackInfo track.toMap] }
      else if isTrackOfType "sub" track then
        { mt with subtitleStreams := mt.subtitleStreams ++ [singleTrackInfo track.toMap] }
      else mt) := by
  unfold mediaTracksStep isTrackOfType videoTrackInfo audioTrackInfo
  cases h1 : (QMap.value track.toMap "type").equalsString "video" <;>
    cases h2 : (QMap.value track.toMap "type").equalsString "audio" <;>
    cases h3 : (QMap.value track.toMap "type").equalsString "sub" <;> simp [h1, h2, h3]

theorem foldl_mediaTracksStep (trackList : List QVariant) :
    ∀ mt : MediaTracks,
      trackList.foldl mediaTracksStep mt =
        { videoChannels := mt.videoChannels ++
            (trackList.filter (isTrackOfType "video")).map (fun t => videoTrackInfo t.toMap),
          audioTracks := mt.audioTracks ++
            (trackList.filter
              (fun t => !isTrackOfType "video" t && isTrackOfType "audio" t)).map
              (fun t => audioTrackInfo t.toMap),
          subtitleStreams := mt.subtitleStreams ++
            (trackList.filter
              (fun t => !isTrackOfType "video" t && !isTrackOfType "audio" t &&
                isTrackOfType "sub" t)).map
              (fun t => singleTrackInfo t.toMap) } := by
  induction trackList with
  | nil => intro mt; simp
  | cons t rest ih =>
    intro mt
    rw [List.foldl_cons, ih, mediaTracksStep_eq]
    cases hv : isTrackOfType "video" t <;> cases ha : isTrackOfType "audio" t <;>
      cases hs : isTrackOfType "sub" t <;> simp [List.filter_cons, hv, ha, hs]

theorem filter_lengths_of_types (trackList : List QVariant) :
    (trackList.filter (isTrackOfType "video")).length +
        (trackList.filter (fun t => !isTrackOfType "video" t && isTrackOfType "audio" t)).length +
        (trackList.filter
          (fun t => !isTrackOfType "video" t && !isTrackOfType "audio" t &&
            isTrackOfType "sub" t)).length =
      (trackList.filter (fun t => isTrackOfType "video" t || isTrackOfType "audio" t ||
        isTrackOfType "sub" t)).length := by
  induction trackList with
  | nil => rfl
  | cons t rest ih =>
    cases hv : isTrackOfType "video" t <;> cases ha : isTrackOfType "audio" t <;>
      cases hs : isTrackOfType "sub" t <;> simp [List.filter_cons, hv, ha, hs] <;> omega

theorem decimalNumber_of_names :
    decimalNumber "video" = none ∧ decimalNumber "audio" = none ∧
      decimalNumber "sub" = none := by
  refine ⟨?_, ?_, ?_⟩ <;> decide

theorem equalsString_name (v : QVariant) (h : v ≠ QVariant.bool true) :
    v.equalsString "video" = v.holdsString "video" ∧
      v.equalsString "audio" = v.holdsString "audio" ∧
      v.equalsString "sub" = v.holdsString "sub" := by
  have hn := decimalNumber_of_names
  cases v with
  | bool b =>
    cases b
    · refine ⟨?_, ?_, ?_⟩ <;> decide
    · exact absurd rfl h
  | null => refine ⟨?_, ?_, ?_⟩ <;> decide
  | int i => simp [QVariant.equalsString, QVariant.holdsString, hn.1, hn.2.1, hn.2.2]
  | real q => simp [QVariant.equalsString, QVariant.holdsString, hn.1, hn.2.1, hn.2.2]
  | _ => simp [QVariant.equalsString, QVariant.holdsString]

theorem equalsString_flag :
    (QVariant.bool true).equalsString "video" = true ∧
      (QVariant.bool true).equalsString "audio" = true ∧
      (QVariant.bool true).equalsString "sub" = true := by
  refine ⟨?_, ?_, ?_⟩ <;> decide

theorem singleTrackInfo_fields (m : QMap) :
    QMap.value (singleTrackInfo m) "id" = QMap.value m "id" ∧
      QMap.value (singleTrackInfo m) "type" = QMap.value m "type" ∧
      QMap.value (singleTrackInfo m) "lang" = QMap.value m "lang" := by
  unfold singleTrackInfo
  refine ⟨?_, ?_, ?_⟩
  · simp [QMap.value_insert_same, QMap.value_insert_other]
    repeat' split
    all_goals simp [QMap.value_insert_same, QMap.value_insert_other]
  · simp [QMap.value_insert_same, QMap.value_insert_other]
    repeat' split
    all_goals simp [QMap.value_insert_same, QMap.value_insert_other]
  · simp [QMap.value_insert_same, QMap.value_insert_other]

theorem videoTrackInfo_fields (m : QMap) :
    QMap.value (videoTrackInfo m) "id" = QMap.value m "id" ∧
      QMap.value (videoTrackInfo m) "type" = QMap.value m "type" ∧
      QMap.value (videoTrackInfo m) "lang" = QMap.value m "lang" := by
  have h := singleTrackInfo_fields m
  unfold videoTrackInfo
  simp [QMap.value_insert_other, h]

theorem audioTrackInfo_fields (m : QMap) :
    QMap.value (audioTrackInfo m) "id" = QMap.value m "id" ∧
      QMap.value (audioTrackInfo m) "type" = QMap.value m "type" ∧
      QMap.value (audioTrackInfo m) "lang" = QMap.value m "lang" := by
  have h := singleTrackInfo_fields m
  unfold audioTrackInfo
  simp [QMap.value_insert_other, h]

end TrackPartition

section TrackNames

theorem holdsString_audio_not_video (v : QVariant) :
    (!v.holdsString "video" && v.holdsString "audio") = v.holdsString "audio" := by
  cases v <;> simp [QVariant.holdsString]
  intro h
  rw [h]
  decide

theorem holdsString_sub_not_others (v : QVariant) :
    (!v.holdsString "video" && !v.holdsString "audio" && v.holdsString "sub") =
      v.holdsString "sub" := by
  cases v <;> simp [QVariant.holdsString]
  intro h
  rw [h]
  decide

theorem foldl_chaptersStep (chapterList : List QVariant) :
    ∀ acc : List QMap,
      chapterList.foldl chaptersStep acc =
        acc ++ chapterList.map (fun c => chapterInfo c.toMap) := by
  induction chapterList with
  | nil => intro acc; simp
  | cons c rest ih =>
    intro acc
    rw [List.foldl_cons, ih]
    simp [chaptersStep, chapterInfo]

theorem chapterInfo_fields (m : QMap) :
    QMap.value (chapterInfo m) "title" = QMap.value m "title" ∧
      QMap.value (chapterInfo m) "time" = QMap.value m "time" := by
  unfold chapterInfo
  constructor <;> simp [QMap.value_insert_same, QMap.value_insert_other]

theorem mediaTracks_fst (L : Mpv σ) (w : MpvObject σ) :
    (mediaTracks L w).1 =
      { videoChannels :=
          (((L.get_property w.mpv "track-list").toList).filter (isTrackOfType "video")).map
            (fun t => videoTrackInfo t.toMap),
        audioTracks :=
          (((L.get_property w.mpv "track-list").toList).filter
            (fun t => !isTrackOfType "video" t && isTrackOfType "audio" t)).map
            (fun t => audioTrackInfo t.toMap),
        subtitleStreams :=
          (((L.get_property w.mpv "track-list").toList).filter
            (fun t => !isTrackOfType "video" t && !isTrackOfType "audio" t &&
              isTrackOfType "sub" t)).map
            (fun t => singleTrackInfo t.toMap) } := by
  have hf := foldl_mediaTracksStep (L.get_property w.mpv "track-list").toList
    { videoChannels := [], audioTracks := [], subtitleStreams := [] }
  have hv : (mediaTracks L w).1 =
      ((L.get_property w.mpv "track-list").toList).foldl mediaTracksStep
        { videoChannels := [], audioTracks := [], subtitleStreams := [] } := rfl
  rw [hv, hf]
  simp

theorem chapters_fst (L : Mpv σ) (w : MpvObject σ) :
    (chapters L w).1 =
      ((L.get_property w.mpv "chapter-list").toList).map (fun c => chapterInfo c.toMap) := by
  have hv : (chapters L w).1 =
      ((L.get_property w.mpv "chapter-list").toList).foldl chaptersStep [] := rfl
  rw [hv, foldl_chaptersStep]
  simp

theorem filters_by_name (trackList : List QVariant)
    (h : ∀ t ∈ trackList, QMap.value t.toMap "type" ≠ QVariant.bool true) :
    trackList.filter (isTrackOfType "video") =
        trackList.filter (fun t => (QMap.value t.toMap "type").holdsString "video") ∧
      trackList.filter (fun t => !isTrackOfType "video" t && isTrackOfType "audio" t) =
        trackList.filter (fun t => (QMap.value t.toMap "type").holdsString "audio") ∧
      trackList.filter
          (fun t => !isTrackOfType "video" t && !isTrackOfType "audio" t &&
            isTrackOfType "sub" t) =
        trackList.filter (fun t => (QMap.value t.toMap "type").holdsString "sub") ∧
      trackList.filter (fun t => isTrackOfType "video" t || isTrackOfType "audio" t ||
          isTrackOfType "sub" t) =
        trackList.filter (fun t => (QMap.value t.toMap "type").holdsString "video" ||
          (QMap.value t.toMap "type").holdsString "audio" ||
          (QMap.value t.toMap "type").holdsString "sub") := by
  refine ⟨?_, ?_, ?_, ?_⟩ <;>
  · apply List.filter_congr
    intro t ht
    have hn := equalsString_name _ (h t ht)
    simp only [isTrackOfType, hn.1, hn.2.1, hn.2.2, holdsString_audio_not_video,
      holdsString_sub_not_others]

end TrackNames

/-- C6, amended: `mediaTracks()` and `chapters()` have no stopped-state gate.
In every playback state, Stopped included, each makes exactly one native read,
of `track-list` and of `chapter-list`, and changes nothing else, and returns
the projection of what it read: `chapters()` returns, in order, one map per
entry of `chapter-list` carrying the `title` and `time` of that entry, and
`mediaTracks()` returns the projections of the entries of `track-list` that
compare equal to `video`, to `audio` and not `video`, and to `sub` and neither
of the others.  So when the value read holds no entries, `mediaTracks()`
returns three empty track lists and `chapters()` an empty chapter list. -/
theorem track_lists_follow_native_lists (L : Mpv σ) (w : MpvObject σ) :
    (mediaTracks L w).2 = { w with trace := w.trace ++ [Effect.getProperty "track-list"] } ∧
      (chapters L w).2 = { w with trace := w.trace ++ [Effect.getProperty "chapter-list"] } ∧
      (mediaTracks L w).1 =
        { videoChannels :=
            (((L.get_property w.mpv "track-list").toList).filter (isTrackOfType "video")).map
              (fun t => videoTrackInfo t.toMap),
          audioTracks :=
            (((L.get_property w.mpv "track-list").toList).filter
              (fun t => !isTrackOfType "video" t && isTrackOfType "audio" t)).map
              (fun t => audioTrackInfo t.toMap),
          subtitleStreams :=
            (((L.get_property w.mpv "track-list").toList).filter
              (fun t => !isTrackOfType "video" t && !isTrackOfType "audio" t &&
                isTrackOfType "sub" t)).map
              (fun t => singleTrackInfo t.toMap) } ∧
      (chapters L w).1 =
        ((L.get_property w.mpv "chapter-list").toList).map (fun c => chapterInfo c.toMap) ∧
      (chapters L w).1.length = ((L.get_property w.mpv "chapter-list").toList).length ∧
      (∀ m : QMap, QMap.value (chapterInfo m) "title" = QMap.value m "title" ∧
        QMap.value (chapterInfo m) "time" = QMap.value m "time") ∧
      ((L.get_property w.mpv "track-list").toList = [] →
        (mediaTracks L w).1.videoChannels = [] ∧ (mediaTracks L w).1.audioTracks = [] ∧
          (mediaTracks L w).1.subtitleStreams = []) ∧
      ((L.get_property w.mpv "chapter-list").toList = [] → (chapters L w).1 = []) := by
  refine ⟨rfl, rfl, mediaTracks_fst L w, chapters_fst L w, ?_, chapterInfo_fields, ?_, ?_⟩
  · rw [chapters_fst, List.length_map]
  · intro h
    rw [mediaTracks_fst, h]
    exact ⟨rfl, rfl, rfl⟩
  · intro h
    rw [chapters_fst, h]
    rfl

/-- Witness of the amended C6: the scripted stopped object whose player
reports empty lists returns empty lists, and the scripted stopped object whose
player reports one video track and one chapter returns the projections of
that track and of that chapter. -/
theorem track_lists_follow_native_lists_witness :
    ((isStopped scripted idleObject).1 = true ∧
      (scripted.get_property idleObject.mpv "track-list").toList = [] ∧
      (scripted.get_property idleObject.mpv "chapter-list").toList = [] ∧
      (mediaTracks scripted idleObject).1.videoChannels = [] ∧
      (mediaTracks scripted idleObject).1.audioTracks = [] ∧
      (mediaTracks scripted idleObject).1.subtitleStreams = [] ∧
      (chapters scripted idleObject).1 = [] ∧
      queriedProperties (mediaTracks scripted idleObject).2.trace = ["track-list"] ∧
      queriedProperties (chapters scripted idleObject).2.trace = ["chapter-list"]) ∧
    ((isStopped scripted stoppedObject).1 = true ∧
      (mediaTracks scripted stoppedObject).1.videoChannels.map
          (fun m => (QMap.value m "id", QMap.value m "type")) =
        [(QVariant.int 1, QVariant.string "video")] ∧
      (mediaTracks scripted stoppedObject).1.audioTracks = [] ∧
      (mediaTracks scripted stoppedObject).1.subtitleStreams = [] ∧
      (chapters scripted stoppedObject).1.map
          (fun m => (QMap.value m "title", QMap.value m "time")) =
        [(QVariant.string "Intro", QVariant.int 0)] ∧
      (chapters scripted stoppedObject).1.length = 1) := by
  have h := track_lists_follow_native_lists scripted idleObject
  have ht := h.2.2.2.2.2.2.1 rfl
  have g := track_lists_follow_native_lists scripted stoppedObject
  refine ⟨⟨rfl, rfl, rfl, ht.1, ht.2.1, ht.2.2, h.2.2.2.2.2.2.2 rfl, by rw [h.1]; rfl,
    by rw [h.2.1]; rfl⟩, ⟨rfl, ?_, ?_, ?_, ?_, ?_⟩⟩
  · rw [g.2.2.1]; rfl
  · rw [g.2.2.1]; rfl
  · rw [g.2.2.1]; rfl
  · rw [g.2.2.2.1]; rfl
  · rw [g.2.2.2.2.1]; rfl

/-- C19 as stated fails: on the scripted object whose only track has the flag
true as its `type`, no entry has the type `video`, `audio` or `sub`, yet
`videoChannels` holds the projection of that entry, so that the three lengths
add up to 1 and not to 0. -/
theorem mediaTracks_flag_type_counterexample :
    (scripted.get_property flagTypeObject.mpv "track-list").toList =
        [QVariant.map [("id", QVariant.int 1), ("type", QVariant.bool true)]] ∧
      ((scripted.get_property flagTypeObject.mpv "track-list").toList.filter
        (fun t => (QMap.value t.toMap "type").holdsString "video" ||
          (QMap.value t.toMap "type").holdsString "audio" ||
          (QMap.value t.toMap "type").holdsString "sub")).length = 0 ∧
      (mediaTracks scripted flagTypeObject).1.videoChannels.map
          (fun m => (QMap.value m "id", QMap.value m "type")) =
        [(QVariant.int 1, QVariant.bool true)] ∧
      (mediaTracks scripted flagTypeObject).1.videoChannels.length +
          (mediaTracks scripted flagTypeObject).1.audioTracks.length +
          (mediaTracks scripted flagTypeObject).1.subtitleStreams.length = 1 := by
  refine ⟨rfl, rfl, rfl, rfl⟩

/-- C19, amended: `mediaTracks()` sorts the entries of the native `track-list`
by comparing their `type` with the names `video`, `audio`, `sub` in this
order, as `QVariant` compares with a string: `videoChannels` holds the
projections of the entries equal to `video`, `audioTracks` of those equal to
`audio` and not to `video`, `subtitleStreams` of those equal to `sub` and to
neither of the others, each in the order of the list; the other entries are
dropped, so that the three lengths add up to the number of entries equal to
one of the names; and each projection carries the `id`, `type` and `lang` of
its entry unchanged.  For a track list in which no `type` is the flag true,
the entries equal to a name are exactly those whose `type` is that string. -/
theorem mediaTracks_partitions_by_type (L : Mpv σ) (w : MpvObject σ) :
    ((mediaTracks L w).1.videoChannels =
        (((L.get_property w.mpv "track-list").toList).filter (isTrackOfType "video")).map
          (fun t => videoTrackInfo t.toMap) ∧
      (mediaTracks L w).1.audioTracks =
        (((L.get_property w.mpv "track-list").toList).filter
          (fun t => !isTrackOfType "video" t && isTrackOfType "audio" t)).map
          (fun t => audioTrackInfo t.toMap) ∧
      (mediaTracks L w).1.subtitleStreams =
        (((L.get_property w.mpv "track-list").toList).filter
          (fun t => !isTrackOfType "video" t && !isTrackOfType "audio" t &&
            isTrackOfType "sub" t)).map
          (fun t => singleTrackInfo t.toMap) ∧
      (mediaTracks L w).1.videoChannels.length + (mediaTracks L w).1.audioTracks.length +
          (mediaTracks L w).1.subtitleStreams.length =
        (((L.get_property w.mpv "track-list").toList).filter
          (fun t => isTrackOfType "video" t || isTrackOfType "audio" t ||
            isTrackOfType "sub" t)).length) ∧
    (∀ m : QMap,
      (QMap.value (videoTrackInfo m) "id" = QMap.value m "id" ∧
        QMap.value (videoTrackInfo m) "type" = QMap.value m "type" ∧
        QMap.value (videoTrackInfo m) "lang" = QMap.value m "lang") ∧
      (QMap.value (audioTrackInfo m) "id" = QMap.value m "id" ∧
        QMap.value (audioTrackInfo m) "type" = QMap.value m "type" ∧
        QMap.value (audioTrackInfo m) "lang" = QMap.value m "lang") ∧
      (QMap.value (singleTrackInfo m) "id" = QMap.value m "id" ∧
        QMap.value (singleTrackInfo m) "type" = QMap.value m "type" ∧
        QMap.value (singleTrackInfo m) "lang" = QMap.value m "lang")) ∧
    ((∀ t ∈ (L.get_property w.mpv "track-list").toList,
        QMap.value t.toMap "type" ≠ QVariant.bool true) →
      (mediaTracks L w).1.videoChannels =
        (((L.get_property w.mpv "track-list").toList).filter
          (fun t => (QMap.value t.toMap "type").holdsString "video")).map
          (fun t => videoTrackInfo t.toMap) ∧
      (mediaTracks L w).1.audioTracks =
        (((L.get_property w.mpv "track-list").toList).filter
          (fun t => (QMap.value t.toMap "type").holdsString "audio")).map
          (fun t => audioTrackInfo t.toMap) ∧
      (mediaTracks L w).1.subtitleStreams =
        (((L.get_property w.mpv "track-list").toList).filter
          (fun t => (QMap.value t.toMap "type").holdsString "sub")).map
          (fun t => singleTrackInfo t.toMap) ∧
      (mediaTracks L w).1.videoChannels.length + (mediaTracks L w).1.audioTracks.length +
          (mediaTracks L w).1.subtitleStreams.length =
        (((L.get_property w.mpv "track-list").toList).filter
          (fun t => (QMap.value t.toMap "type").holdsString "video" ||
            (QMap.value t.toMap "type").holdsString "audio" ||
            (QMap.value t.toMap "type").holdsString "sub")).length) := by
  have hlen := filter_lengths_of_types (L.get_property w.mpv "track-list").toList
  rw [mediaTracks_fst]
  refine ⟨⟨rfl, rfl, rfl, ?_⟩, ?_, ?_⟩
  · simp only [List.length_map]
    exact hlen
  · intro m
    exact ⟨videoTrackInfo_fields m, audioTrackInfo_fields m, singleTrackInfo_fields m⟩
  · intro h
    have hf := filters_by_name _ h
    refine ⟨?_, ?_, ?_, ?_⟩
    · simp only [hf.1]
    · simp only [hf.2.1]
    · simp only [hf.2.2.1]
    · simp only [List.length_map]
      rw [hlen, hf.2.2.2]

/-- Witness of the amended C19: in the track list of the scripted object with
five entries every `type` is a string, so that its video channel, its two
audio tracks and its subtitle stream are the projections of the entries whose
`type` is the string `video`, `audio` and `sub`, and the attachment is
dropped. -/
theorem mediaTracks_partitions_by_type_witness :
    (∀ t ∈ (scripted.get_property tracksObject.mpv "track-list").toList,
        QMap.value t.toMap "type" ≠ QVariant.bool true) ∧
      (scripted.get_property tracksObject.mpv "track-list").toList.length = 5 ∧
      (mediaTracks scripted tracksObject).1.videoChannels.map
          (fun m => (QMap.value m "id", QMap.value m "type")) =
        [(QVariant.int 1, QVariant.string "video")] ∧
      (mediaTracks scripted tracksObject).1.audioTracks.map
          (fun m => (QMap.value m "id", QMap.value m "type")) =
        [(QVariant.int 1, QVariant.string "audio"), (QVariant.int 2, QVariant.string "audio")] ∧
      (mediaTracks scripted tracksObject).1.subtitleStreams.map
          (fun m => (QMap.value m "id", QMap.value m "type")) =
        [(QVariant.int 1, QVariant.string "sub")] ∧
      (mediaTracks scripted tracksObject).1.videoChannels.length +
          (mediaTracks scripted tracksObject).1.audioTracks.length +
          (mediaTracks scripted tracksObject).1.subtitleStreams.length = 4 := by
  have hl : (scripted.get_property tracksObject.mpv "track-list").toList =
      [QVariant.map [("id", QVariant.int 1), ("type", QVariant.string "audio"),
         ("lang", QVariant.string "eng")],
       QVariant.map [("id", QVariant.int 1), ("type", QVariant.string "video")],
       QVariant.map [("id", QVariant.int 7), ("type", QVariant.string "attachment")],
       QVariant.map [("id", QVariant.int 2), ("type", QVariant.string "audio"),
         ("lang", QVariant.string "und")],
       QVariant.map [("id", QVariant.int 1), ("type", QVariant.string "sub"),
         ("lang", QVariant.string "fra"), ("title", QVariant.string "Forced")]] := rfl
  have hty : ∀ t ∈ (scripted.get_property tracksObject.mpv "track-list").toList,
      QMap.value t.toMap "type" ≠ QVariant.bool true := by
    intro t ht
    rw [hl] at ht
    simp only [List.mem_cons, List.mem_singleton, List.not_mem_nil, or_false] at ht
    rcases ht with rfl | rfl | rfl | rfl | rfl
    · show QVariant.string "audio" ≠ QVariant.bool true
      exact fun h => QVariant.noConfusion h
    · show QVariant.string "video" ≠ QVariant.bool true
      exact fun h => QVariant.noConfusion h
    · show QVariant.string "attachment" ≠ QVariant.bool true
      exact fun h => QVariant.noConfusion h
    · show QVariant.string "audio" ≠ QVariant.bool true
      exact fun h => QVariant.noConfusion h
    · show QVariant.string "sub" ≠ QVariant.bool true
      exact fun h => QVariant.noConfusion h
  have h := (mediaTracks_partitions_by_type scripted tracksObject).2.2 hty
  refine ⟨hty, rfl, ?_, ?_, ?_, ?_⟩
  · rw [h.1]; rfl
  · rw [h.2.1]; rfl
  · rw [h.2.2.1]; rfl
  · rw [h.2.2.2]; rfl

/-- The track lists of the scripted object with five entries, evaluated: one
video channel, the two audio tracks in their order, one subtitle stream, the
attachment dropped; the titles are the language, `[internal]` and the given
title. -/
theorem mediaTracks_evaluated :
    ((mediaTracks scripted tracksObject).1.videoChannels.map
        (fun m => (QMap.value m "id", QMap.value m "type")) =
      [(QVariant.int 1, QVariant.string "video")]) ∧
    ((mediaTracks scripted tracksObject).1.audioTracks.map
        (fun m => (QMap.value m "id", QMap.value m "lang", QMap.value m "title")) =
      [(QVariant.int 1, QVariant.string "eng", QVariant.string "eng"),
       (QVariant.int 2, QVariant.string "und", QVariant.string "[internal]")]) ∧
    ((mediaTracks scripted tracksObject).1.subtitleStreams.map
        (fun m => (QMap.value m "id", QMap.value m "lang", QMap.value m "title")) =
      [(QVariant.int 1, QVariant.string "fra", QVariant.string "Forced")]) ∧
    (scripted.get_property tracksObject.mpv "track-list").toList.length = 5 := by
  refine ⟨rfl, rfl, rfl, rfl⟩

/-- C20: `setPosition(p)`, when the state is not Stopped and `p` differs from
`position()`, issues exactly one command `seek` whose mode tag is `relative`
and whose value is `p` clamped to [0, duration()] and then to
[-position(), duration() - position()]; for 0 <= p <= duration() that value is
min(p, duration() - position()), so the position asked of the player is
position() + min(p, duration() - position()). -/
theorem setPosition_seeks_relative (L : Mpv σ) (w : MpvObject σ) (p : Int)
    (hi : (L.get_property w.mpv "idle-active").toBool = false)
    (hne : p ≠ (position L w).1) :
    (∃ code,
      issuedCommands (setPosition L w p).trace =
        issuedCommands w.trace ++
          [(QVariant.list [QVariant.string "seek",
              QVariant.int (qBound (-(position L w).1) (qBound 0 p (duration L w).1)
                ((duration L w).1 - (position L w).1)),
              QVariant.string "relative"], code)]) ∧
    (0 ≤ p → p ≤ (duration L w).1 →
      qBound (-(position L w).1) (qBound 0 p (duration L w).1)
          ((duration L w).1 - (position L w).1) =
        min p ((duration L w).1 - (position L w).1)) := by
  have hidle : idleActive L w.mpv = false := hi
  have hpos := positionOf_nonneg L w.mpv
  have hle := positionOf_le_duration L w.mpv
  simp only [position_eq, duration_eq] at hne ⊢
  constructor
  · have hr : allReads (stateReads ++ (positionReads L w.mpv ++ durationReads L w.mpv)) =
        true := by
      simp [allReads_append, allReads_stateReads, allReads_positionReads,
        allReads_durationReads]
    have hs := seek_commands_logs L w _ hr (qBound 0 p (durationOf L w.mpv)) false false hidle
    refine ⟨(commandResult L w.currentMpvCallType w.mpv
      (seekArguments L w.mpv (qBound 0 p (durationOf L w.mpv)) false false)).1, ?_⟩
    have hset : setPosition L w p =
        (seek L (w.logs (stateReads ++ (positionReads L w.mpv ++ durationReads L w.mpv)))
          (qBound 0 p (durationOf L w.mpv)) false false).2 := by
      simp [setPosition, isStopped_eq, hidle, position_eq, duration_eq, hne,
        seekDefaultAbsolute, seekDefaultPercent]
    rw [hset, hs]
    simp [seekArguments, seekMin_relative, seekMax_relative, seekMode]
  · intro h0 h1
    unfold qBound qMax qMin
    repeat' split
    all_goals omega

/-- Witness of C20: `setPosition(80)` on the scripted object at position 50
of 100 asks for a relative seek by 50, that is for position 100, not 80. -/
theorem setPosition_seeks_relative_witness :
    (scripted.get_property playingObject.mpv "idle-active").toBool = false ∧
      (80 : Int) ≠ (position scripted playingObject).1 ∧
      (position scripted playingObject).1 = 50 ∧
      (duration scripted playingObject).1 = 100 ∧
      issuedCommands (setPosition scripted playingObject 80).trace =
        [(QVariant.list [QVariant.string "seek", QVariant.int 50,
          QVariant.string "relative"], 0)] ∧
      qBound (-(position scripted playingObject).1)
          (qBound 0 80 (duration scripted playingObject).1)
          ((duration scripted playingObject).1 - (position scripted playingObject).1) =
        min 80 ((duration scripted playingObject).1 - (position scripted playingObject).1) := by
  have h := setPosition_seeks_relative scripted playingObject 80 rfl (by decide)
  exact ⟨rfl, by decide, rfl, rfl, rfl, h.2 (by decide) (by decide)⟩

/-- A refused change of the log level, evaluated: on the scripted object whose
player rejects every call, `setLogLevel(Info)` still makes the three native
calls and emits nothing. -/
theorem setLogLevel_failure_evaluated :
    (setLogLevel scripted failingObject LogLevel.Info).trace =
      [Effect.getProperty "msg-level",
       Effect.setProperty false "terminal" (QVariant.bool true) (-1),
       Effect.setProperty false "msg-level" (QVariant.string "all=info") (-1),
       Effect.requestLogMessages "info" (-1)] := by
  rfl

section LogLevelRead

variable (L : Mpv σ) (w : MpvObject σ)

theorem logLevel_fst :
    (logLevel L w).1 = logLevelOf (L.get_property w.mpv "msg-level").toString := by
  simp only [logLevel, mpvGetProperty_eq, logLevelOf, actualLevelOf]
  repeat' split
  all_goals rfl

theorem indexOf_append_of_not_mem (a b : List Char) (c : Char) (h : c ∉ a) :
    (a ++ c :: b).indexOf? c = some a.length := by
  induction a with
  | nil => simp [List.indexOf?, List.findIdx?_cons]
  | cons x rest ih =>
    have hx : x ≠ c := fun e => h (by simp [e])
    have hr : c ∉ rest := fun e => h (by simp [e])
    have := ih hr
    simp [List.indexOf?, List.findIdx?_cons, hx] at this ⊢
    simpa using this

theorem indexOf_of_not_mem (a : List Char) (c : Char) (h : c ∉ a) : a.indexOf? c = none := by
  simp [List.indexOf?, List.findIdx?_eq_none_iff]
  intro x hx e
  exact h (e ▸ hx)

theorem right_after_last (pre name : List Char) (c : Char) (h : c ∉ name) :
    right (pre ++ c :: name)
        (((pre ++ c :: name).length : Int) - lastIndexOf (pre ++ c :: name) c - 1) = name := by
  have hrev : (pre ++ c :: name).reverse = name.reverse ++ c :: pre.reverse := by simp
  have hidx : (pre ++ c :: name).reverse.indexOf? c = some name.length := by
    rw [hrev]
    have := indexOf_append_of_not_mem name.reverse pre.reverse c (by simpa using h)
    simpa using this
  unfold lastIndexOf right
  rw [hidx]
  simp only [List.length_append, List.length_cons]
  have hn : (((pre.length + (name.length + 1) : Nat) : Int) -
      (((pre.length + (name.length + 1) : Nat) : Int) - 1 - (name.length : Int)) - 1).toNat =
      name.length := by omega
  rw [hn]
  have hd : pre.length + (name.length + 1) - name.length = pre.length + 1 := by omega
  rw [hd]
  have : pre ++ c :: name = (pre ++ [c]) ++ name := by simp
  rw [this]
  exact List.drop_left' (by simp)

theorem right_without (name : List Char) (c : Char) (h : c ∉ name) :
    right name ((name.length : Int) - lastIndexOf name c - 1) = name := by
  have hidx : name.reverse.indexOf? c = none :=
    indexOf_of_not_mem name.reverse c (by simpa using h)
  unfold lastIndexOf right
  rw [hidx]
  have hn : ((name.length : Int) - (-1) - 1).toNat = name.length := by omega
  rw [hn]
  simp

end LogLevelRead

section LogLevelNames

theorem actualLevelOf_after_equals (pre name : String) (h : '=' ∉ name.data) :
    actualLevelOf (pre ++ "=" ++ name) = name := by
  have hd : (pre ++ "=" ++ name).data = pre.data ++ '=' :: name.data := by
    simp [String.data_append]
  unfold actualLevelOf
  rw [hd, right_after_last pre.data name.data '=' h]

theorem actualLevelOf_without_equals (name : String) (h : '=' ∉ name.data) :
    actualLevelOf name = name := by
  unfold actualLevelOf
  rw [right_without name.data '=' h]

theorem logLevelOf_unrecognised (level : String)
    (h1 : level ≠ "") (h2 : level ≠ "no") (h3 : level ≠ "off")
    (h : actualLevelOf level ∉
      ["", "no", "off", "v", "debug", "trace", "warn", "error", "fatal", "info"]) :
    logLevelOf level = LogLevel.Debug := by
  simp only [List.mem_cons, List.mem_singleton, List.not_mem_nil, or_false, not_or] at h
  obtain ⟨a1, a2, a3, a4, a5, a6, a7, a8, a9, a10⟩ := h
  simp [logLevelOf, h1, h2, h3, a1, a2, a3, a4, a5, a6, a7, a8, a9, a10]

theorem append_equals_ne (pre name : String) :
    pre ++ "=" ++ name ≠ "" ∧ pre ++ "=" ++ name ≠ "no" ∧ pre ++ "=" ++ name ≠ "off" := by
  have hmem : '=' ∈ (pre ++ "=" ++ name).data := by
    simp [String.data_append]
  refine ⟨?_, ?_, ?_⟩ <;>
  · intro e
    rw [e] at hmem
    revert hmem
    decide

end LogLevelNames

/-- C21: `logLevel()` reads back what `setLogLevel` writes: for each of the six
levels, when the native property `msg-level` holds `all=` followed by the name
`setLogLevel` maps the level to, `logLevel()` returns that level.  It returns
Off for an empty `msg-level`, and Debug when the name after the last `=` (the
whole text when it has no `=`) is none of the names it knows, the empty name
included. -/
theorem logLevel_round_trip (L : Mpv σ) (w : MpvObject σ) :
    (∀ lv : LogLevel,
      L.get_property w.mpv "msg-level" = QVariant.string ("all=" ++ logLevelName lv) →
        (logLevel L w).1 = lv) ∧
    (L.get_property w.mpv "msg-level" = QVariant.string "" →
      (logLevel L w).1 = LogLevel.Off) ∧
    (∀ pre name : String,
      '=' ∉ name.data →
      name ∉ ["", "no", "off", "v", "debug", "trace", "warn", "error", "fatal", "info"] →
      (L.get_property w.mpv "msg-level" = QVariant.string (pre ++ "=" ++ name) ∨
        L.get_property w.mpv "msg-level" = QVariant.string name) →
      (logLevel L w).1 = LogLevel.Debug) := by
  refine ⟨?_, ?_, ?_⟩
  · intro lv h
    rw [logLevel_fst, h]
    cases lv <;> rfl
  · intro h
    rw [logLevel_fst, h]
    rfl
  · intro pre name hno hname h
    rw [logLevel_fst]
    rcases h with h | h
    · rw [h]
      have hne := append_equals_ne pre name
      apply logLevelOf_unrecognised _ hne.1 hne.2.1 hne.2.2
      show actualLevelOf (pre ++ "=" ++ name) ∉ _
      rw [actualLevelOf_after_equals pre name hno]
      exact hname
    · rw [h]
      have hm := hname
      simp only [List.mem_cons, List.mem_singleton, List.not_mem_nil, or_false, not_or] at hm
      apply logLevelOf_unrecognised _ hm.1 hm.2.1 hm.2.2.1
      show actualLevelOf name ∉ _
      rw [actualLevelOf_without_equals name hno]
      exact hname

/-- Witness of C21: the scripted object whose `msg-level` is `all=warn` reads
back Warning, and the one whose `msg-level` is `cplayer=status,all=bogus`
reads Debug. -/
theorem logLevel_round_trip_witness :
    scripted.get_property warnObject.mpv "msg-level" =
        QVariant.string ("all=" ++ logLevelName LogLevel.Warning) ∧
      (logLevel scripted warnObject).1 = LogLevel.Warning ∧
      scripted.get_property bogusLevelObject.mpv "msg-level" =
        QVariant.string ("cplayer=status,all" ++ "=" ++ "bogus") ∧
      (logLevel scripted bogusLevelObject).1 = LogLevel.Debug := by
  have h := logLevel_round_trip scripted warnObject
  have g := logLevel_round_trip scripted bogusLevelObject
  exact ⟨rfl, h.1 LogLevel.Warning rfl, rfl,
    g.2.2 "cplayer=status,all" "bogus" (by decide) (by decide) (Or.inl rfl)⟩

/-- The round trip through the scripted player, evaluated: after
`setLogLevel(Critical)` the value written to `msg-level` is `all=error`, and a
player holding that value reads back Critical. -/
theorem logLevel_written_value_evaluated :
    propertyWrites (setLogLevel scripted warnObject LogLevel.Critical).trace =
        [("terminal", QVariant.bool true, 0),
         ("msg-level", QVariant.string "all=error", 0)] ∧
      logLevelOf "all=error" = LogLevel.Critical ∧
      logLevelOf "" = LogLevel.Off ∧
      logLevelOf "all=" = LogLevel.Off ∧
      logLevelOf "all=trace" = LogLevel.Debug := by
  refine ⟨rfl, rfl, rfl, rfl, rfl⟩

end MpvPlugin
